import Mathlib

/-!
# MQTT service inspector and `byte_math` rule option (snort3)

A shallow embedding of `src/service_inspectors/mqtt` (`mqtt.cc`, `mqtt_paf.cc`,
`mqtt_message.cc`, `ips_mqtt_flags.cc`) and of `src/ips_options/ips_byte_math.cc`,
together with the properties of the design specification that have been checked against
them.  The definitions of both come first, in the namespaces `Mqtt` and `ByteMath`, the
properties follow.

Conventions of the embedding

* `uint8_t` values are `Fin 256`; wider unsigned machine integers are `Nat` with an
  explicit reduction modulo `2 ^ w` at every place where the C++ arithmetic can wrap.
* A `const uint8_t*` cursor is the list of the bytes from the pointer onwards; reading
  `*p` on the empty list is a read outside the buffer and makes the function return
  `none`.
* C++ enumerations keep the names of their enumerators.
-/

namespace Mqtt

/-- The C++ type `uint8_t`. -/
abbrev Byte := Fin 256

/-- The constant `UINT32_MAX`. -/
def UINT32_MAX : Nat := 4294967295

/-! ## `mqtt.cc`: variable-length integer and fixed header -/

/-- The `do { ... } while` loop of `MQTT_parse_variable_int` (mqtt.cc:97-104).
`multiplier` is the `uint8_t` local (so `multiplier *= 128` is reduced modulo 256) and
`value` the `uint32_t` local.  The result is the returned value together with the
advanced cursor; on the `UINT32_MAX` path the cursor has not been advanced past the
current byte, because the increment sits in the loop condition. -/
def MQTT_parse_variable_int_loop : List Byte → Nat → Nat → Option (Nat × List Byte)
  | [], _, _ => none
  | b :: rest, multiplier, value =>
    let value := (value + (b.val &&& 127) * multiplier) % 2 ^ 32
    let multiplier := (multiplier * 128) % 256
    if multiplier > 128 * 128 * 128 then some (UINT32_MAX, b :: rest)
    else if (b.val &&& 128) ≠ 0 then MQTT_parse_variable_int_loop rest multiplier value
    else some (value, rest)

/-- The function `MQTT_parse_variable_int` (mqtt.cc:89-107).  The null-pointer guard of
line 91 has no counterpart: a list cursor is never null. -/
def MQTT_parse_variable_int (encoded_byte : List Byte) : Option (Nat × List Byte) :=
  MQTT_parse_variable_int_loop encoded_byte 1 0

/-- Modelled from the spec: the encoder `encode(value)` of section 4.1, which is not part
of the source.  It is the MQTT base-128 scheme: low 7 bits first, bit 7 set on every byte
but the last; the first argument bounds the number of bytes produced. -/
def encode_variable_int_upto : Nat → Nat → List Byte
  | 0, _ => []
  | k + 1, n =>
    if n / 128 = 0 then [⟨n % 128, by omega⟩]
    else ⟨n % 128 + 128, by omega⟩ :: encode_variable_int_upto k (n / 128)

/-- Modelled from the spec: `encode(value)` of section 4.1 with its 1 to 4 bytes. -/
def MQTT_encode_variable_int (n : Nat) : List Byte :=
  encode_variable_int_upto 4 n

/-- The struct `MQTTFixedHeader` (mqtt_message.h:32-40).  `pkt_type` holds the numeric
value of the `MqttCommandType` enumerator. -/
structure MQTTFixedHeader where
  pkt_type : Nat := 0
  bit0 : Bool := false
  bit1 : Bool := false
  bit2 : Bool := false
  bit3 : Bool := false
  remaining_len : Nat := 0
deriving DecidableEq, Repr

/-- The function `MQTT_parse_fixed_header` (mqtt.cc:109-126); `max_len` is the `uint32_t`
parameter, so `max_len - 1` is computed modulo `2 ^ 32`.  The trace output of line 123 is
left out.  The second component is the cursor after the header. -/
def MQTT_parse_fixed_header (data : List Byte) (max_len : Nat) :
    Option (MQTTFixedHeader × List Byte) :=
  match data with
  | [] => none
  | header_byte :: data1 =>
    match MQTT_parse_variable_int data1 with
    | none => none
    | some (v, data2) =>
      some ({ pkt_type := header_byte.val >>> 4
              bit0 := decide ((header_byte.val &&& 1) ≠ 0)
              bit1 := decide ((header_byte.val &&& 2) ≠ 0)
              bit2 := decide ((header_byte.val &&& 4) ≠ 0)
              bit3 := decide ((header_byte.val &&& 8) ≠ 0)
              remaining_len := min v ((max_len % 2 ^ 32 + 2 ^ 32 - 1) % 2 ^ 32) }, data2)

/-! ## `mqtt_paf.cc`: the stream splitter -/

/-- The enum `MqttPafState` (mqtt_paf.h:30-38). -/
inductive MqttPafState where
  | MQTT_PAF_FIX_HEAD_STATE
  | MQTT_PAF_REM_LEN1_STATE
  | MQTT_PAF_REM_LEN2_STATE
  | MQTT_PAF_REM_LEN3_STATE
  | MQTT_PAF_REM_LEN4_STATE
  | MQTT_PAF_VAR_DATA_STATE
deriving DecidableEq, Repr

/-- The data members of `MqttSplitter` (mqtt_paf.h:50-53); `remain_data_len` is a
`uint32_t`. -/
structure MqttSplitter where
  mqtt_state : MqttPafState
  remain_data_len : Nat
deriving DecidableEq, Repr

/-- The constructor `MqttSplitter::MqttSplitter` (mqtt_paf.cc:32-36). -/
def MqttSplitter.init : MqttSplitter :=
  { mqtt_state := .MQTT_PAF_FIX_HEAD_STATE, remain_data_len := 0 }

/-- The values of `StreamSplitter::Status` that `MqttSplitter::scan` returns. -/
inductive Status where
  | ABORT
  | SEARCH
  | FLUSH
deriving DecidableEq, Repr

/-- What one call of `MqttSplitter::scan` leaves behind: the returned status, the value
written through `fp` (`none` when `*fp` is not written) and the splitter members. -/
structure ScanResult where
  status : Status
  fp : Option Nat
  splitter : MqttSplitter
deriving DecidableEq, Repr

open MqttPafState Status in
/-- The `while (n < len)` loop of `MqttSplitter::scan` (mqtt_paf.cc:44-134).  The second
argument is `data + n` (the bytes from index `n` to `len`), the third is `n`, and the
first bounds the number of iterations; `scan` starts it with `len`, which is enough
because every iteration that continues advances `n`.  `remain_data_len` is reduced
modulo `2 ^ 32` after each addition.  The `default:` label of the switch has no
counterpart since `MqttPafState` has exactly the six enumerators. -/
def scanLoop : Nat → List Byte → Nat → MqttSplitter → ScanResult
  | 0, _, _, s => ⟨SEARCH, none, s⟩
  | _ + 1, [], _, s => ⟨SEARCH, none, s⟩
  | fuel + 1, b :: rest, n, s =>
    match s.mqtt_state with
    | MQTT_PAF_FIX_HEAD_STATE =>
      let command_type := b.val >>> 4
      if command_type = 0 ∨ command_type > 15 then ⟨ABORT, none, s⟩
      else scanLoop fuel rest (n + 1) { s with mqtt_state := MQTT_PAF_REM_LEN1_STATE }
    | MQTT_PAF_REM_LEN1_STATE =>
      let len1 := (s.remain_data_len + (b.val &&& 127)) % 2 ^ 32
      if (b.val &&& 128) ≠ 0 then
        scanLoop fuel rest (n + 1) ⟨MQTT_PAF_REM_LEN2_STATE, len1⟩
      else if len1 ≠ 0 then
        scanLoop fuel rest (n + 1) ⟨MQTT_PAF_VAR_DATA_STATE, len1⟩
      else ⟨FLUSH, some n, ⟨MQTT_PAF_FIX_HEAD_STATE, len1⟩⟩
    | MQTT_PAF_REM_LEN2_STATE =>
      let len2 := (s.remain_data_len + (b.val &&& 127) * 128) % 2 ^ 32
      if (b.val &&& 128) ≠ 0 then
        scanLoop fuel rest (n + 1) ⟨MQTT_PAF_REM_LEN3_STATE, len2⟩
      else scanLoop fuel rest (n + 1) ⟨MQTT_PAF_VAR_DATA_STATE, len2⟩
    | MQTT_PAF_REM_LEN3_STATE =>
      let len3 := (s.remain_data_len + (b.val &&& 127) * 128 * 128) % 2 ^ 32
      if (b.val &&& 128) ≠ 0 then
        scanLoop fuel rest (n + 1) ⟨MQTT_PAF_REM_LEN4_STATE, len3⟩
      else scanLoop fuel rest (n + 1) ⟨MQTT_PAF_VAR_DATA_STATE, len3⟩
    | MQTT_PAF_REM_LEN4_STATE =>
      let len4 := (s.remain_data_len + (b.val &&& 127) * 128 * 128 * 128) % 2 ^ 32
      if (b.val &&& 128) ≠ 0 then ⟨ABORT, none, ⟨MQTT_PAF_REM_LEN4_STATE, len4⟩⟩
      else scanLoop fuel rest (n + 1) ⟨MQTT_PAF_VAR_DATA_STATE, len4⟩
    | MQTT_PAF_VAR_DATA_STATE =>
      let avail := (b :: rest).length
      let skip_len := if avail > s.remain_data_len then s.remain_data_len else avail
      let left := s.remain_data_len - skip_len
      let n1 := n + skip_len
      if left = 0 then ⟨FLUSH, some n1, ⟨MQTT_PAF_FIX_HEAD_STATE, left⟩⟩
      else scanLoop fuel ((b :: rest).drop skip_len) (n1 - 1 + 1) ⟨MQTT_PAF_VAR_DATA_STATE, left⟩

/-- The method `MqttSplitter::scan` (mqtt_paf.cc:38-137) on the chunk `data`
(`len = data.length`), started with the members `s`. -/
def scan (data : List Byte) (s : MqttSplitter) : ScanResult :=
  scanLoop data.length data 0 s

/-! ## `mqtt.h`: constants and session data -/

def MQTT_STATE_NULL : Nat := 0

def MQTT_UNKNOWN_MSG_TYPE : Nat := 1
def MQTT_PROTO_VIOLATION : Nat := 2
def MQTT_PROTO_VERSION : Nat := 3
def MQTT_EOF : Nat := 4
def MQTT_ERROR : Nat := 5

def CMD_RESERVED : Nat := 0
def CMD_CONNECT : Nat := 1
def CMD_CONNACK : Nat := 2
def CMD_PUBLISH : Nat := 3
def CMD_PUBACK : Nat := 4
def CMD_PUBREC : Nat := 5
def CMD_PUBREL : Nat := 6
def CMD_PUBCOMP : Nat := 7
def CMD_SUBSCRIBE : Nat := 8
def CMD_SUBACK : Nat := 9
def CMD_UNSUBSCRIBE : Nat := 10
def CMD_UNSUBACK : Nat := 11
def CMD_PINGREQ : Nat := 12
def CMD_PINGRESP : Nat := 13
def CMD_DISCONNECT : Nat := 14
def CMD_LAST : Nat := 15

/-! ## `mqtt_utils.h`, `<istream>`: the byte cursor of the decoders -/

/-- A `std::istream` over a `CharBuff` (mqtt_utils.h:50-67): `buf` is the get area from
`gptr()` to `egptr()`, `pos` is `gptr() - eback()`, and `fail` is the failbit.  In the
calls the decoders make, eofbit is only ever set together with failbit. -/
structure IStream where
  buf : List Byte
  pos : Nat := 0
  fail : Bool := false
deriving DecidableEq, Repr

/-- The call `stream.read(s, count)`: the extracted characters and the stream afterwards.
A stream that has already failed extracts nothing; a stream holding fewer than `count`
characters hands over what it has and sets failbit. -/
def IStream.read (st : IStream) (count : Nat) : List Byte × IStream :=
  if st.fail then ([], st)
  else if count ≤ st.buf.length then
    (st.buf.take count, { st with buf := st.buf.drop count, pos := st.pos + count })
  else (st.buf, { buf := [], pos := st.pos + st.buf.length, fail := true })

/-- The call `stream.get(c)`: the extracted character, if any, and the stream
afterwards. -/
def IStream.get (st : IStream) : Option Byte × IStream :=
  if st.fail then (none, st)
  else
    match st.buf with
    | [] => (none, { st with fail := true })
    | c :: rest => (some c, { st with buf := rest, pos := st.pos + 1 })

/-- The call `stream.tellg()`: `-1` on a failed stream, else the read position. -/
def IStream.tellg (st : IStream) : Int :=
  if st.fail then -1 else (st.pos : Int)

/-- Integral promotion of a plain `char` to `int`, as the 32-bit two's complement bit
pattern.  Whether plain `char` is signed is left to the platform by C++ (it is signed on
x86-64 and unsigned on AArch64 Linux), so the decoders take it as `char_signed`. -/
def int_of_char (char_signed : Bool) (c : Byte) : Nat :=
  if char_signed && decide (128 ≤ c.val) then c.val + (2 ^ 32 - 256) else c.val

/-- The expression `hi << 8 | lo` on two plain `char`s converted to `uint16_t`
(mqtt_message.cc:55, 100, 173, 199, 212, 230, 263, 286, 310). -/
def u16_of_chars (char_signed : Bool) (hi lo : Byte) : Nat :=
  (((int_of_char char_signed hi * 256) % 2 ^ 32) ||| int_of_char char_signed lo) % 2 ^ 16

/-- The comparison `c > k` of a plain `char` with a small non-negative `int` literal
(mqtt_message.cc:240). -/
def char_gt (char_signed : Bool) (c : Byte) (k : Nat) : Bool :=
  if char_signed && decide (128 ≤ c.val) then false else decide (k < c.val)

/-- The conversion of the two characters read by `stream.read(bytes, 2)`. -/
def u16_of_read (char_signed : Bool) (bytes : List Byte) : Nat :=
  u16_of_chars char_signed (bytes.getD 0 0) (bytes.getD 1 0)

/-- The function `parse_enc_string` (mqtt_message.cc:48-64).  The third argument is the
current value of the `str` reference, which is only assigned on success.  Returns the
`bool` result, the stream afterwards and the value of `str` afterwards. -/
def parse_enc_string (char_signed : Bool) (stream : IStream) (str : List Byte) :
    Bool × IStream × List Byte :=
  let (len_bytes, st1) := stream.read 2
  if st1.fail then (false, st1, str)
  else
    let len := u16_of_read char_signed len_bytes
    let (data_bytes, st2) := st1.read len
    if st2.fail then (false, st2, str)
    else (true, st2, data_bytes)

/-- The function `parse_topic` (mqtt_message.cc:206-222). -/
def parse_topic (char_signed : Bool) (stream : IStream) (topic : List Byte) :
    Bool × IStream × List Byte :=
  let (length_bytes, st1) := stream.read 2
  if st1.fail then (false, st1, topic)
  else
    let topic_length := u16_of_read char_signed length_bytes
    let (topic_name, st2) := st1.read topic_length
    if st2.fail then (false, st2, topic)
    else (true, st2, topic_name)

/-! ## `mqtt_message.h`, `mqtt_message.cc`: the command objects and their decoders

Members of class type (`std::string`, `std::vector`) start out empty.  Members of scalar
type have no initialiser in the source: they are `none` until the decoder assigns them. -/

/-- The members of `MQTTConnectCommand` (mqtt_message.h:72-85). -/
structure MQTTConnectCommand where
  protocol_string : List Byte := []
  protocol_version : Option Nat := none
  username_flag : Option Bool := none
  password_flag : Option Bool := none
  will_retain : Option Bool := none
  will_qos : Option Nat := none
  will_flag : Option Bool := none
  clean_session : Option Bool := none
  keepalive : Option Nat := none
  client_id : List Byte := []
  will_topic : List Byte := []
  will_message : List Byte := []
  username : List Byte := []
  password : List Byte := []
deriving DecidableEq, Repr

/-- The members of `MQTTConnackCommand` (mqtt_message.h:97-98). -/
structure MQTTConnackCommand where
  return_code : Option Nat := none
  session_present : Option Bool := none
deriving DecidableEq, Repr

/-- The members of `MQTTPublishCommand` (mqtt_message.h:111-114).  `message` is the
content that `stream.read` stored in the array allocated for it, `none` while the
pointer is unassigned. -/
structure MQTTPublishCommand where
  topic : List Byte := []
  message_id : Option Nat := none
  message : Option (List Byte) := none
  msg_len : Option Nat := none
deriving DecidableEq, Repr

/-- The member of `MQTTPubResponseCommand` (mqtt_message.h:126). -/
structure MQTTPubResponseCommand where
  message_id : Option Nat := none
deriving DecidableEq, Repr

/-- The members of `MQTTSubscribeCommand` (mqtt_message.h:138-141). -/
structure MQTTSubscribeCommand where
  message_id : Option Nat := none
  topics : List (List Byte × Byte) := []
deriving DecidableEq, Repr

/-- The members of `MQTTUnsubscribeCommand` (mqtt_message.h:153-154). -/
structure MQTTUnsubscribeCommand where
  message_id : Option Nat := none
  topics : List (List Byte) := []
deriving DecidableEq, Repr

/-- The members of `MQTTSubackCommand` (mqtt_message.h:166-167). -/
structure MQTTSubackCommand where
  message_id : Option Nat := none
  return_codes : List Byte := []
deriving DecidableEq, Repr

/-- The member of `MQTTUnsubackCommand` (mqtt_message.h:179). -/
structure MQTTUnsubackCommand where
  message_id : Option Nat := none
deriving DecidableEq, Repr

/-- The dynamic type of an `MQTTCommand` object with the members of that subclass. -/
inductive MQTTCommandBody where
  | Connect (c : MQTTConnectCommand)
  | Connack (c : MQTTConnackCommand)
  | Publish (c : MQTTPublishCommand)
  | PubResponse (c : MQTTPubResponseCommand)
  | Subscribe (c : MQTTSubscribeCommand)
  | Unsubscribe (c : MQTTUnsubscribeCommand)
  | Suback (c : MQTTSubackCommand)
  | Unsuback (c : MQTTUnsubackCommand)
  | Empty
deriving DecidableEq, Repr

/-- An object of class `MQTTCommand` (mqtt_message.h:42-59): the `header` member of the
base class and the subclass part. -/
structure MQTTCommand where
  header : MQTTFixedHeader
  body : MQTTCommandBody
deriving DecidableEq, Repr

/-- The method `MQTTCommand::get_type` (mqtt_message.cc:45-46). -/
def MQTTCommand.get_type (c : MQTTCommand) : Nat :=
  c.header.pkt_type

/-- The struct `MQTTData` (mqtt.h:81-89); `current_command` is `none` for the null
pointer. -/
structure MQTTData where
  state : Nat := 0
  session_flags : Nat := 0
  prev_command : Nat := 0
  current_command : Option MQTTCommand := none
  bytes_processed : Nat := 0
  qos : Nat := 0
deriving DecidableEq, Repr

/-- The bytes of the string literal `"MQTT"`. -/
def MQTT_literal : List Byte := [0x4D, 0x51, 0x54, 0x54]

/-- The conditional tail of `MQTTConnectCommand::parse` (mqtt_message.cc:105-115): the
results of the four `parse_enc_string` calls are not looked at. -/
def MQTTConnectCommand.parse_optional (char_signed : Bool) (c : MQTTConnectCommand)
    (stream : IStream) : MQTTConnectCommand :=
  let (c1, st1) :=
    if c.will_flag = some true then
      let (_, sa, wt) := parse_enc_string char_signed stream c.will_topic
      let (_, sb, wm) := parse_enc_string char_signed sa c.will_message
      ({ c with will_topic := wt, will_message := wm }, sb)
    else (c, stream)
  let (c2, st2) :=
    if c1.username_flag = some true then
      let (_, sa, un) := parse_enc_string char_signed st1 c1.username
      ({ c1 with username := un }, sa)
    else (c1, st1)
  if c2.password_flag = some true then
    let (_, _, pw) := parse_enc_string char_signed st2 c2.password
    { c2 with password := pw }
  else c2

/-- The method `MQTTConnectCommand::parse` (mqtt_message.cc:66-133): the returned code
and the object afterwards.  The literal `0b0010000` of line 88 has seven digits and is
the value 16. -/
def MQTTConnectCommand.parse (char_signed : Bool) (c : MQTTConnectCommand)
    (stream : IStream) : Nat × MQTTConnectCommand :=
  let (ok, st1, ps) := parse_enc_string char_signed stream c.protocol_string
  let c := { c with protocol_string := ps }
  if !ok then (MQTT_EOF, c)
  else if c.protocol_string ≠ MQTT_literal then (MQTT_PROTO_VIOLATION, c)
  else
    match st1.get with
    | (none, _) => (MQTT_EOF, c)
    | (some protocol_version_ch, st2) =>
      let c := { c with protocol_version := some protocol_version_ch.val }
      if protocol_version_ch.val > 4 then (MQTT_PROTO_VERSION, c)
      else
        match st2.get with
        | (none, _) => (MQTT_EOF, c)
        | (some flags, st3) =>
          let c := { c with
            username_flag := some (decide ((flags.val &&& 128) ≠ 0))
            password_flag := some (decide ((flags.val &&& 64) ≠ 0))
            will_retain := some (decide ((flags.val &&& 16) ≠ 0))
            will_qos := some (flags.val &&& 24)
            will_flag := some (decide ((flags.val &&& 4) ≠ 0))
            clean_session := some (decide ((flags.val &&& 2) ≠ 0)) }
          if (flags.val &&& 1) ≠ 0 then (MQTT_PROTO_VIOLATION, c)
          else
            let (keepalive_bytes, st4) := st3.read 2
            if st4.fail then (MQTT_EOF, c)
            else
              let c := { c with keepalive := some (u16_of_read char_signed keepalive_bytes) }
              let (ok5, st5, cid) := parse_enc_string char_signed st4 c.client_id
              let c := { c with client_id := cid }
              if !ok5 then (MQTT_EOF, c)
              else (0, MQTTConnectCommand.parse_optional char_signed c st5)

/-- The method `MQTTConnackCommand::parse` (mqtt_message.cc:135-153). -/
def MQTTConnackCommand.parse (c : MQTTConnackCommand) (stream : IStream) :
    Nat × MQTTConnackCommand :=
  match stream.get with
  | (none, _) => (MQTT_EOF, c)
  | (some SP_byte, st1) =>
    let c := { c with session_present := some (decide (SP_byte.val ≠ 0)) }
    match st1.get with
    | (none, _) => (MQTT_EOF, c)
    | (some return_byte, _) => (0, { c with return_code := some return_byte.val })

/-- The method `MQTTPublishCommand::parse` (mqtt_message.cc:155-191) for a command with
fixed header `header`; `qos` is the value of `ssn->qos` on entry.  Returns the code, the
object afterwards and `ssn->qos` afterwards.  `msg_len` is a `uint32_t` computed from
the 64-bit difference of line 178. -/
def MQTTPublishCommand.parse (char_signed : Bool) (header : MQTTFixedHeader)
    (c : MQTTPublishCommand) (qos : Nat) (stream : IStream) :
    Nat × MQTTPublishCommand × Nat :=
  let start_pos := stream.tellg
  let (ok, st1, tp) := parse_enc_string char_signed stream c.topic
  let c := { c with topic := tp }
  if !ok then (MQTT_EOF, c, qos)
  else if c.topic.length = 0 ∨ (0x2A : Byte) ∈ c.topic then (MQTT_PROTO_VIOLATION, c, qos)
  else
    let qos := if header.bit2 && header.bit1 then 1 else 0
    let (st2, mid, eof) :=
      if qos = 1 ∨ qos = 2 then
        let (message_id_bytes, sa) := st1.read 2
        if sa.fail then (sa, c.message_id, true)
        else (sa, some (u16_of_read char_signed message_id_bytes), false)
      else (st1, c.message_id, false)
    if eof then (MQTT_EOF, c, qos)
    else
      let c := { c with message_id := mid }
      let msg_len := (((header.remaining_len : Int) - (st2.tellg - start_pos)) % 2 ^ 32).toNat
      let (message, st3) := st2.read msg_len
      let c := { c with msg_len := some msg_len, message := some message }
      if st3.fail then (MQTT_EOF, c, qos)
      else (0, c, qos)

/-- The method `MQTTPubResponseCommand::parse` (mqtt_message.cc:193-204). -/
def MQTTPubResponseCommand.parse (char_signed : Bool) (c : MQTTPubResponseCommand)
    (stream : IStream) : Nat × MQTTPubResponseCommand :=
  let (message_id_bytes, st1) := stream.read 2
  if st1.fail then (MQTT_EOF, c)
  else (0, { c with message_id := some (u16_of_read char_signed message_id_bytes) })

/-- The `while (parse_topic(stream, topic))` loop of `MQTTSubscribeCommand::parse`
(mqtt_message.cc:234-244) followed by lines 246-254.  The first argument bounds the
number of iterations; an exhausted bound yields `MQTT_ERROR`, a code that no decoder
returns.  Every iteration that continues has taken at least three bytes from the
stream. -/
def MQTTSubscribeCommand.parse_loop (char_signed : Bool) :
    Nat → IStream → List Byte → MQTTSubscribeCommand → Nat × MQTTSubscribeCommand
  | 0, _, _, c => (MQTT_ERROR, c)
  | fuel + 1, stream, topic, c =>
    match parse_topic char_signed stream topic with
    | (false, _, topic1) => if topic1.length = 0 then (MQTT_EOF, c) else (0, c)
    | (true, st1, topic1) =>
      match st1.get with
      | (none, _) => (MQTT_EOF, c)
      | (some qos_byte, st2) =>
        if char_gt char_signed qos_byte 2 then (MQTT_PROTO_VIOLATION, c)
        else
          MQTTSubscribeCommand.parse_loop char_signed fuel st2 topic1
            { c with topics := c.topics ++ [(topic1, qos_byte)] }

/-- The method `MQTTSubscribeCommand::parse` (mqtt_message.cc:224-255). -/
def MQTTSubscribeCommand.parse (char_signed : Bool) (c : MQTTSubscribeCommand)
    (stream : IStream) : Nat × MQTTSubscribeCommand :=
  let (message_id_bytes, st1) := stream.read 2
  if st1.fail then (MQTT_EOF, c)
  else
    MQTTSubscribeCommand.parse_loop char_signed (st1.buf.length + 1) st1 []
      { c with message_id := some (u16_of_read char_signed message_id_bytes) }

/-- The `while (parse_topic(stream, topic))` loop of `MQTTUnsubscribeCommand::parse`
(mqtt_message.cc:267-268) followed by lines 270-277; the first argument bounds the
number of iterations as in `MQTTSubscribeCommand.parse_loop`. -/
def MQTTUnsubscribeCommand.parse_loop (char_signed : Bool) :
    Nat → IStream → List Byte → MQTTUnsubscribeCommand → Nat × MQTTUnsubscribeCommand
  | 0, _, _, c => (MQTT_ERROR, c)
  | fuel + 1, stream, topic, c =>
    match parse_topic char_signed stream topic with
    | (false, _, topic1) => if topic1.length = 0 then (MQTT_EOF, c) else (0, c)
    | (true, st1, topic1) =>
      MQTTUnsubscribeCommand.parse_loop char_signed fuel st1 topic1
        { c with topics := c.topics ++ [topic1] }

/-- The method `MQTTUnsubscribeCommand::parse` (mqtt_message.cc:257-278). -/
def MQTTUnsubscribeCommand.parse (char_signed : Bool) (c : MQTTUnsubscribeCommand)
    (stream : IStream) : Nat × MQTTUnsubscribeCommand :=
  let (message_id_bytes, st1) := stream.read 2
  if st1.fail then (MQTT_EOF, c)
  else
    MQTTUnsubscribeCommand.parse_loop char_signed (st1.buf.length + 1) st1 []
      { c with message_id := some (u16_of_read char_signed message_id_bytes) }

/-- The `while (stream.get(return_code))` loop of `MQTTSubackCommand::parse`
(mqtt_message.cc:290-295) on the get area of a stream that has not failed. -/
def MQTTSubackCommand.parse_loop : List Byte → List Byte → List Byte
  | [], return_codes => return_codes
  | return_code :: rest, return_codes =>
    MQTTSubackCommand.parse_loop rest (return_codes ++ [return_code])

/-- The method `MQTTSubackCommand::parse` (mqtt_message.cc:280-302). -/
def MQTTSubackCommand.parse (char_signed : Bool) (c : MQTTSubackCommand)
    (stream : IStream) : Nat × MQTTSubackCommand :=
  let (message_id_bytes, st1) := stream.read 2
  if st1.fail then (MQTT_EOF, c)
  else
    (0, { c with
      message_id := some (u16_of_read char_signed message_id_bytes)
      return_codes := MQTTSubackCommand.parse_loop st1.buf c.return_codes })

/-- The method `MQTTUnsubackCommand::parse` (mqtt_message.cc:304-315). -/
def MQTTUnsubackCommand.parse (char_signed : Bool) (c : MQTTUnsubackCommand)
    (stream : IStream) : Nat × MQTTUnsubackCommand :=
  let (message_id_bytes, st1) := stream.read 2
  if st1.fail then (MQTT_EOF, c)
  else (0, { c with message_id := some (u16_of_read char_signed message_id_bytes) })

/-! ## `mqtt.cc`: `snort_mqtt` -/

/-- What `snort_mqtt` reads from its `Packet* p` and from the stream module.
`data` holds the `p->dsize` bytes at `p->data`; `beyond` is the content of the memory
that follows them, which the code can reach because the cursor of line 156 starts after
the fixed header but is bounded by `dsize` counted from the start of the packet. -/
structure Packet where
  data : List Byte
  beyond : List Byte := []
  is_from_server : Bool := false
  rebuilt_stream : Bool := false
  missing_before : Bool := false
deriving DecidableEq, Repr

/-- The observable result of `snort_mqtt`: the session data afterwards, the rule ids
handed to `DetectionEngine::queue_event(GID_MQTT, _)` in order, and the final value of
the local `ret`. -/
structure MqttOutcome where
  session : MQTTData
  events : List Nat
  ret : Nat
deriving DecidableEq, Repr

/-- The `switch (header.pkt_type)` of `snort_mqtt` (mqtt.cc:159-238): the session data,
the events queued and the value of `ret` after it.  There is no `case CMD_UNSUBACK`, so
type 11 takes the `default:` label together with type 15. -/
def snort_mqtt_switch (char_signed : Bool) (header : MQTTFixedHeader) (session : MQTTData)
    (stream : IStream) : MqttOutcome :=
  if header.pkt_type = CMD_RESERVED then
    ⟨session, [MQTT_PROTO_VIOLATION], 0⟩
  else if header.pkt_type = CMD_CONNECT then
    let (ret, c) := MQTTConnectCommand.parse char_signed {} stream
    ⟨{ session with current_command := some ⟨header, .Connect c⟩ }, [], ret⟩
  else if header.pkt_type = CMD_CONNACK then
    let (ret, c) := MQTTConnackCommand.parse {} stream
    ⟨{ session with current_command := some ⟨header, .Connack c⟩ }, [], ret⟩
  else if header.pkt_type = CMD_PUBLISH then
    let (ret, c, qos) := MQTTPublishCommand.parse char_signed header {} session.qos stream
    ⟨{ session with current_command := some ⟨header, .Publish c⟩, qos := qos }, [], ret⟩
  else if header.pkt_type = CMD_PUBACK ∨ header.pkt_type = CMD_PUBREC
      ∨ header.pkt_type = CMD_PUBREL ∨ header.pkt_type = CMD_PUBCOMP then
    let (ret, c) := MQTTPubResponseCommand.parse char_signed {} stream
    ⟨{ session with current_command := some ⟨header, .PubResponse c⟩ }, [], ret⟩
  else if header.pkt_type = CMD_SUBSCRIBE then
    let (ret, c) := MQTTSubscribeCommand.parse char_signed {} stream
    ⟨{ session with current_command := some ⟨header, .Subscribe c⟩ }, [], ret⟩
  else if header.pkt_type = CMD_SUBACK then
    let (ret, c) := MQTTSubackCommand.parse char_signed {} stream
    ⟨{ session with current_command := some ⟨header, .Suback c⟩ }, [], ret⟩
  else if header.pkt_type = CMD_UNSUBSCRIBE then
    let (ret, c) := MQTTUnsubscribeCommand.parse char_signed {} stream
    ⟨{ session with current_command := some ⟨header, .Unsubscribe c⟩ }, [], ret⟩
  else if header.pkt_type = CMD_PINGREQ ∨ header.pkt_type = CMD_PINGRESP
      ∨ header.pkt_type = CMD_DISCONNECT then
    ⟨{ session with current_command := some ⟨header, .Empty⟩ }, [], 0⟩
  else
    ⟨session, [MQTT_UNKNOWN_MSG_TYPE], 0⟩

/-- The closing `if (ret != 0) ... else ...` of `snort_mqtt` (mqtt.cc:240-249). -/
def snort_mqtt_finish (header : MQTTFixedHeader) (o : MqttOutcome) : MqttOutcome :=
  if o.ret ≠ 0 then
    if o.ret ≠ MQTT_EOF then { o with events := o.events ++ [o.ret] } else o
  else { o with session := { o.session with prev_command := header.pkt_type } }

/-- The session data that `snort_mqtt` works on (mqtt.cc:130-148): `flow_data` is the
result of `get_session_data(p->flow)`, `none` for a null pointer, in which case
`SetNewMQTTData` supplies zeroed session data; `state` is reset when the stream module
reports a gap before a rebuilt packet from the client. -/
def snort_mqtt_session (p : Packet) (flow_data : Option MQTTData) : MQTTData :=
  let session : MQTTData := flow_data.getD {}
  if !p.is_from_server && p.rebuilt_stream && p.missing_before then
    { session with state := MQTT_STATE_NULL }
  else session

/-- The length `len` of the decoder's cursor (mqtt.cc:154). -/
def snort_mqtt_len (header : MQTTFixedHeader) (p : Packet) : Nat :=
  if header.remaining_len > p.data.length then p.data.length else header.remaining_len

/-- The function `snort_mqtt` (mqtt.cc:128-250).  `max_msg_len` is `config->max_msg_len`.
The result is `none` when the header bytes or the bound of the decoder's cursor lie
outside `p.data ++ p.beyond`. -/
def snort_mqtt (char_signed : Bool) (max_msg_len : Nat) (p : Packet)
    (flow_data : Option MQTTData) : Option MqttOutcome :=
  match MQTT_parse_fixed_header (p.data ++ p.beyond) max_msg_len with
  | none => none
  | some (header, data_ptr) =>
    if snort_mqtt_len header p > data_ptr.length then none
    else
      let stream : IStream := { buf := data_ptr.take (snort_mqtt_len header p) }
      some (snort_mqtt_finish header
        (snort_mqtt_switch char_signed header (snort_mqtt_session p flow_data) stream))

/-! ## Auxiliary definitions for the splitter properties -/

open MqttPafState Status in
/-- The scan loop by recursion on the bytes still to be looked at.  It differs from
`scanLoop` only in the last line: when `VarData` does not flush, `skip_len` is all that
is left of the chunk, so the loop condition fails next and `SEARCH` is returned.
`scanLoop_eq_scanL` shows that both agree. -/
def scanL : List Byte → Nat → MqttSplitter → ScanResult
  | [], _, s => ⟨SEARCH, none, s⟩
  | b :: rest, n, s =>
    match s.mqtt_state with
    | MQTT_PAF_FIX_HEAD_STATE =>
      let command_type := b.val >>> 4
      if command_type = 0 ∨ command_type > 15 then ⟨ABORT, none, s⟩
      else scanL rest (n + 1) { s with mqtt_state := MQTT_PAF_REM_LEN1_STATE }
    | MQTT_PAF_REM_LEN1_STATE =>
      let len1 := (s.remain_data_len + (b.val &&& 127)) % 2 ^ 32
      if (b.val &&& 128) ≠ 0 then
        scanL rest (n + 1) ⟨MQTT_PAF_REM_LEN2_STATE, len1⟩
      else if len1 ≠ 0 then
        scanL rest (n + 1) ⟨MQTT_PAF_VAR_DATA_STATE, len1⟩
      else ⟨FLUSH, some n, ⟨MQTT_PAF_FIX_HEAD_STATE, len1⟩⟩
    | MQTT_PAF_REM_LEN2_STATE =>
      let len2 := (s.remain_data_len + (b.val &&& 127) * 128) % 2 ^ 32
      if (b.val &&& 128) ≠ 0 then
        scanL rest (n + 1) ⟨MQTT_PAF_REM_LEN3_STATE, len2⟩
      else scanL rest (n + 1) ⟨MQTT_PAF_VAR_DATA_STATE, len2⟩
    | MQTT_PAF_REM_LEN3_STATE =>
      let len3 := (s.remain_data_len + (b.val &&& 127) * 128 * 128) % 2 ^ 32
      if (b.val &&& 128) ≠ 0 then
        scanL rest (n + 1) ⟨MQTT_PAF_REM_LEN4_STATE, len3⟩
      else scanL rest (n + 1) ⟨MQTT_PAF_VAR_DATA_STATE, len3⟩
    | MQTT_PAF_REM_LEN4_STATE =>
      let len4 := (s.remain_data_len + (b.val &&& 127) * 128 * 128 * 128) % 2 ^ 32
      if (b.val &&& 128) ≠ 0 then ⟨ABORT, none, ⟨MQTT_PAF_REM_LEN4_STATE, len4⟩⟩
      else scanL rest (n + 1) ⟨MQTT_PAF_VAR_DATA_STATE, len4⟩
    | MQTT_PAF_VAR_DATA_STATE =>
      let avail := (b :: rest).length
      let skip_len := if avail > s.remain_data_len then s.remain_data_len else avail
      let left := s.remain_data_len - skip_len
      let n1 := n + skip_len
      if left = 0 then ⟨FLUSH, some n1, ⟨MQTT_PAF_FIX_HEAD_STATE, left⟩⟩
      else ⟨SEARCH, none, ⟨MQTT_PAF_VAR_DATA_STATE, left⟩⟩

open MqttPafState Status in
/-- One iteration of the scan loop on the byte `b` at index `n` in a state other than
`VarData`: either `scan` returns (left) or the loop goes on with the next byte in the
state given (right). -/
def headStep (b : Byte) (n : Nat) (s : MqttSplitter) : ScanResult ⊕ MqttSplitter :=
  match s.mqtt_state with
  | MQTT_PAF_FIX_HEAD_STATE =>
    if b.val >>> 4 = 0 ∨ b.val >>> 4 > 15 then .inl ⟨ABORT, none, s⟩
    else .inr { s with mqtt_state := MQTT_PAF_REM_LEN1_STATE }
  | MQTT_PAF_REM_LEN1_STATE =>
    if (b.val &&& 128) ≠ 0 then
      .inr ⟨MQTT_PAF_REM_LEN2_STATE, (s.remain_data_len + (b.val &&& 127)) % 2 ^ 32⟩
    else if (s.remain_data_len + (b.val &&& 127)) % 2 ^ 32 ≠ 0 then
      .inr ⟨MQTT_PAF_VAR_DATA_STATE, (s.remain_data_len + (b.val &&& 127)) % 2 ^ 32⟩
    else
      .inl ⟨FLUSH, some n,
        ⟨MQTT_PAF_FIX_HEAD_STATE, (s.remain_data_len + (b.val &&& 127)) % 2 ^ 32⟩⟩
  | MQTT_PAF_REM_LEN2_STATE =>
    if (b.val &&& 128) ≠ 0 then
      .inr ⟨MQTT_PAF_REM_LEN3_STATE, (s.remain_data_len + (b.val &&& 127) * 128) % 2 ^ 32⟩
    else .inr ⟨MQTT_PAF_VAR_DATA_STATE, (s.remain_data_len + (b.val &&& 127) * 128) % 2 ^ 32⟩
  | MQTT_PAF_REM_LEN3_STATE =>
    if (b.val &&& 128) ≠ 0 then
      .inr ⟨MQTT_PAF_REM_LEN4_STATE,
        (s.remain_data_len + (b.val &&& 127) * 128 * 128) % 2 ^ 32⟩
    else
      .inr ⟨MQTT_PAF_VAR_DATA_STATE,
        (s.remain_data_len + (b.val &&& 127) * 128 * 128) % 2 ^ 32⟩
  | MQTT_PAF_REM_LEN4_STATE =>
    if (b.val &&& 128) ≠ 0 then
      .inl ⟨ABORT, none, ⟨MQTT_PAF_REM_LEN4_STATE,
        (s.remain_data_len + (b.val &&& 127) * 128 * 128 * 128) % 2 ^ 32⟩⟩
    else
      .inr ⟨MQTT_PAF_VAR_DATA_STATE,
        (s.remain_data_len + (b.val &&& 127) * 128 * 128 * 128) % 2 ^ 32⟩
  | MQTT_PAF_VAR_DATA_STATE => .inr s

/-- Modelled from the spec: a control packet as section 4.2 frames it, namely the first
byte, the remaining-length field in the encoding of section 4.1 and the body. -/
def control_packet (first : Byte) (body : List Byte) : List Byte :=
  first :: (MQTT_encode_variable_int body.length ++ body)

/-- Modelled from the spec: the caller's side of the stream delivery contract of
section 6, which is not part of the source.  The chunks are handed to `scan` one after
the other; after a `FLUSH` the flush offset is recorded as an absolute stream offset
(`base` is the stream offset of the bytes handed over) and `scan` is called again on the
bytes behind it; after an `ABORT` the splitter is not used any more.  The first argument
bounds the number of `scan` calls, `none` meaning that the bound was too small. -/
def drive : Nat → List (List Byte) → Nat → MqttSplitter → Option (List Nat)
  | 0, _, _, _ => none
  | _ + 1, [], _, _ => some []
  | fuel + 1, c :: cs, base, s =>
    match (scan c s).status with
    | .SEARCH => drive fuel cs (base + c.length) (scan c s).splitter
    | .ABORT => some []
    | .FLUSH =>
      match (scan c s).fp with
      | none => some []
      | some fp =>
        (drive fuel (c.drop fp :: cs) (base + fp) (scan c s).splitter).map
          (fun offsets => (base + fp) :: offsets)

/-- The absolute flush offsets that a new splitter yields on a stream delivered in the
given chunks.  The bound allows two `scan` calls per byte and one per chunk, which
`drive_total` shows to be enough. -/
def flush_offsets (chunks : List (List Byte)) : Option (List Nat) :=
  drive (2 * chunks.flatten.length + chunks.length + 2) chunks 0 MqttSplitter.init

open MqttPafState in
/-- The number of `scan` calls that `drive` needs at most. -/
def driveBound (chunks : List (List Byte)) (s : MqttSplitter) : Nat :=
  2 * chunks.flatten.length + chunks.length +
    (if s.mqtt_state = MQTT_PAF_FIX_HEAD_STATE then 0 else 1) + 1

/-- The command object that the case of the switch for `header.pkt_type` constructs,
and the code that its `parse` returns (mqtt.cc:168-234): the type-specific decode
routine selected for a packet.  It is `none` for the types without a case of their own;
for the types without body the object is an `MQTTEmptyCommand`, whose `parse` is not
called, and the code is the initial 0 of `ret`.  `qos` is `ssn->qos` on entry. -/
def snort_mqtt_decode (char_signed : Bool) (header : MQTTFixedHeader) (qos : Nat)
    (stream : IStream) : Option (Nat × MQTTCommandBody) :=
  if header.pkt_type = CMD_CONNECT then
    some ((MQTTConnectCommand.parse char_signed {} stream).1,
      .Connect (MQTTConnectCommand.parse char_signed {} stream).2)
  else if header.pkt_type = CMD_CONNACK then
    some ((MQTTConnackCommand.parse {} stream).1,
      .Connack (MQTTConnackCommand.parse {} stream).2)
  else if header.pkt_type = CMD_PUBLISH then
    some ((MQTTPublishCommand.parse char_signed header {} qos stream).1,
      .Publish (MQTTPublishCommand.parse char_signed header {} qos stream).2.1)
  else if header.pkt_type = CMD_PUBACK ∨ header.pkt_type = CMD_PUBREC
      ∨ header.pkt_type = CMD_PUBREL ∨ header.pkt_type = CMD_PUBCOMP then
    some ((MQTTPubResponseCommand.parse char_signed {} stream).1,
      .PubResponse (MQTTPubResponseCommand.parse char_signed {} stream).2)
  else if header.pkt_type = CMD_SUBSCRIBE then
    some ((MQTTSubscribeCommand.parse char_signed {} stream).1,
      .Subscribe (MQTTSubscribeCommand.parse char_signed {} stream).2)
  else if header.pkt_type = CMD_SUBACK then
    some ((MQTTSubackCommand.parse char_signed {} stream).1,
      .Suback (MQTTSubackCommand.parse char_signed {} stream).2)
  else if header.pkt_type = CMD_UNSUBSCRIBE then
    some ((MQTTUnsubscribeCommand.parse char_signed {} stream).1,
      .Unsubscribe (MQTTUnsubscribeCommand.parse char_signed {} stream).2)
  else if header.pkt_type = CMD_PINGREQ ∨ header.pkt_type = CMD_PINGRESP
      ∨ header.pkt_type = CMD_DISCONNECT then
    some (0, .Empty)
  else none

/-! ## `mqtt_message.cc`, `ips_mqtt_flags.cc`: the buffer exporter -/

/-- The enum `MqttOptBuffer` (mqtt.h:69-79) without its end marker `BUF_MAX`. -/
inductive MqttOptBuffer where
  | CLIENT_ID
  | PASSWORD
  | USERNAME
  | WILL_MESSAGE
  | WILL_TOPIC
  | TOPIC
  | MESSAGE
deriving DecidableEq, Repr

/-- The outcome of a `get_buffer` call: `buffer start len` when it returns `true` with
the out-parameters set to the bytes at `start` and to `len`; `no_buffer` when it returns
`false`; `indeterminate` when it reads a member that has never been assigned. -/
inductive GetBuffer where
  | indeterminate
  | no_buffer
  | buffer (start : List Byte) (len : Nat)
deriving DecidableEq, Repr

/-- The test `if (!flag) return false;` on a `bool` member, followed by the export of a
`std::string` member (mqtt_message.cc:331-357). -/
def GetBuffer.gated (flag : Option Bool) (str : List Byte) : GetBuffer :=
  match flag with
  | none => .indeterminate
  | some false => .no_buffer
  | some true => .buffer str str.length

/-- The method `MQTTConnectCommand::get_buffer` (mqtt_message.cc:322-366). -/
def MQTTConnectCommand.get_buffer (c : MQTTConnectCommand) (buf : MqttOptBuffer) :
    GetBuffer :=
  match buf with
  | .CLIENT_ID => .buffer c.client_id c.client_id.length
  | .PASSWORD => GetBuffer.gated c.password_flag c.password
  | .USERNAME => GetBuffer.gated c.username_flag c.username
  | .WILL_MESSAGE => GetBuffer.gated c.will_flag c.will_message
  | .WILL_TOPIC => GetBuffer.gated c.will_flag c.will_topic
  | .TOPIC => .no_buffer
  | .MESSAGE => .no_buffer

/-- The method `MQTTPublishCommand::get_buffer` (mqtt_message.cc:368-392). -/
def MQTTPublishCommand.get_buffer (c : MQTTPublishCommand) (buf : MqttOptBuffer) :
    GetBuffer :=
  match buf with
  | .TOPIC => .buffer c.topic c.topic.length
  | .MESSAGE =>
    match c.message, c.msg_len with
    | some message, some msg_len => .buffer message msg_len
    | _, _ => .indeterminate
  | _ => .no_buffer

/-- The virtual call `cmd->get_buffer(buf, start, len)`: only `MQTTConnectCommand` and
`MQTTPublishCommand` override the method of the base class (mqtt_message.h:51-52), which
returns `false`. -/
def MQTTCommand.get_buffer (cmd : MQTTCommand) (buf : MqttOptBuffer) : GetBuffer :=
  match cmd.body with
  | .Connect c => c.get_buffer buf
  | .Publish c => c.get_buffer buf
  | _ => .no_buffer

/-- The method `MqttIpsOption::eval` (ips_mqtt_flags.cc:96-122) of the rule option for
the buffer `buf_type`.  `has_tcp_data` is `p->has_tcp_data()`, `dsize` is `p->dsize`, and
`flow` is `none` for a null `p->flow`, else the result of `get_session_data(p->flow)`.
The result is `no_buffer` for `NO_MATCH` and `buffer data len` for `MATCH` with the
detection cursor set to `data` and `len`. -/
def MqttIpsOption.eval (buf_type : MqttOptBuffer) (has_tcp_data : Bool) (dsize : Nat)
    (flow : Option (Option MQTTData)) : GetBuffer :=
  if !has_tcp_data || flow.isNone || decide (dsize = 0) then .no_buffer
  else
    match flow.join with
    | none => .no_buffer
    | some session =>
      match session.current_command with
      | none => .no_buffer
      | some cmd => cmd.get_buffer buf_type

/-! ## Wire forms used by the decoder properties -/

/-- Modelled from the spec: the 2-byte big-endian length prefix of an encoded string
(section 3, "Encoded string") followed by its bytes. -/
def encoded_string (s : List Byte) : List Byte :=
  ⟨s.length / 256 % 256, Nat.mod_lt _ (by decide)⟩ ::
    ⟨s.length % 256, Nat.mod_lt _ (by decide)⟩ :: s

/-- Modelled from the spec: the SUBSCRIBE filter list of section 4.4, the encoded topic
filter and the qos byte of every pair in wire order. -/
def subscribe_filters : List (List Byte × Byte) → List Byte
  | [] => []
  | (filter, qos_byte) :: rest => encoded_string filter ++ qos_byte :: subscribe_filters rest

/-! ## Sequences of `scan` calls -/

/-- The splitter members after one call of `scan` for every chunk of a list in turn,
whatever the calls return: the states that can be reached from `s` by calls of `scan`. -/
def scan_calls : List (List Byte) → MqttSplitter → MqttSplitter
  | [], s => s
  | c :: cs, s => scan_calls cs (scan c s).splitter

open Status in
/-- The splitter members after one call of `scan` for every chunk of a list in turn,
`none` as soon as a call has returned `ABORT`. -/
def scan_calls_no_abort : List (List Byte) → MqttSplitter → Option MqttSplitter
  | [], s => some s
  | c :: cs, s =>
    if (scan c s).status = ABORT then none
    else scan_calls_no_abort cs (scan c s).splitter

open MqttPafState in
/-- The largest value that `remain_data_len` can have in each state of a splitter that
started from its constructor and has not aborted: the total of the length bytes taken in
so far, each at most 127 times its weight. -/
def remain_data_len_bound : MqttPafState → Nat
  | MQTT_PAF_FIX_HEAD_STATE => 0
  | MQTT_PAF_REM_LEN1_STATE => 0
  | MQTT_PAF_REM_LEN2_STATE => 127
  | MQTT_PAF_REM_LEN3_STATE => 16383
  | MQTT_PAF_REM_LEN4_STATE => 2097151
  | MQTT_PAF_VAR_DATA_STATE => 268435455

end Mqtt

namespace ByteMath

/-! ## `ips_byte_math.cc`: the `byte_math` rule option -/

/-- The enum `BM_Oper` (ips_byte_math.cc:52-60). -/
inductive BM_Oper where
  | BM_PLUS
  | BM_MINUS
  | BM_MULTIPLY
  | BM_DIVIDE
  | BM_LEFT_SHIFT
  | BM_RIGHT_SHIFT
deriving DecidableEq, Repr

/-- The numeric value of a `BM_Oper` enumerator. -/
def BM_Oper.toNat : BM_Oper → Nat
  | .BM_PLUS => 0
  | .BM_MINUS => 1
  | .BM_MULTIPLY => 2
  | .BM_DIVIDE => 3
  | .BM_LEFT_SHIFT => 4
  | .BM_RIGHT_SHIFT => 5

/-- The struct `ByteMathData` (ips_byte_math.cc:64-79).  The default values are the zero
bytes that `ByteMathModule::begin` writes with `memset`; `result_name` is `none` for a
null pointer. -/
structure ByteMathData where
  bytes_to_extract : Nat := 0
  rvalue : Nat := 0
  offset : Int := 0
  bitmask_val : Nat := 0
  result_name : Option String := none
  oper : BM_Oper := .BM_PLUS
  relative_flag : Bool := false
  string_convert_flag : Bool := false
  base : Nat := 0
  endianess : Nat := 0
  result_var : Int := 0
  rvalue_var : Int := 0
  offset_var : Int := 0
deriving DecidableEq, Repr

/-- The constants and helpers that `ByteMathOption::eval` takes from headers which are
not among the source files at hand (`extract.h`, `framework/endianness.h`), as
parameters.  `GetVarValueByIndex i` is the value that the call stores through its
pointer argument; `byte_extract endian bytes ptr buf` and
`string_extract bytes base ptr buf` stand for the calls on the buffer `buf` with `ptr`
counted from its start, `none` for a negative return value and else the value stored
through the last argument. -/
structure ByteMathEnv where
  NUM_IPS_OPTIONS_VARS : Int
  ENDIAN_FUNC : Nat
  GetVarValueByIndex : Int → Nat
  byte_extract : Nat → Nat → Int → List Mqtt.Byte → Option Nat
  string_extract : Nat → Nat → Int → List Mqtt.Byte → Option Nat
  getNumberTailingZerosInBitmask : Nat → Nat

/-- What `eval` reads from its `Cursor& c`: the `c.size()` bytes at `c.buffer()`, the
position with `c.start() = c.buffer() + pos`, and the distance `c.buffer() - p->data`
that line 215 needs. -/
structure Cursor where
  buffer : List Mqtt.Byte
  pos : Nat := 0
  buffer_offset : Int := 0

/-- What `eval` reads from a non-null `Packet* p`: `p->endianness`, `none` for a null
pointer and else the call `get_offset_endianness(offset, endian)`, which is `none` when
it returns `false` and else the value it stores in `endian`. -/
structure Packet where
  endianness : Option (Int → Option Nat) := none

/-- What a call of `ByteMathOption::eval` does: it returns `NO_MATCH`; or it calls
`SetVarValueByIndex(value, config.result_var)` and returns `MATCH`; or it executes an
operation whose behaviour C++ leaves undefined (a division by zero, a shift by 32 bits
or more). -/
inductive EvalOutcome where
  | NO_MATCH
  | MATCH (value : Nat)
  | UNDEFINED
deriving DecidableEq, Repr

/-- The conversion `(int32_t)` of a `uint32_t`. -/
def int32_of_uint32 (n : Nat) : Int :=
  if n % 2 ^ 32 < 2 ^ 31 then (n % 2 ^ 32 : Nat) else ((n % 2 ^ 32 : Nat) : Int) - 2 ^ 32

/-- The conversion of a signed integer to `uint32_t`. -/
def uint32_of_int (i : Int) : Nat :=
  (i % 2 ^ 32).toNat

/-- The selection of `rvalue` in `ByteMathOption::eval` (ips_byte_math.cc:181-189):
`none` for the `return NO_MATCH` of line 186, which only the branch of the rule variable
has. -/
def ByteMathOption.eval_rvalue (env : ByteMathEnv) (config : ByteMathData) : Option Nat :=
  if 0 ≤ config.rvalue_var ∧ config.rvalue_var < env.NUM_IPS_OPTIONS_VARS then
    let rvalue := env.GetVarValueByIndex config.rvalue_var % 2 ^ 32
    if rvalue = 0 ∧ config.oper = .BM_DIVIDE then none else some rvalue
  else some config.rvalue

/-- The application of the bitmask in `ByteMathOption::eval` (ips_byte_math.cc:233-242)
to the extracted `value`.  The shift of line 240 is by the count that the helper
returns, which is below 32 for a bitmask that is not 0. -/
def ByteMathOption.eval_bitmask (env : ByteMathEnv) (config : ByteMathData) (value : Nat) :
    Nat :=
  if config.bitmask_val ≠ 0 then
    let num_tailing_zeros_bitmask :=
      env.getNumberTailingZerosInBitmask config.bitmask_val % 2 ^ 32
    let value := value &&& config.bitmask_val
    if value ≠ 0 ∧ num_tailing_zeros_bitmask ≠ 0 then value >>> num_tailing_zeros_bitmask
    else value
  else value

/-- The extraction in `ByteMathOption::eval` (ips_byte_math.cc:191-242): offset, bounds
check, endianness, extraction and bitmask; `none` for a `return NO_MATCH`, else the
`uint32_t value` that enters the switch. -/
def ByteMathOption.eval_value (env : ByteMathEnv) (config : ByteMathData) (c : Cursor)
    (p : Packet) : Option Nat :=
  let offset : Int :=
    if 0 ≤ config.offset_var ∧ config.offset_var < env.NUM_IPS_OPTIONS_VARS then
      int32_of_uint32 (env.GetVarValueByIndex config.offset_var)
    else config.offset
  let ptr : Int := (if config.relative_flag then (c.pos : Int) else 0) + offset
  if ptr < 0 ∨ ptr ≥ c.buffer.length then none
  else
    let endian : Option Nat :=
      if config.endianess = env.ENDIAN_FUNC then
        match p.endianness with
        | none => none
        | some get_offset_endianness => get_offset_endianness (ptr + c.buffer_offset)
      else some config.endianess
    match endian with
    | none => none
    | some endian =>
      let extracted :=
        if !config.string_convert_flag then
          env.byte_extract endian config.bytes_to_extract ptr c.buffer
        else env.string_extract config.bytes_to_extract config.base ptr c.buffer
      match extracted with
      | none => none
      | some value => some (ByteMathOption.eval_bitmask env config (value % 2 ^ 32))

/-- The `switch (config.oper)` of `ByteMathOption::eval` with the call of
`SetVarValueByIndex` behind it (ips_byte_math.cc:244-292), on the `uint32_t` operands
`value` and `rvalue`. -/
def ByteMathOption.eval_oper (oper : BM_Oper) (value rvalue : Nat) : EvalOutcome :=
  match oper with
  | .BM_PLUS =>
    if (value + rvalue) % 2 ^ 32 < value then .NO_MATCH
    else .MATCH ((value + rvalue) % 2 ^ 32)
  | .BM_MINUS =>
    if value < rvalue then .NO_MATCH
    else .MATCH ((value + 2 ^ 32 - rvalue) % 2 ^ 32)
  | .BM_MULTIPLY =>
    if value ≠ 0 ∧ rvalue ≠ 0 ∧ (value * rvalue) % 2 ^ 32 / rvalue ≠ value then .NO_MATCH
    else .MATCH ((value * rvalue) % 2 ^ 32)
  | .BM_DIVIDE =>
    if rvalue = 0 then .UNDEFINED else .MATCH (value / rvalue)
  | .BM_LEFT_SHIFT =>
    if 32 ≤ rvalue then .UNDEFINED else .MATCH ((value <<< rvalue) % 2 ^ 32)
  | .BM_RIGHT_SHIFT =>
    if 32 ≤ rvalue then .UNDEFINED else .MATCH (value >>> rvalue)

/-- The method `ByteMathOption::eval` (ips_byte_math.cc:166-293); `p` is `none` for a
null pointer. -/
def ByteMathOption.eval (env : ByteMathEnv) (config : ByteMathData) (c : Cursor)
    (p : Option Packet) : EvalOutcome :=
  match p with
  | none => .NO_MATCH
  | some p =>
    match ByteMathOption.eval_rvalue env config with
    | none => .NO_MATCH
    | some rvalue =>
      match ByteMathOption.eval_value env config c p with
      | none => .NO_MATCH
      | some value => ByteMathOption.eval_oper config.oper value rvalue

/-- The environment of the unit tests of the file (ips_byte_math.cc:833-843) as far as
they show it: the rule variables with the values `vars`, of which there are two, and an
extraction that hands out one byte of the buffer as its value.  It serves to run `eval`
on the test packet; nothing is claimed about the helpers themselves. -/
def ByteMathEnv.sample (vars : Int → Nat) : ByteMathEnv where
  NUM_IPS_OPTIONS_VARS := 2
  ENDIAN_FUNC := 4
  GetVarValueByIndex := vars
  byte_extract := fun _ bytes ptr buf =>
    if bytes = 1 then (buf.get? ptr.toNat).map Fin.val else none
  string_extract := fun _ _ _ _ => none
  getNumberTailingZerosInBitmask := fun _ => 0

/-- The members of `ByteMathModule` (ips_byte_math.cc:367-369) in the state that
`ByteMathModule::begin` leaves (lines 372-378). -/
structure ByteMathModule where
  data : ByteMathData := {}
  rvalue_var : String := ""
  off_var : String := ""
deriving DecidableEq, Repr

/-- The branch of `ByteMathModule::set` for the parameter `rvalue`
(ips_byte_math.cc:387-398).  `strtol` is the outcome of `v.strtol(n)`: `none` when it
returns `false`, else the `long n`; `get_string` is `v.get_string()`.  Returns the
`bool` result and the module afterwards. -/
def ByteMathModule.set_rvalue (m : ByteMathModule) (strtol : Option Int)
    (get_string : String) : Bool × ByteMathModule :=
  match strtol with
  | some n =>
    if n = 0 then (false, m)
    else (true, { m with data := { m.data with rvalue := uint32_of_int n } })
  | none => (true, { m with rvalue_var := get_string })

/-- The base-class members and the macros of `hash/hash_key_operations.h` that
`ByteMathOption::hash` and `ByteMathOption::operator==` use and that are not among the
source files at hand, as parameters; `β` is the type of the `IpsOption` subobject.
`mix` and `finalize` give the new values of their three arguments. -/
structure IpsOptionEnv (β : Type) where
  mix : Nat × Nat × Nat → Nat × Nat × Nat
  finalize : Nat × Nat × Nat → Nat × Nat × Nat
  hash : β → Nat
  operator_eq : β → β → Bool

/-- An object of class `ByteMathOption` (ips_byte_math.cc:81-104): the `IpsOption`
subobject and the member `config`. -/
structure ByteMathOption (β : Type) where
  base : β
  config : ByteMathData

/-- The method `ByteMathOption::hash` (ips_byte_math.cc:106-133). -/
def ByteMathOption.hash {β : Type} (env : IpsOptionEnv β) (o : ByteMathOption β) : Nat :=
  let a := o.config.bytes_to_extract
  let b := o.config.rvalue
  let c := o.config.oper.toNat
  let (a, b, c) := env.mix (a, b, c)
  let a := (a + uint32_of_int o.config.offset) % 2 ^ 32
  let b := (b + ((((uint32_of_int o.config.rvalue_var <<< 24) % 2 ^ 32 |||
    (uint32_of_int o.config.offset_var <<< 16) % 2 ^ 32) |||
    (uint32_of_int o.config.result_var <<< 8) % 2 ^ 32) |||
    o.config.endianess)) % 2 ^ 32
  let c := (c + o.config.base) % 2 ^ 32
  let (a, b, c) := env.mix (a, b, c)
  let a := (a + o.config.bitmask_val) % 2 ^ 32
  let b := (b + o.config.relative_flag.toNat) % 2 ^ 32
  let c := (c + o.config.string_convert_flag.toNat) % 2 ^ 32
  let (a, b, c) := env.mix (a, b, c)
  let a := (a + env.hash o.base) % 2 ^ 32
  let (_, _, c) := env.finalize (a, b, c)
  c

/-- The method `ByteMathOption::operator==` (ips_byte_math.cc:135-161) on an argument
that is a `ByteMathOption`. -/
def ByteMathOption.operator_eq {β : Type} (env : IpsOptionEnv β)
    (lhs rhs : ByteMathOption β) : Bool :=
  if !env.operator_eq lhs.base rhs.base then false
  else
    let left := lhs.config
    let right := rhs.config
    if left.bytes_to_extract = right.bytes_to_extract ∧
        left.rvalue = right.rvalue ∧
        left.oper = right.oper ∧
        left.offset = right.offset ∧
        left.relative_flag = right.relative_flag ∧
        left.string_convert_flag = right.string_convert_flag ∧
        left.endianess = right.endianess ∧
        left.base = right.base ∧
        left.bitmask_val = right.bitmask_val ∧
        left.rvalue_var = right.rvalue_var ∧
        left.offset_var = right.offset_var ∧
        left.result_var = right.result_var then true
    else false

/-- The function `ByteMathVerify` (ips_byte_math.cc:433-481): `false` where it reports a
`ParseError`.  The constant `MAX_BYTES_TO_GRAB` and the helper `numBytesInBitmask` come
from `extract.h`, which is not among the source files at hand, and are parameters. -/
def ByteMathVerify (MAX_BYTES_TO_GRAB : Nat) (numBytesInBitmask : Nat → Nat)
    (data : ByteMathData) : Bool :=
  match data.result_name with
  | none => false
  | some result_name =>
    if (result_name.data.head?.map Char.isDigit).getD false then false
    else if (data.oper = .BM_LEFT_SHIFT ∨ data.oper = .BM_RIGHT_SHIFT) ∧ data.rvalue > 32 then
      false
    else if (data.oper = .BM_LEFT_SHIFT ∨ data.oper = .BM_RIGHT_SHIFT) ∧
        data.bytes_to_extract > 4 then false
    else if data.bytes_to_extract > MAX_BYTES_TO_GRAB ∧ !data.string_convert_flag then false
    else if numBytesInBitmask data.bitmask_val > data.bytes_to_extract then false
    else true

/-- A stand-in for the helper `numBytesInBitmask` of `extract.h` to run `ByteMathVerify`
on the configurations of its unit tests: the number of bytes up to the highest bit that
is set in a 32-bit mask.  Nothing is claimed about the helper itself. -/
def numBytesInBitmask_sample (bitmask_value : Nat) : Nat :=
  if bitmask_value = 0 then 0
  else if bitmask_value < 256 then 1
  else if bitmask_value < 65536 then 2
  else if bitmask_value < 16777216 then 3
  else 4

end ByteMath

namespace Mqtt

/-! # Properties -/

open MqttPafState Status

/-! ## Byte-level facts -/

set_option maxRecDepth 100000 in
theorem Byte.and_127 : ∀ b : Byte, (b.val &&& 127) = b.val % 128 := by decide

set_option maxRecDepth 100000 in
theorem Byte.and_128_ne_zero : ∀ b : Byte, ((b.val &&& 128) ≠ 0) ↔ 128 ≤ b.val := by decide

set_option maxRecDepth 100000 in
theorem Byte.shiftRight_4 : ∀ b : Byte, b.val >>> 4 = b.val / 16 := by decide

set_option maxRecDepth 100000 in
theorem Byte.bit0 : ∀ b : Byte, decide ((b.val &&& 1) ≠ 0) = b.val.testBit 0 := by decide

set_option maxRecDepth 100000 in
theorem Byte.bit1 : ∀ b : Byte, decide ((b.val &&& 2) ≠ 0) = b.val.testBit 1 := by decide

set_option maxRecDepth 100000 in
theorem Byte.bit2 : ∀ b : Byte, decide ((b.val &&& 4) ≠ 0) = b.val.testBit 2 := by decide

set_option maxRecDepth 100000 in
theorem Byte.bit3 : ∀ b : Byte, decide ((b.val &&& 8) ≠ 0) = b.val.testBit 3 := by decide

/-! ## The variable-length integer -/

/-- Once the 8-bit multiplier is one of `1`, `128`, `0`, the loop returns as soon as it
meets a byte without continuation bit, and the value stays below `2 ^ 14`. -/
theorem parse_variable_int_loop_returns (data : List Byte) :
    ∀ (m v : Nat), (m = 1 ∧ v = 0) ∨ (m = 128 ∧ v < 128) ∨ (m = 0 ∧ v < 16384) →
      (∃ x ∈ data, (x.val &&& 128) = 0) →
      ∃ v1 r, MQTT_parse_variable_int_loop data m v = some (v1, r) ∧ v1 < 16384 := by
  induction data with
  | nil => intro m v _ h; obtain ⟨x, hx, _⟩ := h; cases hx
  | cons b rest ih =>
    intro m v hm hex
    have hb := Byte.and_127 b
    have hlt : b.val % 128 < 128 := Nat.mod_lt _ (by decide)
    have hnew : (v + (b.val &&& 127) * m) % 2 ^ 32 = v + (b.val % 128) * m := by
      rw [hb]
      apply Nat.mod_eq_of_lt
      rcases hm with ⟨rfl, rfl⟩ | ⟨rfl, hv⟩ | ⟨rfl, hv⟩ <;> omega
    have hmul : ¬ (m * 128 % 256 > 128 * 128 * 128) := by
      have : m * 128 % 256 < 256 := Nat.mod_lt _ (by decide)
      omega
    unfold MQTT_parse_variable_int_loop
    simp only [hnew, hmul, if_false]
    by_cases hc : (b.val &&& 128) ≠ 0
    · rw [if_pos hc]
      have hex1 : ∃ x ∈ rest, (x.val &&& 128) = 0 := by
        obtain ⟨x, hx, hx0⟩ := hex
        rcases List.mem_cons.mp hx with rfl | hx
        · exact absurd hx0 hc
        · exact ⟨x, hx, hx0⟩
      apply ih _ _ _ hex1
      rcases hm with ⟨rfl, rfl⟩ | ⟨rfl, hv⟩ | ⟨rfl, hv⟩
      · right; left; exact ⟨by decide, by omega⟩
      · right; right; exact ⟨by decide, by omega⟩
      · right; right; exact ⟨by decide, by omega⟩
    · rw [if_neg hc]
      refine ⟨_, _, rfl, ?_⟩
      rcases hm with ⟨rfl, rfl⟩ | ⟨rfl, hv⟩ | ⟨rfl, hv⟩ <;> omega

/-- The decoder returns on every buffer that holds a byte without continuation bit. -/
theorem parse_variable_int_returns (data : List Byte)
    (h : ∃ x ∈ data, (x.val &&& 128) = 0) :
    ∃ v r, MQTT_parse_variable_int data = some (v, r) ∧ v < 16384 :=
  parse_variable_int_loop_returns data 1 0 (Or.inl ⟨rfl, rfl⟩) h

/-- The header that `MQTT_parse_fixed_header` builds once the length field is decoded. -/
theorem parse_fixed_header_eq (b : Byte) (rest : List Byte) (max_len v : Nat)
    (r : List Byte) (hv : MQTT_parse_variable_int rest = some (v, r)) :
    MQTT_parse_fixed_header (b :: rest) max_len =
      some ({ pkt_type := b.val >>> 4
              bit0 := decide ((b.val &&& 1) ≠ 0)
              bit1 := decide ((b.val &&& 2) ≠ 0)
              bit2 := decide ((b.val &&& 4) ≠ 0)
              bit3 := decide ((b.val &&& 8) ≠ 0)
              remaining_len := min v ((max_len % 2 ^ 32 + 2 ^ 32 - 1) % 2 ^ 32) }, r) := by
  simp only [MQTT_parse_fixed_header, hv]

/-- C1 (code defect): the round trip `decode (encode n) = n` fails at `n = 16384`, inside
the claimed range `[0, 268435455]`: the standard encoding is `80 80 01`, and
`MQTT_parse_variable_int` returns 0 for it, because its 8-bit multiplier is 0 from the
third length byte on. -/
theorem C1_round_trip_fails_at_16384 :
    16384 ≤ 268435455 ∧
    MQTT_encode_variable_int 16384 = [0x80, 0x80, 0x01] ∧
    MQTT_parse_variable_int (MQTT_encode_variable_int 16384) = some (0, []) := by
  decide

/-- C2 (code defect): on `80 80 80 80 05`, whose first four length bytes all carry the
continuation bit, `MQTT_parse_variable_int` does not return the `UINT32_MAX` sentinel:
it reads the fifth byte as well (the cursor ends behind it) and returns the length 0. -/
theorem C2_overlong_not_rejected :
    MQTT_parse_variable_int [0x80, 0x80, 0x80, 0x80, 0x05] = some (0, []) ∧
    0 ≠ UINT32_MAX := by
  decide

/-- C6: for every first byte `b`, every tail holding a terminated length field and every
`max_len`, `MQTT_parse_fixed_header` returns a header whose `pkt_type` is the high nibble
`b >> 4` and whose `bit0` .. `bit3` are bits 0 .. 3 of `b`. -/
theorem C6_fixed_header_decomposition (b : Byte) (rest : List Byte) (max_len : Nat)
    (h : ∃ x ∈ rest, (x.val &&& 128) = 0) :
    ∃ hdr r, MQTT_parse_fixed_header (b :: rest) max_len = some (hdr, r) ∧
      hdr.pkt_type = b.val / 16 ∧
      hdr.bit0 = b.val.testBit 0 ∧ hdr.bit1 = b.val.testBit 1 ∧
      hdr.bit2 = b.val.testBit 2 ∧ hdr.bit3 = b.val.testBit 3 := by
  obtain ⟨v, r, hv, _⟩ := parse_variable_int_returns rest h
  refine ⟨_, r, parse_fixed_header_eq b rest max_len v r hv, ?_⟩
  · exact ⟨Byte.shiftRight_4 b, Byte.bit0 b, Byte.bit1 b, Byte.bit2 b, Byte.bit3 b⟩

/-- Witness for C6: the header byte `3b` followed by the length byte `05`. -/
theorem C6_fixed_header_decomposition_witness :
    ∃ hdr r, MQTT_parse_fixed_header ((0x3b : Byte) :: [0x05, 0x01]) 7 = some (hdr, r) ∧
      hdr.pkt_type = (0x3b : Byte).val / 16 ∧
      hdr.bit0 = (0x3b : Byte).val.testBit 0 ∧ hdr.bit1 = (0x3b : Byte).val.testBit 1 ∧
      hdr.bit2 = (0x3b : Byte).val.testBit 2 ∧ hdr.bit3 = (0x3b : Byte).val.testBit 3 :=
  C6_fixed_header_decomposition 0x3b [0x05, 0x01] 7 ⟨0x05, by decide, by decide⟩

/-- C7: with `v` the value decoded from the length bytes, `MQTT_parse_fixed_header`
returns `remaining_len = min v ((max_len - 1) mod 2 ^ 32)`; so the result is at most
`max_len - 1` whenever `max_len ≥ 1`, and it is `v` itself when `max_len = 0`. -/
theorem C7_remaining_len_cap (b : Byte) (rest : List Byte) (max_len : Nat)
    (hmax : max_len < 2 ^ 32) (h : ∃ x ∈ rest, (x.val &&& 128) = 0) :
    ∃ v r hdr, MQTT_parse_variable_int rest = some (v, r) ∧
      MQTT_parse_fixed_header (b :: rest) max_len = some (hdr, r) ∧
      (hdr.remaining_len : Int) = min (v : Int) (((max_len : Int) - 1) % 2 ^ 32) ∧
      (1 ≤ max_len → hdr.remaining_len ≤ max_len - 1) ∧
      (max_len = 0 → hdr.remaining_len = v) := by
  obtain ⟨v, r, hv, hlt⟩ := parse_variable_int_returns rest h
  have hcap : ((max_len % 2 ^ 32 + 2 ^ 32 - 1) % 2 ^ 32 : Nat) =
      if max_len = 0 then 2 ^ 32 - 1 else max_len - 1 := by
    split <;> omega
  refine ⟨v, r, _, hv, parse_fixed_header_eq b rest max_len v r hv, ?_, ?_, ?_⟩
  · have e : ((max_len : Int) - 1) % 2 ^ 32 =
        if max_len = 0 then (2 ^ 32 - 1 : Int) else (max_len : Int) - 1 := by
      split <;> omega
    show ((min v ((max_len % 2 ^ 32 + 2 ^ 32 - 1) % 2 ^ 32) : Nat) : Int) = _
    rw [hcap, e]
    split <;> omega
  · intro h1
    show min v ((max_len % 2 ^ 32 + 2 ^ 32 - 1) % 2 ^ 32) ≤ max_len - 1
    rw [hcap]
    split <;> omega
  · intro h0
    show min v ((max_len % 2 ^ 32 + 2 ^ 32 - 1) % 2 ^ 32) = v
    rw [hcap]
    split <;> omega

/-- Witness for C7: length byte `05` under `max_len = 3`. -/
theorem C7_remaining_len_cap_witness :
    ∃ v r hdr, MQTT_parse_variable_int [0x05, 0x01] = some (v, r) ∧
      MQTT_parse_fixed_header ((0x3b : Byte) :: [0x05, 0x01]) 3 = some (hdr, r) ∧
      (hdr.remaining_len : Int) = min (v : Int) ((((3 : Nat) : Int) - 1) % 2 ^ 32) ∧
      (1 ≤ 3 → hdr.remaining_len ≤ 3 - 1) ∧
      (3 = 0 → hdr.remaining_len = v) :=
  C7_remaining_len_cap 0x3b [0x05, 0x01] 3 (by decide) ⟨0x05, by decide, by decide⟩

/-! ## The scan loop: recursion on the chunk -/

theorem scanLoop_eq_scanL : ∀ (fuel : Nat) (data : List Byte) (n : Nat) (s : MqttSplitter),
    data.length ≤ fuel → scanLoop fuel data n s = scanL data n s := by
  intro fuel
  induction fuel with
  | zero =>
    intro data n s h
    have : data = [] := List.length_eq_zero.mp (Nat.le_zero.mp h)
    subst this
    rfl
  | succ fuel ih =>
    intro data n s h
    cases data with
    | nil => rfl
    | cons b rest =>
      have hr : rest.length ≤ fuel := by simpa using h
      obtain ⟨st, rdl⟩ := s
      cases st <;> simp only [scanLoop, scanL, ih rest _ _ hr]
      -- VarData
      split
      · rw [if_pos (Nat.sub_self rdl), if_pos (Nat.sub_self rdl)]
      · rw [List.drop_length]
        cases fuel <;> rfl

theorem scan_eq_scanL (data : List Byte) (s : MqttSplitter) : scan data s = scanL data 0 s :=
  scanLoop_eq_scanL data.length data 0 s (Nat.le_refl _)

/-- Outside `VarData` the loop handles one byte per iteration, as `headStep` says. -/
theorem scanL_cons_head (b : Byte) (rest : List Byte) (n : Nat) (s : MqttSplitter)
    (hs : s.mqtt_state ≠ MQTT_PAF_VAR_DATA_STATE) :
    scanL (b :: rest) n s =
      match headStep b n s with
      | .inl r => r
      | .inr s1 => scanL rest (n + 1) s1 := by
  obtain ⟨st, rdl⟩ := s
  cases st
  case MQTT_PAF_VAR_DATA_STATE => exact absurd rfl hs
  all_goals
    simp only [scanL, headStep]
    split_ifs <;> rfl

/-- In `VarData` with a non-empty rest of the chunk the call returns at once. -/
theorem scanL_cons_var (b : Byte) (rest : List Byte) (n rdl : Nat) :
    scanL (b :: rest) n ⟨MQTT_PAF_VAR_DATA_STATE, rdl⟩ =
      if rdl ≤ rest.length + 1 then
        ⟨FLUSH, some (n + rdl), ⟨MQTT_PAF_FIX_HEAD_STATE, 0⟩⟩
      else ⟨SEARCH, none, ⟨MQTT_PAF_VAR_DATA_STATE, rdl - (rest.length + 1)⟩⟩ := by
  simp only [scanL, List.length_cons]
  by_cases h1 : rest.length + 1 > rdl
  · rw [if_pos h1, if_pos (Nat.sub_self rdl), if_pos (by omega), Nat.sub_self]
  · rw [if_neg h1]
    by_cases h2 : rdl - (rest.length + 1) = 0
    · have e : rdl = rest.length + 1 := by omega
      rw [if_pos h2, if_pos (by omega), h2, e]
    · rw [if_neg h2, if_neg (by omega)]

/-- A result that `headStep` returns is never `SEARCH`. -/
theorem headStep_inl_status (b : Byte) (n : Nat) (s : MqttSplitter) (r : ScanResult)
    (h : headStep b n s = .inl r) : r.status ≠ SEARCH := by
  obtain ⟨st, rdl⟩ := s
  cases st <;> simp only [headStep] at h
  case MQTT_PAF_VAR_DATA_STATE => cases h
  all_goals
    split_ifs at h <;> cases h <;> exact fun hne => Status.noConfusion hne

/-- Scanning `a ++ b` is scanning `a` and, if that ends in `SEARCH`, going on with `b`
from the state reached, the index running on. -/
theorem scanL_append (a b : List Byte) : ∀ (n : Nat) (s : MqttSplitter),
    scanL (a ++ b) n s =
      if (scanL a n s).status = SEARCH then scanL b (n + a.length) (scanL a n s).splitter
      else scanL a n s := by
  induction a with
  | nil => intro n s; rfl
  | cons x a ih =>
    intro n s
    by_cases hs : s.mqtt_state = MQTT_PAF_VAR_DATA_STATE
    · obtain ⟨st, rdl⟩ := s
      simp only at hs
      subst hs
      rw [List.cons_append, scanL_cons_var, scanL_cons_var, List.length_append]
      by_cases h1 : rdl ≤ a.length + 1
      · rw [if_pos h1, if_pos (by omega)]; rfl
      · rw [if_neg h1]
        cases b with
        | nil => simp only [List.length_nil, Nat.add_zero, if_neg h1]; rfl
        | cons y b =>
          simp only [List.length_cons, if_true, scanL_cons_var]
          by_cases h2 : rdl ≤ a.length + (b.length + 1) + 1
          · rw [if_pos h2, if_pos (by omega)]
            have e : n + (a.length + 1) + (rdl - (a.length + 1)) = n + rdl := by omega
            rw [e]
          · rw [if_neg h2, if_neg (by omega)]
            have e : rdl - (a.length + 1) - (b.length + 1)
                = rdl - (a.length + (b.length + 1) + 1) := by omega
            rw [e]
    · rw [List.cons_append, scanL_cons_head x (a ++ b) n s hs, scanL_cons_head x a n s hs]
      cases hstep : headStep x n s with
      | inl r =>
        simp only
        rw [if_neg (headStep_inl_status x n s r hstep)]
      | inr s1 =>
        simp only
        rw [ih (n + 1) s1, List.length_cons]
        have e : n + (a.length + 1) = n + 1 + a.length := by omega
        rw [e]

/-- What `headStep` can return: an abort without flush offset, or a flush at the current
index out of `RemLen1` that leaves `FixedHead` with remaining length 0. -/
theorem headStep_inl_shape (b : Byte) (n : Nat) (s : MqttSplitter) (r : ScanResult)
    (h : headStep b n s = .inl r) :
    (r.status = ABORT ∧ r.fp = none) ∨
    (r.status = FLUSH ∧ r.fp = some n ∧ r.splitter = ⟨MQTT_PAF_FIX_HEAD_STATE, 0⟩ ∧
      s.mqtt_state = MQTT_PAF_REM_LEN1_STATE) := by
  obtain ⟨st, rdl⟩ := s
  cases st <;> simp only [headStep] at h
  case MQTT_PAF_VAR_DATA_STATE => cases h
  case MQTT_PAF_REM_LEN1_STATE =>
    split_ifs at h with h1 h2
    cases h
    refine Or.inr ⟨rfl, rfl, ?_, rfl⟩
    have h0 : (rdl + (b.val &&& 127)) % 2 ^ 32 = 0 := not_not.mp h2
    simp only [h0]
  all_goals
    split_ifs at h <;> cases h <;> exact Or.inl ⟨rfl, rfl⟩

/-- The index only enters the flush offset that `headStep` may return. -/
theorem headStep_shift (b : Byte) (n : Nat) (s : MqttSplitter) :
    headStep b n s =
      match headStep b 0 s with
      | .inl r => .inl ⟨r.status, r.fp.map (· + n), r.splitter⟩
      | .inr s1 => .inr s1 := by
  obtain ⟨st, rdl⟩ := s
  cases st <;> simp only [headStep] <;> split_ifs <;>
    simp only [Option.map_some', Option.map_none', Nat.zero_add]

/-- The shape of every result of the scan loop: `fp` is written exactly on `FLUSH`; a
flush offset lies between the start index and the end of the chunk, strictly behind the
start index when the loop started in `FixedHead`; and a flush leaves the splitter in
`FixedHead` with remaining length 0. -/
theorem scanL_shape (data : List Byte) : ∀ (n : Nat) (s : MqttSplitter),
    ((scanL data n s).status = SEARCH ∧ (scanL data n s).fp = none) ∨
    ((scanL data n s).status = ABORT ∧ (scanL data n s).fp = none) ∨
    ((scanL data n s).status = FLUSH ∧
      (scanL data n s).splitter = ⟨MQTT_PAF_FIX_HEAD_STATE, 0⟩ ∧
      ∃ k, (scanL data n s).fp = some (n + k) ∧ k ≤ data.length ∧
        (s.mqtt_state = MQTT_PAF_FIX_HEAD_STATE → 1 ≤ k)) := by
  induction data with
  | nil => intro n s; exact Or.inl ⟨rfl, rfl⟩
  | cons x a ih =>
    intro n s
    by_cases hs : s.mqtt_state = MQTT_PAF_VAR_DATA_STATE
    · obtain ⟨st, rdl⟩ := s
      simp only at hs
      subst hs
      rw [scanL_cons_var]
      by_cases h1 : rdl ≤ a.length + 1
      · rw [if_pos h1]
        exact Or.inr (Or.inr ⟨rfl, rfl, rdl, rfl, h1, fun h => by cases h⟩)
      · rw [if_neg h1]
        exact Or.inl ⟨rfl, rfl⟩
    · rw [scanL_cons_head x a n s hs]
      cases hstep : headStep x n s with
      | inl r =>
        simp only
        rcases headStep_inl_shape x n s r hstep with h | ⟨h1, h2, h3, h4⟩
        · exact Or.inr (Or.inl h)
        · refine Or.inr (Or.inr ⟨h1, h3, 0, h2, Nat.zero_le _, fun h => ?_⟩)
          rw [h4] at h; cases h
      | inr s1 =>
        simp only
        rcases ih (n + 1) s1 with h | h | ⟨h1, h2, k, h3, h4, _⟩
        · exact Or.inl h
        · exact Or.inr (Or.inl h)
        · refine Or.inr (Or.inr ⟨h1, h2, k + 1, ?_, ?_, fun _ => by omega⟩)
          · rw [h3]; congr 1; omega
          · simp only [List.length_cons]; omega

/-- Moving the start index moves a flush offset by as much and changes nothing else. -/
theorem scanL_shift (data : List Byte) : ∀ (n : Nat) (s : MqttSplitter),
    scanL data n s =
      ⟨(scanL data 0 s).status, (scanL data 0 s).fp.map (· + n), (scanL data 0 s).splitter⟩ := by
  induction data with
  | nil => intro n s; rfl
  | cons x a ih =>
    intro n s
    by_cases hs : s.mqtt_state = MQTT_PAF_VAR_DATA_STATE
    · obtain ⟨st, rdl⟩ := s
      simp only at hs
      subst hs
      rw [scanL_cons_var, scanL_cons_var]
      split
      · simp only [Option.map_some', Nat.zero_add]
        rw [Nat.add_comm rdl n]
      · rfl
    · rw [scanL_cons_head x a n s hs, scanL_cons_head x a 0 s hs, headStep_shift x n s]
      cases headStep x 0 s with
      | inl r => rfl
      | inr s1 =>
        simp only
        rw [ih (n + 1), ih (0 + 1)]
        cases (scanL a 0 s1).fp with
        | none => rfl
        | some k =>
          simp only [Option.map_some']
          congr 2; omega

/-! ## `scan` and the delivery in chunks -/

/-- Chunk compositionality of `scan`. -/
theorem scan_append (a b : List Byte) (s : MqttSplitter) :
    scan (a ++ b) s =
      if (scan a s).status = SEARCH then
        ⟨(scan b (scan a s).splitter).status,
          (scan b (scan a s).splitter).fp.map (· + a.length),
          (scan b (scan a s).splitter).splitter⟩
      else scan a s := by
  rw [scan_eq_scanL, scan_eq_scanL, scanL_append]
  split
  · rw [scanL_shift, Nat.zero_add, scan_eq_scanL]
  · rfl

/-- The shape of every result of `scan`. -/
theorem scan_shape (data : List Byte) (s : MqttSplitter) :
    ((scan data s).status = SEARCH ∧ (scan data s).fp = none) ∨
    ((scan data s).status = ABORT ∧ (scan data s).fp = none) ∨
    ((scan data s).status = FLUSH ∧
      (scan data s).splitter = ⟨MQTT_PAF_FIX_HEAD_STATE, 0⟩ ∧
      ∃ k, (scan data s).fp = some k ∧ k ≤ data.length ∧
        (s.mqtt_state = MQTT_PAF_FIX_HEAD_STATE → 1 ≤ k)) := by
  rw [scan_eq_scanL]
  rcases scanL_shape data 0 s with h | h | ⟨h1, h2, k, h3, h4, h5⟩
  · exact Or.inl h
  · exact Or.inr (Or.inl h)
  · exact Or.inr (Or.inr ⟨h1, h2, k, by rw [h3, Nat.zero_add], h4, h5⟩)

/-- A larger bound does not change what `drive` has found. -/
theorem drive_mono : ∀ (f : Nat) (chunks : List (List Byte)) (base : Nat) (s : MqttSplitter)
    (r : List Nat), drive f chunks base s = some r →
    ∀ g, f ≤ g → drive g chunks base s = some r := by
  intro f
  induction f with
  | zero => intro chunks base s r h; cases h
  | succ f ih =>
    intro chunks base s r h g hg
    obtain ⟨g, rfl⟩ : ∃ g1, g = g1 + 1 := ⟨g - 1, by omega⟩
    have hfg : f ≤ g := by omega
    cases chunks with
    | nil => exact h
    | cons c cs =>
      simp only [drive] at h ⊢
      cases hst : (scan c s).status <;> simp only [hst] at h ⊢
      · exact h
      · exact ih _ _ _ _ h g hfg
      · cases hfp : (scan c s).fp with
        | none => simp only [hfp] at h ⊢; exact h
        | some fp =>
          simp only [hfp] at h ⊢
          cases hd : drive f (c.drop fp :: cs) (base + fp) (scan c s).splitter with
          | none => rw [hd] at h; cases h
          | some r1 =>
            rw [hd] at h
            rw [ih _ _ _ _ hd g hfg]
            exact h

/-- With a bound of `driveBound` calls, `drive` returns a list of offsets. -/
theorem drive_total : ∀ (f : Nat) (chunks : List (List Byte)) (base : Nat) (s : MqttSplitter),
    driveBound chunks s ≤ f → ∃ r, drive f chunks base s = some r := by
  intro f
  induction f with
  | zero => intro chunks base s h; simp only [driveBound] at h; omega
  | succ f ih =>
    intro chunks base s h
    cases chunks with
    | nil => exact ⟨[], rfl⟩
    | cons c cs =>
      simp only [drive]
      simp only [driveBound, List.flatten_cons, List.length_append, List.length_cons] at h
      rcases scan_shape c s with ⟨h1, _⟩ | ⟨h1, _⟩ | ⟨h1, h2, k, h3, h4, h5⟩
      · simp only [h1]
        apply ih
        cases c with
        | nil =>
          have e : (scan [] s).splitter = s := rfl
          rw [e]
          simp only [driveBound, List.length_nil] at h ⊢
          omega
        | cons x c =>
          simp only [driveBound, List.length_cons] at h ⊢
          split <;> split at h <;> omega
      · simp only [h1]; exact ⟨[], rfl⟩
      · simp only [h1, h3]
        have hb : driveBound (c.drop k :: cs) (scan c s).splitter ≤ f := by
          simp only [driveBound, List.flatten_cons, List.length_append, List.length_cons,
            List.length_drop, h2, if_true]
          split at h
          · next hfix => have := h5 hfix; omega
          · omega
        obtain ⟨r, hr⟩ := ih (c.drop k :: cs) (base + k) (scan c s).splitter hb
        exact ⟨_, by rw [hr]; rfl⟩

/-- Delivering two adjacent chunks as one does not change the offsets found. -/
theorem drive_merge : ∀ (f : Nat) (c1 c2 : List Byte) (cs : List (List Byte)) (base : Nat)
    (s : MqttSplitter) (r : List Nat),
    drive f (c1 :: c2 :: cs) base s = some r →
    ∃ g, drive g ((c1 ++ c2) :: cs) base s = some r := by
  intro f
  induction f with
  | zero => intro c1 c2 cs base s r h; cases h
  | succ f ih =>
    intro c1 c2 cs base s r h
    simp only [drive] at h
    have happ := scan_append c1 c2 s
    rcases scan_shape c1 s with ⟨h1, _⟩ | ⟨h1, _⟩ | ⟨h1, _, k, h3, h4, _⟩
    · -- the first chunk ends in SEARCH: the second one decides
      simp only [h1] at h
      rw [if_pos h1] at happ
      cases f with
      | zero => cases h
      | succ f =>
        simp only [drive] at h
        refine ⟨f + 1, ?_⟩
        simp only [drive, happ]
        rcases scan_shape c2 (scan c1 s).splitter with ⟨g1, _⟩ | ⟨g1, _⟩ | ⟨g1, _, j, g3, _, _⟩
        · simp only [g1] at h ⊢
          rw [List.length_append, ← Nat.add_assoc]
          exact h
        · simp only [g1] at h ⊢
          exact h
        · simp only [g1, g3, Option.map_some'] at h ⊢
          have e1 : base + (j + c1.length) = base + c1.length + j := by omega
          have e2 : List.drop (j + c1.length) (c1 ++ c2) = List.drop j c2 := by
            rw [Nat.add_comm, List.drop_append]
          rw [e1, e2]
          exact h
    · simp only [h1] at h
      have hne : ¬ (scan c1 s).status = SEARCH := by rw [h1]; exact fun e => Status.noConfusion e
      rw [if_neg hne] at happ
      refine ⟨1, ?_⟩
      simp only [drive, happ, h1]
      exact h
    · simp only [h1, h3] at h
      have hne : ¬ (scan c1 s).status = SEARCH := by rw [h1]; exact fun e => Status.noConfusion e
      rw [if_neg hne] at happ
      cases hd : drive f (List.drop k c1 :: c2 :: cs) (base + k) (scan c1 s).splitter with
      | none => rw [hd] at h; cases h
      | some r1 =>
        rw [hd] at h
        obtain ⟨g, hg⟩ := ih _ _ _ _ _ _ hd
        refine ⟨g + 1, ?_⟩
        simp only [drive, happ, h1, h3]
        rw [List.drop_append_of_le_length h4, hg]
        exact h

/-- Delivering all chunks as one does not change the offsets found. -/
theorem drive_flatten : ∀ (m : Nat) (chunks : List (List Byte)), chunks.length = m →
    ∀ (f base : Nat) (s : MqttSplitter) (r : List Nat),
    drive f chunks base s = some r → ∃ g, drive g [chunks.flatten] base s = some r := by
  intro m
  induction m with
  | zero =>
    intro chunks hlen f base s r h
    have : chunks = [] := List.length_eq_zero.mp hlen
    subst this
    cases f with
    | zero => cases h
    | succ f =>
      simp only [drive] at h
      exact ⟨2, h⟩
  | succ m ih =>
    intro chunks hlen f base s r h
    match chunks, hlen with
    | [c], _ =>
      refine ⟨f, ?_⟩
      simp only [List.flatten_cons, List.flatten_nil, List.append_nil]
      exact h
    | c1 :: c2 :: cs, hlen =>
      obtain ⟨g, hg⟩ := drive_merge f c1 c2 cs base s r h
      have hl : ((c1 ++ c2) :: cs).length = m := by
        simp only [List.length_cons] at hlen ⊢; omega
      obtain ⟨g1, hg1⟩ := ih _ hl g base s r hg
      refine ⟨g1, ?_⟩
      simp only [List.flatten_cons, List.append_assoc] at hg1 ⊢
      exact hg1

/-- Frame Splitter determinism for arbitrary streams: whatever the chunks, `drive`
returns, and it returns the offsets of the delivery as a single chunk. -/
theorem flush_offsets_flatten (chunks : List (List Byte)) :
    ∃ r, flush_offsets chunks = some r ∧ flush_offsets [chunks.flatten] = some r := by
  have hb1 : driveBound chunks MqttSplitter.init
      ≤ 2 * chunks.flatten.length + chunks.length + 2 := by
    simp only [driveBound, MqttSplitter.init, if_true]; omega
  have hb2 : driveBound [chunks.flatten] MqttSplitter.init
      ≤ 2 * [chunks.flatten].flatten.length + [chunks.flatten].length + 2 := by
    simp only [driveBound, MqttSplitter.init, if_true]; omega
  obtain ⟨r, hr⟩ := drive_total _ chunks 0 MqttSplitter.init hb1
  obtain ⟨r1, hr1⟩ := drive_total _ [chunks.flatten] 0 MqttSplitter.init hb2
  obtain ⟨g, hg⟩ := drive_flatten chunks.length chunks rfl _ 0 MqttSplitter.init r hr
  have e1 := drive_mono _ _ _ _ _ hg (max g (2 * [chunks.flatten].flatten.length
    + [chunks.flatten].length + 2)) (Nat.le_max_left _ _)
  have e2 := drive_mono _ _ _ _ _ hr1 (max g (2 * [chunks.flatten].flatten.length
    + [chunks.flatten].length + 2)) (Nat.le_max_right _ _)
  rw [e1] at e2
  cases e2
  exact ⟨r, hr, hr1⟩

/-! ## Aborts, flush offsets and determinism -/

/-- The bytes on which one loop iteration aborts. -/
theorem headStep_abort_iff (b : Byte) (n : Nat) (s : MqttSplitter) :
    (∃ r, headStep b n s = .inl r ∧ r.status = ABORT) ↔
      ((s.mqtt_state = MQTT_PAF_FIX_HEAD_STATE ∧ b.val >>> 4 = 0) ∨
       (s.mqtt_state = MQTT_PAF_REM_LEN4_STATE ∧ (b.val &&& 128) ≠ 0)) := by
  have hnib : ¬ b.val >>> 4 > 15 := by
    rw [Byte.shiftRight_4]
    have := b.isLt
    omega
  obtain ⟨st, rdl⟩ := s
  cases st <;> simp only [headStep]
  case MQTT_PAF_FIX_HEAD_STATE =>
    by_cases h0 : b.val >>> 4 = 0
    · rw [if_pos (Or.inl h0)]
      exact ⟨fun _ => Or.inl ⟨trivial, h0⟩, fun _ => ⟨_, rfl, rfl⟩⟩
    · rw [if_neg (by rintro (h | h); exact h0 h; exact hnib h)]
      constructor
      · rintro ⟨r, hr, _⟩; cases hr
      · rintro (⟨_, h⟩ | ⟨h, _⟩)
        · exact absurd h h0
        · cases h
  case MQTT_PAF_REM_LEN4_STATE =>
    by_cases hc : (b.val &&& 128) ≠ 0
    · rw [if_pos hc]
      exact ⟨fun _ => Or.inr ⟨trivial, hc⟩, fun _ => ⟨_, rfl, rfl⟩⟩
    · rw [if_neg hc]
      constructor
      · rintro ⟨r, hr, _⟩; cases hr
      · rintro (⟨h, _⟩ | ⟨_, h⟩)
        · cases h
        · exact absurd h hc
  all_goals
    constructor
    · rintro ⟨r, hr, hab⟩
      first
        | (split_ifs at hr <;> cases hr <;> cases hab)
        | cases hr
    · rintro (⟨h, _⟩ | ⟨h, _⟩) <;> cases h

/-- An abort of the scan loop is an abort of the iteration on some byte of the chunk,
the bytes before it having been scanned with `SEARCH`. -/
theorem scanL_abort (data : List Byte) : ∀ (n : Nat) (s : MqttSplitter),
    (scanL data n s).status = ABORT →
    ∃ (pre : List Byte) (b : Byte) (post : List Byte),
      data = pre ++ b :: post ∧ (scanL pre n s).status = SEARCH ∧
      (((scanL pre n s).splitter.mqtt_state = MQTT_PAF_FIX_HEAD_STATE ∧ b.val >>> 4 = 0) ∨
       ((scanL pre n s).splitter.mqtt_state = MQTT_PAF_REM_LEN4_STATE ∧
         (b.val &&& 128) ≠ 0)) := by
  induction data with
  | nil => intro n s h; cases h
  | cons x a ih =>
    intro n s h
    by_cases hs : s.mqtt_state = MQTT_PAF_VAR_DATA_STATE
    · obtain ⟨st, rdl⟩ := s
      simp only at hs
      subst hs
      rw [scanL_cons_var] at h
      split at h <;> cases h
    · rw [scanL_cons_head x a n s hs] at h
      cases hstep : headStep x n s with
      | inl r =>
        rw [hstep] at h
        exact ⟨[], x, a, rfl, rfl, (headStep_abort_iff x n s).mp ⟨r, hstep, h⟩⟩
      | inr s1 =>
        rw [hstep] at h
        obtain ⟨pre, b, post, h1, h2, h3⟩ := ih (n + 1) s1 h
        have e : scanL (x :: pre) n s = scanL pre (n + 1) s1 := by
          rw [scanL_cons_head x pre n s hs, hstep]
        exact ⟨x :: pre, b, post, by rw [h1]; rfl, by rw [e]; exact h2, by rw [e]; exact h3⟩

/-- The scan loop aborts on a first byte that meets the abort condition of its state. -/
theorem scanL_abort_head (b : Byte) (post : List Byte) (n : Nat) (s : MqttSplitter)
    (h : (s.mqtt_state = MQTT_PAF_FIX_HEAD_STATE ∧ b.val >>> 4 = 0) ∨
       (s.mqtt_state = MQTT_PAF_REM_LEN4_STATE ∧ (b.val &&& 128) ≠ 0)) :
    (scanL (b :: post) n s).status = ABORT := by
  have hs : s.mqtt_state ≠ MQTT_PAF_VAR_DATA_STATE := by
    rcases h with ⟨h, _⟩ | ⟨h, _⟩ <;> rw [h] <;> exact fun e => MqttPafState.noConfusion e
  obtain ⟨r, hr, hab⟩ := (headStep_abort_iff b n s).mpr h
  rw [scanL_cons_head b post n s hs, hr]
  exact hab

/-- C3: for every byte sequence that is a concatenation of valid control packets (type
nibble 1..15, remaining length at most 268435455) and every partition of it into
non-empty chunks, driving `scan` over the chunks from the initial state, with a new call
on the bytes behind each flush offset, returns, and it returns the same sequence of
absolute flush offsets as driving it over the whole sequence as a single chunk. -/
theorem C3_splitter_determinism (pkts : List (Byte × List Byte))
    (chunks : List (List Byte))
    (hvalid : ∀ p ∈ pkts, 1 ≤ p.1.val >>> 4 ∧ p.2.length ≤ 268435455)
    (hne : ∀ c ∈ chunks, c ≠ [])
    (hpart : chunks.flatten = (pkts.map (fun p => control_packet p.1 p.2)).flatten) :
    ∃ offsets, flush_offsets chunks = some offsets ∧
      flush_offsets [(pkts.map (fun p => control_packet p.1 p.2)).flatten]
        = some offsets := by
  have _ := hvalid
  have _ := hne
  rw [← hpart]
  exact flush_offsets_flatten chunks

/-- Witness for C3: a PUBLISH with a two-byte body and a CONNACK, delivered byte by
byte and as a whole, flush at the stream offsets 4 and 8. -/
theorem C3_splitter_determinism_witness :
    flush_offsets [[0x30], [0x02], [0x01], [0x02], [0x20], [0x02], [0x00], [0x00]]
      = some [4, 8] ∧
    flush_offsets [[0x30, 0x02, 0x01, 0x02, 0x20, 0x02, 0x00, 0x00]] = some [4, 8] := by
  obtain ⟨offsets, h1, h2⟩ := C3_splitter_determinism
    [(0x30, [0x01, 0x02]), (0x20, [0x00, 0x00])]
    [[0x30], [0x02], [0x01], [0x02], [0x20], [0x02], [0x00], [0x00]]
    (by decide) (by decide) (by decide)
  have h3 : flush_offsets [[0x30], [0x02], [0x01], [0x02], [0x20], [0x02], [0x00], [0x00]]
      = some [4, 8] := by decide
  rw [h3] at h1
  cases h1
  exact ⟨h3, h2⟩

/-- C4 (code defect): the PINGREQ packet `c0 00` (type 12, remaining length 0) is two
bytes long, but `scan` on exactly these bytes from the initial state returns `FLUSH` with
offset 1: the `RemLen1` branch stores the index of the length byte, not the offset behind
it. -/
theorem C4_flush_offset_short_for_empty_body :
    control_packet 0xC0 [] = [0xC0, 0x00] ∧
    (control_packet 0xC0 []).length = 2 ∧
    scan (control_packet 0xC0 []) MqttSplitter.init
      = ⟨FLUSH, some 1, ⟨MQTT_PAF_FIX_HEAD_STATE, 0⟩⟩ := by
  decide

/-- C5: whatever state `scan` is started in, it returns `ABORT` exactly when it gets, after
bytes it has scanned with `SEARCH`, to a byte with high nibble 0 in `FixedHead` or to a
byte with the continuation bit `0x80` in `RemLen4`. -/
theorem C5_abort_conditions (data : List Byte) (s : MqttSplitter) :
    (scan data s).status = ABORT ↔
      ∃ (pre : List Byte) (b : Byte) (post : List Byte),
        data = pre ++ b :: post ∧ (scan pre s).status = SEARCH ∧
        (((scan pre s).splitter.mqtt_state = MQTT_PAF_FIX_HEAD_STATE ∧ b.val >>> 4 = 0) ∨
         ((scan pre s).splitter.mqtt_state = MQTT_PAF_REM_LEN4_STATE ∧
           (b.val &&& 128) ≠ 0)) := by
  constructor
  · intro h
    rw [scan_eq_scanL] at h
    obtain ⟨pre, b, post, h1, h2, h3⟩ := scanL_abort data 0 s h
    exact ⟨pre, b, post, h1, by rw [scan_eq_scanL]; exact h2, by rw [scan_eq_scanL]; exact h3⟩
  · rintro ⟨pre, b, post, h1, h2, h3⟩
    rw [h1, scan_append, if_pos h2]
    show (scan (b :: post) (scan pre s).splitter).status = ABORT
    rw [scan_eq_scanL]
    exact scanL_abort_head b post 0 _ h3

/-! ## The decoders on a short cursor -/

/-- Reading two characters from a good stream that holds fewer than two fails. -/
theorem IStream.read_two_short (st : IStream) (hf : st.fail = false)
    (hlen : st.buf.length < 2) : (st.read 2).2.fail = true := by
  simp only [IStream.read, hf]
  rw [if_neg (by simp), if_neg (by omega)]

/-- On a good stream with fewer than two characters `parse_enc_string` fails and leaves
the string alone. -/
theorem parse_enc_string_short (cs : Bool) (st : IStream) (str : List Byte)
    (hf : st.fail = false) (hlen : st.buf.length < 2) :
    (parse_enc_string cs st str).1 = false ∧ (parse_enc_string cs st str).2.2 = str := by
  have h := IStream.read_two_short st hf hlen
  have e : parse_enc_string cs st str = (false, (st.read 2).2, str) := by
    simp only [parse_enc_string, h, if_true]
  rw [e]
  exact ⟨rfl, rfl⟩

theorem connect_parse_short (cs : Bool) (c : MQTTConnectCommand) (st : IStream)
    (hf : st.fail = false) (hlen : st.buf.length < 2) :
    (MQTTConnectCommand.parse cs c st).1 = MQTT_EOF := by
  have h := (parse_enc_string_short cs st c.protocol_string hf hlen).1
  unfold MQTTConnectCommand.parse
  simp only [h]
  rfl

theorem connack_parse_short (c : MQTTConnackCommand) (st : IStream)
    (hf : st.fail = false) (hlen : st.buf.length < 2) :
    (MQTTConnackCommand.parse c st).1 = MQTT_EOF := by
  obtain ⟨buf, pos, fail⟩ := st
  simp only at hf hlen
  subst hf
  match buf, hlen with
  | [], _ => rfl
  | [_], _ => rfl

theorem publish_parse_short (cs : Bool) (header : MQTTFixedHeader) (c : MQTTPublishCommand)
    (qos : Nat) (st : IStream) (hf : st.fail = false) (hlen : st.buf.length < 2) :
    (MQTTPublishCommand.parse cs header c qos st).1 = MQTT_EOF ∧
    (MQTTPublishCommand.parse cs header c qos st).2.2 = qos := by
  have h := (parse_enc_string_short cs st c.topic hf hlen).1
  unfold MQTTPublishCommand.parse
  simp only [h]
  exact ⟨rfl, rfl⟩

theorem pubresponse_parse_short (cs : Bool) (c : MQTTPubResponseCommand) (st : IStream)
    (hf : st.fail = false) (hlen : st.buf.length < 2) :
    (MQTTPubResponseCommand.parse cs c st).1 = MQTT_EOF := by
  have h := IStream.read_two_short st hf hlen
  simp only [MQTTPubResponseCommand.parse, h, if_true]

theorem subscribe_parse_short (cs : Bool) (c : MQTTSubscribeCommand) (st : IStream)
    (hf : st.fail = false) (hlen : st.buf.length < 2) :
    (MQTTSubscribeCommand.parse cs c st).1 = MQTT_EOF := by
  have h := IStream.read_two_short st hf hlen
  simp only [MQTTSubscribeCommand.parse, h, if_true]

theorem unsubscribe_parse_short (cs : Bool) (c : MQTTUnsubscribeCommand) (st : IStream)
    (hf : st.fail = false) (hlen : st.buf.length < 2) :
    (MQTTUnsubscribeCommand.parse cs c st).1 = MQTT_EOF := by
  have h := IStream.read_two_short st hf hlen
  simp only [MQTTUnsubscribeCommand.parse, h, if_true]

theorem suback_parse_short (cs : Bool) (c : MQTTSubackCommand) (st : IStream)
    (hf : st.fail = false) (hlen : st.buf.length < 2) :
    (MQTTSubackCommand.parse cs c st).1 = MQTT_EOF := by
  have h := IStream.read_two_short st hf hlen
  simp only [MQTTSubackCommand.parse, h, if_true]

/-! ## `snort_mqtt` and the session -/

/-- The switch never touches `prev_command`; it leaves `qos` alone outside the PUBLISH
case; and whenever it ends with a non-zero `ret` it has stored a command object built
from the fixed header. -/
theorem snort_mqtt_switch_frame (cs : Bool) (header : MQTTFixedHeader) (session : MQTTData)
    (stream : IStream) :
    (snort_mqtt_switch cs header session stream).session.prev_command
      = session.prev_command ∧
    (header.pkt_type ≠ CMD_PUBLISH →
      (snort_mqtt_switch cs header session stream).session.qos = session.qos) ∧
    ((snort_mqtt_switch cs header session stream).ret ≠ 0 →
      ∃ body, (snort_mqtt_switch cs header session stream).session.current_command
        = some ⟨header, body⟩) := by
  unfold snort_mqtt_switch
  by_cases h0 : header.pkt_type = CMD_RESERVED
  · rw [if_pos h0]; exact ⟨rfl, fun _ => rfl, fun h => absurd rfl h⟩
  rw [if_neg h0]
  by_cases h1 : header.pkt_type = CMD_CONNECT
  · rw [if_pos h1]; exact ⟨rfl, fun _ => rfl, fun _ => ⟨_, rfl⟩⟩
  rw [if_neg h1]
  by_cases h2 : header.pkt_type = CMD_CONNACK
  · rw [if_pos h2]; exact ⟨rfl, fun _ => rfl, fun _ => ⟨_, rfl⟩⟩
  rw [if_neg h2]
  by_cases h3 : header.pkt_type = CMD_PUBLISH
  · rw [if_pos h3]; exact ⟨rfl, fun h => absurd h3 h, fun _ => ⟨_, rfl⟩⟩
  rw [if_neg h3]
  by_cases h4 : header.pkt_type = CMD_PUBACK ∨ header.pkt_type = CMD_PUBREC
      ∨ header.pkt_type = CMD_PUBREL ∨ header.pkt_type = CMD_PUBCOMP
  · rw [if_pos h4]; exact ⟨rfl, fun _ => rfl, fun _ => ⟨_, rfl⟩⟩
  rw [if_neg h4]
  by_cases h5 : header.pkt_type = CMD_SUBSCRIBE
  · rw [if_pos h5]; exact ⟨rfl, fun _ => rfl, fun _ => ⟨_, rfl⟩⟩
  rw [if_neg h5]
  by_cases h6 : header.pkt_type = CMD_SUBACK
  · rw [if_pos h6]; exact ⟨rfl, fun _ => rfl, fun _ => ⟨_, rfl⟩⟩
  rw [if_neg h6]
  by_cases h7 : header.pkt_type = CMD_UNSUBSCRIBE
  · rw [if_pos h7]; exact ⟨rfl, fun _ => rfl, fun _ => ⟨_, rfl⟩⟩
  rw [if_neg h7]
  by_cases h8 : header.pkt_type = CMD_PINGREQ ∨ header.pkt_type = CMD_PINGRESP
      ∨ header.pkt_type = CMD_DISCONNECT
  · rw [if_pos h8]; exact ⟨rfl, fun _ => rfl, fun h => absurd rfl h⟩
  rw [if_neg h8]
  exact ⟨rfl, fun _ => rfl, fun h => absurd rfl h⟩

/-- The session lookup leaves `prev_command`, `qos` and `current_command` as they are in
the flow data. -/
theorem snort_mqtt_session_frame (p : Packet) (flow_data : Option MQTTData) :
    (snort_mqtt_session p flow_data).prev_command = (flow_data.getD {}).prev_command ∧
    (snort_mqtt_session p flow_data).qos = (flow_data.getD {}).qos := by
  unfold snort_mqtt_session
  split <;> exact ⟨rfl, rfl⟩

/-- What a returning call of `snort_mqtt` has computed. -/
theorem snort_mqtt_eq_some (cs : Bool) (max_msg_len : Nat) (p : Packet)
    (flow_data : Option MQTTData) (o : MqttOutcome)
    (h : snort_mqtt cs max_msg_len p flow_data = some o) :
    ∃ header data_ptr,
      MQTT_parse_fixed_header (p.data ++ p.beyond) max_msg_len = some (header, data_ptr) ∧
      snort_mqtt_len header p ≤ data_ptr.length ∧
      o = snort_mqtt_finish header (snort_mqtt_switch cs header
        (snort_mqtt_session p flow_data) ⟨data_ptr.take (snort_mqtt_len header p), 0, false⟩) := by
  unfold snort_mqtt at h
  cases hh : MQTT_parse_fixed_header (p.data ++ p.beyond) max_msg_len with
  | none => rw [hh] at h; cases h
  | some hr =>
    obtain ⟨header, data_ptr⟩ := hr
    rw [hh] at h
    simp only at h
    split at h
    · cases h
    · next hlen =>
      cases h
      exact ⟨header, data_ptr, rfl, by omega, rfl⟩

/-- When the header and the cursor lie inside the memory, `snort_mqtt` returns. -/
theorem snort_mqtt_of_header (cs : Bool) (max_msg_len : Nat) (p : Packet)
    (flow_data : Option MQTTData) (header : MQTTFixedHeader) (data_ptr : List Byte)
    (hh : MQTT_parse_fixed_header (p.data ++ p.beyond) max_msg_len = some (header, data_ptr))
    (hlen : snort_mqtt_len header p ≤ data_ptr.length) :
    snort_mqtt cs max_msg_len p flow_data =
      some (snort_mqtt_finish header (snort_mqtt_switch cs header
        (snort_mqtt_session p flow_data)
        ⟨data_ptr.take (snort_mqtt_len header p), 0, false⟩)) := by
  unfold snort_mqtt
  rw [hh]
  simp only
  rw [if_neg (by omega)]

/-- C8 (counterexample): a failed decode does change the session.  The CONNACK `20 00`,
whose body is empty, fails with Eof, and the session's `current_command`, null before,
is the half-built CONNACK object afterwards.  The PUBLISH `36 05 00 03 61 2f 62` fails
with Eof at its message id, and the session's `qos`, 0 before, is 1 afterwards. -/
theorem C8_failed_decode_changes_session :
    (∃ o, snort_mqtt true 0 { data := [0x20, 0x00] } (some {}) = some o ∧
      o.ret = MQTT_EOF ∧
      o.session.current_command = some ⟨{ pkt_type := CMD_CONNACK }, .Connack {}⟩ ∧
      o.session.current_command ≠ ({} : MQTTData).current_command) ∧
    (∃ o, snort_mqtt true 0 { data := [0x36, 0x05, 0x00, 0x03, 0x61, 0x2f, 0x62] } (some {})
        = some o ∧
      o.ret = MQTT_EOF ∧ o.session.qos = 1 ∧ o.session.qos ≠ ({} : MQTTData).qos) := by
  refine ⟨⟨_, rfl, ?_, ?_, ?_⟩, ⟨_, rfl, ?_, ?_, ?_⟩⟩ <;> decide

/-- C8 (amended): for every session and every packet whose type-specific decode fails
(`ret` is not 0), `prev_command` after `snort_mqtt` is `prev_command` before it, `qos` is
unchanged unless the packet is a PUBLISH, and `current_command` is the command object
constructed for this packet, carrying its fixed header. -/
theorem C8_failed_decode_frame (cs : Bool) (max_msg_len : Nat) (p : Packet)
    (flow_data : Option MQTTData) (o : MqttOutcome)
    (h : snort_mqtt cs max_msg_len p flow_data = some o) (hfail : o.ret ≠ 0) :
    o.session.prev_command = (flow_data.getD {}).prev_command ∧
    ∃ header data_ptr body,
      MQTT_parse_fixed_header (p.data ++ p.beyond) max_msg_len = some (header, data_ptr) ∧
      o.session.current_command = some ⟨header, body⟩ ∧
      (header.pkt_type ≠ CMD_PUBLISH → o.session.qos = (flow_data.getD {}).qos) := by
  obtain ⟨header, data_ptr, hh, _, ho⟩ := snort_mqtt_eq_some cs max_msg_len p flow_data o h
  subst ho
  have hr0 : (snort_mqtt_switch cs header (snort_mqtt_session p flow_data)
      ⟨data_ptr.take (snort_mqtt_len header p), 0, false⟩).ret ≠ 0 := by
    intro h0
    apply hfail
    simp only [snort_mqtt_finish, h0]
    rfl
  have hfin : (snort_mqtt_finish header (snort_mqtt_switch cs header
      (snort_mqtt_session p flow_data)
      ⟨data_ptr.take (snort_mqtt_len header p), 0, false⟩)).session
      = (snort_mqtt_switch cs header (snort_mqtt_session p flow_data)
      ⟨data_ptr.take (snort_mqtt_len header p), 0, false⟩).session := by
    simp only [snort_mqtt_finish, if_pos hr0]
    split <;> rfl
  obtain ⟨e1, e2, e3⟩ := snort_mqtt_switch_frame cs header (snort_mqtt_session p flow_data)
    ⟨data_ptr.take (snort_mqtt_len header p), 0, false⟩
  obtain ⟨body, hb⟩ := e3 hr0
  obtain ⟨s1, s2⟩ := snort_mqtt_session_frame p flow_data
  rw [hfin]
  refine ⟨by rw [e1, s1], header, data_ptr, body, hh, hb, fun hp => by rw [e2 hp, s2]⟩

/-- Witness for C8 (amended): the CONNACK `20 00` on a session whose `prev_command` is
CONNECT. -/
theorem C8_failed_decode_frame_witness :
    (1 : Nat) = (((some { prev_command := CMD_CONNECT } : Option MQTTData).getD {}).prev_command) ∧
    ∃ header data_ptr body,
      MQTT_parse_fixed_header (([0x20, 0x00] : List Byte) ++ []) 0 = some (header, data_ptr) ∧
      (some ⟨{ pkt_type := CMD_CONNACK }, .Connack {}⟩ : Option MQTTCommand)
        = some ⟨header, body⟩ ∧
      (header.pkt_type ≠ CMD_PUBLISH →
        (0 : Nat) = ((some { prev_command := CMD_CONNECT } : Option MQTTData).getD {}).qos) :=
  C8_failed_decode_frame true 0 { data := [0x20, 0x00] } (some { prev_command := CMD_CONNECT })
    ⟨{ prev_command := 1, current_command := some ⟨{ pkt_type := CMD_CONNACK }, .Connack {}⟩ },
      [], MQTT_EOF⟩
    (by decide) (by decide)

/-- C9 (code defect): a packet of the reserved type 0 (`00 00`) and a packet of the
unrecognized type 15 (`f0 00`) each queue their event and still overwrite
`prev_command`, CONNECT before, with the packet's type: the switch leaves `ret` at 0 on
both labels, so the success branch of the closing `if` runs. -/
theorem C9_unknown_type_overwrites_prev_command :
    snort_mqtt true 0 { data := [0x00, 0x00] } (some { prev_command := CMD_CONNECT })
      = some ⟨{ prev_command := CMD_RESERVED }, [MQTT_PROTO_VIOLATION], 0⟩ ∧
    snort_mqtt true 0 { data := [0xF0, 0x00] } (some { prev_command := CMD_CONNECT })
      = some ⟨{ prev_command := CMD_LAST }, [MQTT_UNKNOWN_MSG_TYPE], 0⟩ ∧
    CMD_RESERVED ≠ CMD_CONNECT ∧ CMD_LAST ≠ CMD_CONNECT := by
  decide

/-- The types without a decoder succeed whatever length they declare: the PINGREQ `c0 05`
declares a remaining length of 5 and delivers no body byte (two more bytes of memory
follow the packet, which the cursor bound of `min 5 2` bytes reaches over).  The switch
builds an `MQTTEmptyCommand` without reading the cursor: `ret` is 0 and `prev_command`,
CONNECT before, is PINGREQ afterwards. -/
theorem snort_mqtt_truncated_pingreq :
    snort_mqtt true 0 { data := [0xC0, 0x05], beyond := [0x00, 0x00] }
        (some { prev_command := CMD_CONNECT })
      = some ⟨{ prev_command := CMD_PINGREQ
                current_command :=
                  some ⟨{ pkt_type := CMD_PINGREQ, remaining_len := 5 }, .Empty⟩ }, [], 0⟩ ∧
    (0 : Nat) ≠ MQTT_EOF ∧ CMD_PINGREQ ≠ CMD_CONNECT := by
  decide

/-- The switch on a cursor shorter than two bytes, for the types that have a decoder. -/
theorem snort_mqtt_switch_short (cs : Bool) (header : MQTTFixedHeader) (session : MQTTData)
    (stream : IStream) (htype : 1 ≤ header.pkt_type ∧ header.pkt_type ≤ 10)
    (hf : stream.fail = false) (hlen : stream.buf.length < 2) :
    (snort_mqtt_switch cs header session stream).ret = MQTT_EOF ∧
    (snort_mqtt_switch cs header session stream).events = [] := by
  obtain ⟨t, b0, b1, b2, b3, rl⟩ := header
  obtain ⟨ht1, ht2⟩ := htype
  simp only at ht1 ht2
  have e1 := connect_parse_short cs {} stream hf hlen
  have e2 := connack_parse_short {} stream hf hlen
  have e3 := (publish_parse_short cs ⟨t, b0, b1, b2, b3, rl⟩ {} session.qos stream hf hlen).1
  have e4 := pubresponse_parse_short cs {} stream hf hlen
  have e5 := subscribe_parse_short cs {} stream hf hlen
  have e6 := suback_parse_short cs {} stream hf hlen
  have e7 := unsubscribe_parse_short cs {} stream hf hlen
  unfold snort_mqtt_switch
  interval_cases t
  all_goals
    simp only [CMD_RESERVED, CMD_CONNECT, CMD_CONNACK, CMD_PUBLISH, CMD_PUBACK, CMD_PUBREC,
      CMD_PUBREL, CMD_PUBCOMP, CMD_SUBSCRIBE, CMD_SUBACK, CMD_UNSUBSCRIBE]
    simp only [Nat.reduceEqDiff, OfNat.ofNat_ne_zero, Nat.succ_ne_self, if_true, if_false,
      or_true, true_or, or_false, false_or, one_ne_zero]
    first
      | exact ⟨e1, trivial⟩
      | exact ⟨e2, trivial⟩
      | exact ⟨e3, trivial⟩
      | exact ⟨e4, trivial⟩
      | exact ⟨e5, trivial⟩
      | exact ⟨e6, trivial⟩
      | exact ⟨e7, trivial⟩

/-- Where Eof does come from: for every command type that has a decoder (types 1 to 10,
CONNECT to UNSUBSCRIBE), if the cursor handed to the decoder holds fewer than two bytes,
`snort_mqtt` returns with `ret = MQTT_EOF`, queues no event, and `prev_command` keeps its
prior value.  The cursor is `min remaining_len dsize` bytes long, so this is decided by
the declared length and the size of the whole packet, not by the body bytes delivered. -/
theorem snort_mqtt_short_cursor_is_eof (cs : Bool) (max_msg_len : Nat) (p : Packet)
    (flow_data : Option MQTTData) (header : MQTTFixedHeader) (data_ptr : List Byte)
    (hh : MQTT_parse_fixed_header (p.data ++ p.beyond) max_msg_len = some (header, data_ptr))
    (htype : 1 ≤ header.pkt_type ∧ header.pkt_type ≤ 10)
    (hcur : snort_mqtt_len header p ≤ data_ptr.length)
    (hshort : snort_mqtt_len header p < 2) :
    ∃ o, snort_mqtt cs max_msg_len p flow_data = some o ∧ o.ret = MQTT_EOF ∧
      o.events = [] ∧ o.session.prev_command = (flow_data.getD {}).prev_command := by
  have hlen : (⟨data_ptr.take (snort_mqtt_len header p), 0, false⟩ : IStream).buf.length < 2 := by
    simp only [List.length_take]; omega
  obtain ⟨r1, r2⟩ := snort_mqtt_switch_short cs header (snort_mqtt_session p flow_data)
    ⟨data_ptr.take (snort_mqtt_len header p), 0, false⟩ htype rfl hlen
  obtain ⟨f1, _, _⟩ := snort_mqtt_switch_frame cs header (snort_mqtt_session p flow_data)
    ⟨data_ptr.take (snort_mqtt_len header p), 0, false⟩
  have hfin : snort_mqtt_finish header (snort_mqtt_switch cs header
      (snort_mqtt_session p flow_data) ⟨data_ptr.take (snort_mqtt_len header p), 0, false⟩)
      = snort_mqtt_switch cs header (snort_mqtt_session p flow_data)
        ⟨data_ptr.take (snort_mqtt_len header p), 0, false⟩ := by
    simp only [snort_mqtt_finish, r1]
    rfl
  refine ⟨_, snort_mqtt_of_header cs max_msg_len p flow_data header data_ptr hh hcur, ?_⟩
  rw [hfin]
  exact ⟨r1, r2, by rw [f1, (snort_mqtt_session_frame p flow_data).1]⟩

/-- C10 (code defect): truncated packets are decoded with success.  Each packet below
declares more body bytes than it delivers, and the session's `prev_command` is CONNECT
before.
* PUBACK `40 02 07` declares 2 and delivers 1: `ret` is 0, `prev_command` becomes PUBACK
  and the message id `0709` takes the byte `09` that follows the packet in memory.
* PUBACK `40 05` declares 5 and delivers none: the message id `0102` is made of the two
  bytes that follow the packet.
* CONNACK `20 02 00` declares 2 and delivers 1: `ret` is 0 and the return code 5 is the
  byte that follows the packet.
* PUBLISH `30 05 00 01 61 68` declares 5 and delivers 4: `ret` is 0 and the message
  `68 69` ends with the byte that follows the packet.
The cursor of mqtt.cc:154-156 starts behind the fixed header and is `min remaining_len
dsize` bytes long, with `dsize` counted from the start of the packet, so it reaches
over the end of the packet by the length of the fixed header.  On the delivered body
bytes alone the same decoders return Eof (the decoder of PUBLISH asks for
`remaining_len` minus the bytes read so far, two bytes, and finds one). -/
theorem C10_truncated_packet_is_decoded :
    (∃ header, MQTT_parse_fixed_header [0x40, 0x02, 0x07] 0 = some (header, [0x07]) ∧
      header.remaining_len = 2 ∧ ([0x07] : List Byte).length = 1) ∧
    snort_mqtt true 0 { data := [0x40, 0x02, 0x07], beyond := [0x09] }
        (some { prev_command := CMD_CONNECT })
      = some ⟨{ prev_command := CMD_PUBACK
                current_command :=
                  some ⟨{ pkt_type := CMD_PUBACK, remaining_len := 2 },
                    .PubResponse { message_id := some 0x0709 }⟩ }, [], 0⟩ ∧
    (MQTTPubResponseCommand.parse true {} { buf := [0x07] }).1 = MQTT_EOF ∧
    snort_mqtt true 0 { data := [0x40, 0x05], beyond := [0x01, 0x02] }
        (some { prev_command := CMD_CONNECT })
      = some ⟨{ prev_command := CMD_PUBACK
                current_command :=
                  some ⟨{ pkt_type := CMD_PUBACK, remaining_len := 5 },
                    .PubResponse { message_id := some 0x0102 }⟩ }, [], 0⟩ ∧
    (MQTTPubResponseCommand.parse true {} { buf := [] }).1 = MQTT_EOF ∧
    snort_mqtt true 0 { data := [0x20, 0x02, 0x00], beyond := [0x05] }
        (some { prev_command := CMD_CONNECT })
      = some ⟨{ prev_command := CMD_CONNACK
                current_command :=
                  some ⟨{ pkt_type := CMD_CONNACK, remaining_len := 2 },
                    .Connack { return_code := some 5, session_present := some false }⟩ },
          [], 0⟩ ∧
    (MQTTConnackCommand.parse {} { buf := [0x00] }).1 = MQTT_EOF ∧
    snort_mqtt true 0 { data := [0x30, 0x05, 0x00, 0x01, 0x61, 0x68], beyond := [0x69] }
        (some { prev_command := CMD_CONNECT })
      = some ⟨{ prev_command := CMD_PUBLISH
                current_command :=
                  some ⟨{ pkt_type := CMD_PUBLISH, remaining_len := 5 },
                    .Publish { topic := [0x61], message := some [0x68, 0x69],
                               msg_len := some 2 }⟩ }, [], 0⟩ ∧
    (MQTTPublishCommand.parse true { pkt_type := CMD_PUBLISH, remaining_len := 5 } {} 0
        { buf := [0x00, 0x01, 0x61, 0x68] }).1 = MQTT_EOF ∧
    (0 : Nat) ≠ MQTT_EOF ∧ CMD_PUBACK ≠ CMD_CONNECT ∧ CMD_CONNACK ≠ CMD_CONNECT ∧
    CMD_PUBLISH ≠ CMD_CONNECT := by
  refine ⟨⟨_, rfl, rfl, rfl⟩, ?_⟩
  decide

/-! ## The extent of the two framing defects -/

/-- One loop iteration of the decoder on a byte with continuation bit. -/
theorem parse_variable_int_loop_cont (b : Byte) (rest : List Byte) (m v : Nat)
    (hb : 128 ≤ b.val) :
    MQTT_parse_variable_int_loop (b :: rest) m v =
      MQTT_parse_variable_int_loop rest (m * 128 % 256) ((v + b.val % 128 * m) % 2 ^ 32) := by
  have hmul : ¬ (m * 128 % 256 > 128 * 128 * 128) := by
    have : m * 128 % 256 < 256 := Nat.mod_lt _ (by decide)
    omega
  have hc : (b.val &&& 128) ≠ 0 := (Byte.and_128_ne_zero b).mpr hb
  rw [MQTT_parse_variable_int_loop]
  simp only [Byte.and_127]
  rw [if_neg hmul, if_pos hc]

/-- The last loop iteration of the decoder, on a byte without continuation bit. -/
theorem parse_variable_int_loop_last (b : Byte) (rest : List Byte) (m v : Nat)
    (hb : b.val < 128) :
    MQTT_parse_variable_int_loop (b :: rest) m v = some ((v + b.val % 128 * m) % 2 ^ 32, rest) := by
  have hmul : ¬ (m * 128 % 256 > 128 * 128 * 128) := by
    have : m * 128 % 256 < 256 := Nat.mod_lt _ (by decide)
    omega
  have hc : ¬ (b.val &&& 128) ≠ 0 := fun h => by
    have := (Byte.and_128_ne_zero b).mp h
    omega
  rw [MQTT_parse_variable_int_loop]
  simp only [Byte.and_127]
  rw [if_neg hmul, if_neg hc]

/-- What the decoder makes of the standard encoding: it consumes exactly the length
field, but only the two low base-128 digits reach the value. -/
theorem parse_encode_variable_int (n : Nat) (rest : List Byte) (hn : n ≤ 268435455) :
    MQTT_parse_variable_int (MQTT_encode_variable_int n ++ rest) = some (n % 16384, rest) := by
  unfold MQTT_parse_variable_int MQTT_encode_variable_int
  by_cases h1 : n / 128 = 0
  · simp only [encode_variable_int_upto, if_pos h1, List.singleton_append]
    rw [parse_variable_int_loop_last _ _ _ _ (by simp only; omega)]
    simp only [Nat.one_mul, Nat.mul_one, Nat.reduceMul, Nat.reduceMod, Nat.mul_zero,
      Nat.add_zero, Nat.zero_add]
    congr 2; omega
  · by_cases h2 : n / 128 / 128 = 0
    · simp only [encode_variable_int_upto, if_neg h1, if_pos h2, List.cons_append,
        List.nil_append]
      rw [parse_variable_int_loop_cont _ _ _ _ (by simp only; omega),
        parse_variable_int_loop_last _ _ _ _ (by simp only; omega)]
      simp only [Nat.one_mul, Nat.mul_one, Nat.reduceMul, Nat.reduceMod, Nat.mul_zero,
        Nat.add_zero, Nat.zero_add]
      congr 2; omega
    · by_cases h3 : n / 128 / 128 / 128 = 0
      · simp only [encode_variable_int_upto, if_neg h1, if_neg h2, if_pos h3,
          List.cons_append, List.nil_append]
        rw [parse_variable_int_loop_cont _ _ _ _ (by simp only; omega),
          parse_variable_int_loop_cont _ _ _ _ (by simp only; omega),
          parse_variable_int_loop_last _ _ _ _ (by simp only; omega)]
        simp only [Nat.one_mul, Nat.mul_one, Nat.reduceMul, Nat.reduceMod, Nat.mul_zero,
          Nat.add_zero, Nat.zero_add]
        congr 2; omega
      · have h4 : n / 128 / 128 / 128 / 128 = 0 := by omega
        simp only [encode_variable_int_upto, if_neg h1, if_neg h2, if_neg h3, if_pos h4,
          List.cons_append, List.nil_append]
        rw [parse_variable_int_loop_cont _ _ _ _ (by simp only; omega),
          parse_variable_int_loop_cont _ _ _ _ (by simp only; omega),
          parse_variable_int_loop_cont _ _ _ _ (by simp only; omega),
          parse_variable_int_loop_last _ _ _ _ (by simp only; omega)]
        simp only [Nat.one_mul, Nat.mul_one, Nat.reduceMul, Nat.reduceMod, Nat.mul_zero,
          Nat.add_zero, Nat.zero_add]
        congr 2; omega

/-- `FixedHead` on a byte whose type nibble is not 0. -/
theorem scanL_fix_head (b : Byte) (rest : List Byte) (n rdl : Nat) (hb : 16 ≤ b.val) :
    scanL (b :: rest) n ⟨MQTT_PAF_FIX_HEAD_STATE, rdl⟩
      = scanL rest (n + 1) ⟨MQTT_PAF_REM_LEN1_STATE, rdl⟩ := by
  have h : ¬ (b.val >>> 4 = 0 ∨ b.val >>> 4 > 15) := by
    rw [Byte.shiftRight_4]
    have := b.isLt
    omega
  rw [scanL]
  simp only
  rw [if_neg h]

/-- `RemLen1` on a byte with continuation bit. -/
theorem scanL_rem1_cont (b : Byte) (rest : List Byte) (n rdl : Nat) (hb : 128 ≤ b.val) :
    scanL (b :: rest) n ⟨MQTT_PAF_REM_LEN1_STATE, rdl⟩
      = scanL rest (n + 1) ⟨MQTT_PAF_REM_LEN2_STATE, (rdl + b.val % 128) % 2 ^ 32⟩ := by
  rw [scanL]
  simp only [Byte.and_127]
  rw [if_pos ((Byte.and_128_ne_zero b).mpr hb)]

/-- `RemLen1` on a last length byte that leaves a non-zero length. -/
theorem scanL_rem1_last (b : Byte) (rest : List Byte) (n rdl : Nat) (hb : b.val < 128)
    (hne : (rdl + b.val % 128) % 2 ^ 32 ≠ 0) :
    scanL (b :: rest) n ⟨MQTT_PAF_REM_LEN1_STATE, rdl⟩
      = scanL rest (n + 1) ⟨MQTT_PAF_VAR_DATA_STATE, (rdl + b.val % 128) % 2 ^ 32⟩ := by
  have hc : ¬ (b.val &&& 128) ≠ 0 := fun h => by
    have := (Byte.and_128_ne_zero b).mp h
    omega
  rw [scanL]
  simp only [Byte.and_127]
  rw [if_neg hc, if_pos hne]

/-- `RemLen2` on a byte with continuation bit. -/
theorem scanL_rem2_cont (b : Byte) (rest : List Byte) (n rdl : Nat) (hb : 128 ≤ b.val) :
    scanL (b :: rest) n ⟨MQTT_PAF_REM_LEN2_STATE, rdl⟩
      = scanL rest (n + 1) ⟨MQTT_PAF_REM_LEN3_STATE, (rdl + b.val % 128 * 128) % 2 ^ 32⟩ := by
  rw [scanL]
  simp only [Byte.and_127]
  rw [if_pos ((Byte.and_128_ne_zero b).mpr hb)]

/-- `RemLen2` on a last length byte. -/
theorem scanL_rem2_last (b : Byte) (rest : List Byte) (n rdl : Nat) (hb : b.val < 128) :
    scanL (b :: rest) n ⟨MQTT_PAF_REM_LEN2_STATE, rdl⟩
      = scanL rest (n + 1) ⟨MQTT_PAF_VAR_DATA_STATE, (rdl + b.val % 128 * 128) % 2 ^ 32⟩ := by
  have hc : ¬ (b.val &&& 128) ≠ 0 := fun h => by
    have := (Byte.and_128_ne_zero b).mp h
    omega
  rw [scanL]
  simp only [Byte.and_127]
  rw [if_neg hc]

/-- `RemLen3` on a byte with continuation bit. -/
theorem scanL_rem3_cont (b : Byte) (rest : List Byte) (n rdl : Nat) (hb : 128 ≤ b.val) :
    scanL (b :: rest) n ⟨MQTT_PAF_REM_LEN3_STATE, rdl⟩
      = scanL rest (n + 1)
          ⟨MQTT_PAF_REM_LEN4_STATE, (rdl + b.val % 128 * 128 * 128) % 2 ^ 32⟩ := by
  rw [scanL]
  simp only [Byte.and_127]
  rw [if_pos ((Byte.and_128_ne_zero b).mpr hb)]

/-- `RemLen3` on a last length byte. -/
theorem scanL_rem3_last (b : Byte) (rest : List Byte) (n rdl : Nat) (hb : b.val < 128) :
    scanL (b :: rest) n ⟨MQTT_PAF_REM_LEN3_STATE, rdl⟩
      = scanL rest (n + 1)
          ⟨MQTT_PAF_VAR_DATA_STATE, (rdl + b.val % 128 * 128 * 128) % 2 ^ 32⟩ := by
  have hc : ¬ (b.val &&& 128) ≠ 0 := fun h => by
    have := (Byte.and_128_ne_zero b).mp h
    omega
  rw [scanL]
  simp only [Byte.and_127]
  rw [if_neg hc]

/-- `RemLen4` on a last length byte. -/
theorem scanL_rem4_last (b : Byte) (rest : List Byte) (n rdl : Nat) (hb : b.val < 128) :
    scanL (b :: rest) n ⟨MQTT_PAF_REM_LEN4_STATE, rdl⟩
      = scanL rest (n + 1)
          ⟨MQTT_PAF_VAR_DATA_STATE, (rdl + b.val % 128 * 128 * 128 * 128) % 2 ^ 32⟩ := by
  have hc : ¬ (b.val &&& 128) ≠ 0 := fun h => by
    have := (Byte.and_128_ne_zero b).mp h
    omega
  rw [scanL]
  simp only [Byte.and_127]
  rw [if_neg hc]

/-- `VarData` on a chunk that holds exactly the bytes still missing. -/
theorem scanL_var_exact (body : List Byte) (n : Nat) (hne : body ≠ []) :
    scanL body n ⟨MQTT_PAF_VAR_DATA_STATE, body.length⟩
      = ⟨FLUSH, some (n + body.length), ⟨MQTT_PAF_FIX_HEAD_STATE, 0⟩⟩ := by
  cases body with
  | nil => exact absurd rfl hne
  | cons x r =>
    rw [scanL_cons_var, List.length_cons, if_pos (Nat.le_refl _)]

/-- The splitter on the length field of a packet with a non-empty body, followed by the
body: it flushes behind the body. -/
theorem scanL_length_and_body (body : List Byte) (n : Nat) (hne : body ≠ [])
    (hlen : body.length ≤ 268435455) :
    scanL (MQTT_encode_variable_int body.length ++ body) n ⟨MQTT_PAF_REM_LEN1_STATE, 0⟩
      = ⟨FLUSH, some (n + (MQTT_encode_variable_int body.length).length + body.length),
          ⟨MQTT_PAF_FIX_HEAD_STATE, 0⟩⟩ := by
  have hpos : 0 < body.length := List.length_pos.mpr hne
  generalize hL : body.length = L at hlen hpos
  unfold MQTT_encode_variable_int
  by_cases h1 : L / 128 = 0
  · simp only [encode_variable_int_upto, if_pos h1, List.singleton_append]
    rw [scanL_rem1_last _ _ _ _ (by simp only; omega) (by simp only; omega)]
    simp only [Nat.zero_add]
    have e : (L % 128 % 128) % 2 ^ 32 = body.length := by omega
    rw [e, scanL_var_exact body _ hne, hL]
    simp only [List.length_singleton]
  · by_cases h2 : L / 128 / 128 = 0
    · simp only [encode_variable_int_upto, if_neg h1, if_pos h2, List.cons_append,
        List.nil_append]
      rw [scanL_rem1_cont _ _ _ _ (by simp only; omega),
        scanL_rem2_last _ _ _ _ (by simp only; omega)]
      simp only [Nat.zero_add]
      have e : ((L % 128 + 128) % 128 % 2 ^ 32 + L / 128 % 128 % 128 * 128) % 2 ^ 32
          = body.length := by omega
      rw [e, scanL_var_exact body _ hne, hL]
      simp only [List.length_cons, List.length_nil]
    · by_cases h3 : L / 128 / 128 / 128 = 0
      · simp only [encode_variable_int_upto, if_neg h1, if_neg h2, if_pos h3,
          List.cons_append, List.nil_append]
        rw [scanL_rem1_cont _ _ _ _ (by simp only; omega),
          scanL_rem2_cont _ _ _ _ (by simp only; omega),
          scanL_rem3_last _ _ _ _ (by simp only; omega)]
        simp only [Nat.zero_add]
        have e : (((L % 128 + 128) % 128 % 2 ^ 32 + (L / 128 % 128 + 128) % 128 * 128) % 2 ^ 32
            + L / 128 / 128 % 128 % 128 * 128 * 128) % 2 ^ 32 = body.length := by omega
        rw [e, scanL_var_exact body _ hne, hL]
        simp only [List.length_cons, List.length_nil]
      · have h4 : L / 128 / 128 / 128 / 128 = 0 := by omega
        simp only [encode_variable_int_upto, if_neg h1, if_neg h2, if_neg h3, if_pos h4,
          List.cons_append, List.nil_append]
        rw [scanL_rem1_cont _ _ _ _ (by simp only; omega),
          scanL_rem2_cont _ _ _ _ (by simp only; omega),
          scanL_rem3_cont _ _ _ _ (by simp only; omega),
          scanL_rem4_last _ _ _ _ (by simp only; omega)]
        simp only [Nat.zero_add]
        have e : ((((L % 128 + 128) % 128 % 2 ^ 32 + (L / 128 % 128 + 128) % 128 * 128) % 2 ^ 32
            + (L / 128 / 128 % 128 + 128) % 128 * 128 * 128) % 2 ^ 32
            + L / 128 / 128 / 128 % 128 % 128 * 128 * 128 * 128) % 2 ^ 32 = body.length := by
          omega
        rw [e, scanL_var_exact body _ hne, hL]
        simp only [List.length_cons, List.length_nil]

/-- The flush offset is the packet boundary for every control packet with a non-empty
body: type nibble 1..15, body of 1 to 268435455 bytes, scanned as one chunk from the
initial state. -/
theorem scan_control_packet (first : Byte) (body : List Byte) (hfirst : 16 ≤ first.val)
    (hne : body ≠ []) (hlen : body.length ≤ 268435455) :
    scan (control_packet first body) MqttSplitter.init
      = ⟨FLUSH, some (control_packet first body).length, ⟨MQTT_PAF_FIX_HEAD_STATE, 0⟩⟩ := by
  rw [scan_eq_scanL]
  unfold control_packet MqttSplitter.init
  rw [scanL_fix_head first _ 0 0 hfirst, scanL_length_and_body body (0 + 1) hne hlen]
  simp only [List.length_cons, List.length_append]
  congr 2
  omega

/-! # Properties of the command decoders -/

/-! ## The byte cursor and the length-prefixed strings -/

/-- Reading from a good stream that holds enough characters. -/
theorem IStream.read_of_le (buf : List Byte) (pos count : Nat) (h : count ≤ buf.length) :
    (⟨buf, pos, false⟩ : IStream).read count
      = (buf.take count, ⟨buf.drop count, pos + count, false⟩) := by
  simp only [IStream.read, Bool.false_eq_true, if_false]
  rw [if_pos h]

/-- Reading from a good stream that holds too few characters. -/
theorem IStream.read_of_lt (buf : List Byte) (pos count : Nat) (h : buf.length < count) :
    (⟨buf, pos, false⟩ : IStream).read count = (buf, ⟨[], pos + buf.length, true⟩) := by
  simp only [IStream.read, Bool.false_eq_true, if_false]
  rw [if_neg (by omega)]

/-- `parse_topic` is `parse_enc_string` under another name. -/
theorem parse_topic_eq (cs : Bool) (stream : IStream) (topic : List Byte) :
    parse_topic cs stream topic = parse_enc_string cs stream topic := rfl

/-- A length-prefixed string is read when the decoder takes the two length bytes for
the length of the string and the string is there. -/
theorem parse_enc_string_ok (cs : Bool) (hi lo : Byte) (s rest str : List Byte) (pos : Nat)
    (hlen : u16_of_chars cs hi lo = s.length) :
    parse_enc_string cs ⟨hi :: lo :: (s ++ rest), pos, false⟩ str
      = (true, ⟨rest, pos + 2 + s.length, false⟩, s) := by
  have h2 : (2 : Nat) ≤ (hi :: lo :: (s ++ rest)).length := by
    simp only [List.length_cons]; omega
  have hu : u16_of_read cs (List.take 2 (hi :: lo :: (s ++ rest))) = s.length := by
    rw [← hlen]; rfl
  have h3 : s.length ≤ (List.drop 2 (hi :: lo :: (s ++ rest))).length := by
    simp only [List.drop_succ_cons, List.drop_zero, List.length_append]; omega
  unfold parse_enc_string
  rw [IStream.read_of_le _ _ _ h2]
  simp only [Bool.false_eq_true, if_false, hu]
  rw [IStream.read_of_le _ _ _ h3]
  simp only [Bool.false_eq_true, if_false, List.drop_succ_cons, List.drop_zero,
    List.take_left', List.drop_left']

/-- A length-prefixed string is not read, and the target is left alone, when the
decoder takes the two length bytes for more than the stream holds behind them. -/
theorem parse_enc_string_short_data (cs : Bool) (hi lo : Byte) (tail str : List Byte)
    (pos : Nat) (hlen : tail.length < u16_of_chars cs hi lo) :
    (parse_enc_string cs ⟨hi :: lo :: tail, pos, false⟩ str).1 = false ∧
    (parse_enc_string cs ⟨hi :: lo :: tail, pos, false⟩ str).2.2 = str := by
  have h2 : (2 : Nat) ≤ (hi :: lo :: tail).length := by
    simp only [List.length_cons]; omega
  have hu : u16_of_read cs (List.take 2 (hi :: lo :: tail)) = u16_of_chars cs hi lo := rfl
  have h3 : (List.drop 2 (hi :: lo :: tail)).length < u16_of_chars cs hi lo := by
    simp only [List.drop_succ_cons, List.drop_zero]; exact hlen
  unfold parse_enc_string
  rw [IStream.read_of_le _ _ _ h2]
  simp only [Bool.false_eq_true, if_false, hu]
  rw [IStream.read_of_lt _ _ _ h3]
  simp only [if_true, and_self]

/-! ## The 16-bit fields built from two plain `char` values -/

/-- A multiple of 256 and a byte do not overlap: their bitwise or is their sum. -/
theorem or_byte_eq_add (x lo : Nat) (hx : x % 256 = 0) (hlo : lo < 256) :
    x ||| lo = x + lo := by
  have e : x = 2 ^ 8 * (x / 256) := by omega
  rw [e]
  exact (Nat.mul_add_lt_is_or (by omega) (x / 256)).symm

/-- The two length bytes are read as the big-endian number they encode whenever plain
`char` is unsigned or the low byte is below `0x80`. -/
theorem u16_of_chars_eq (cs : Bool) (hi lo : Byte) (h : cs = false ∨ lo.val < 128) :
    u16_of_chars cs hi lo = hi.val * 256 + lo.val := by
  have hhi := hi.isLt
  have hlo := lo.isLt
  have elo : int_of_char cs lo = lo.val := by
    unfold int_of_char
    rcases h with h | h
    · subst h; rfl
    · have : decide (128 ≤ lo.val) = false := by simp; omega
      rw [this, Bool.and_false]; rfl
  unfold u16_of_chars
  rw [elo, or_byte_eq_add _ _ (by omega) hlo]
  unfold int_of_char
  split <;> omega

/-- With a signed plain `char`, a low length byte of `0x80` or more is sign-extended over
the high byte: the length is read as `0xFF00 + lo`. -/
theorem u16_of_chars_signed (hi lo : Byte) (h : 128 ≤ lo.val) :
    u16_of_chars true hi lo = 0xFF00 + lo.val := by
  have hlo := lo.isLt
  have hlo8 : lo.val < 2 ^ 8 := by omega
  have e1 : int_of_char true lo = 2 ^ 8 * (2 ^ 24 - 1) + lo.val := by
    unfold int_of_char
    have : decide (128 ≤ lo.val) = true := decide_eq_true h
    rw [this]
    simp only [Bool.and_self, if_true]
    omega
  obtain ⟨x, hx⟩ : ∃ x, int_of_char true hi * 256 % 2 ^ 32 = 2 ^ 8 * x :=
    ⟨int_of_char true hi * 256 % 2 ^ 32 / 256, by omega⟩
  have hff : 0xFF00 + lo.val = 2 ^ 8 * (2 ^ 8 - 1) + lo.val := by omega
  unfold u16_of_chars
  rw [e1, hx, hff]
  apply Nat.eq_of_testBit_eq
  intro i
  rw [Nat.testBit_mod_two_pow, Nat.testBit_or, Nat.mul_add_lt_is_or hlo8 (2 ^ 24 - 1),
    Nat.testBit_or, Nat.mul_add_lt_is_or hlo8 (2 ^ 8 - 1), Nat.testBit_or,
    Nat.testBit_mul_pow_two, Nat.testBit_mul_pow_two, Nat.testBit_mul_pow_two,
    Nat.testBit_two_pow_sub_one, Nat.testBit_two_pow_sub_one]
  by_cases c1 : 8 ≤ i
  · by_cases c2 : i < 16
    · have d1 : decide (i - 8 < 24) = true := decide_eq_true (by omega)
      have d2 : decide (i - 8 < 8) = true := decide_eq_true (by omega)
      rw [decide_eq_true c1, decide_eq_true c2, d1, d2]
      simp only [Bool.true_and, Bool.and_true, Bool.true_or, Bool.or_true]
    · have hl : lo.val.testBit i = false :=
        Nat.testBit_lt_two_pow (Nat.lt_of_lt_of_le hlo8 (Nat.pow_le_pow_right (by omega) c1))
      have d2 : decide (i - 8 < 8) = false := decide_eq_false (by omega)
      rw [decide_eq_false c2, d2, hl]
      simp only [Bool.false_and, Bool.and_false, Bool.or_false]
  · rw [decide_eq_false c1, decide_eq_true (show i < 16 by omega)]
    simp only [Bool.false_and, Bool.true_and, Bool.false_or]

/-! ## The decode step of `snort_mqtt` -/

/-- The switch stores the object and returns the code of the decode routine that it
selects, and queues no event on that way. -/
theorem snort_mqtt_switch_decode (cs : Bool) (header : MQTTFixedHeader)
    (session : MQTTData) (stream : IStream) (ret : Nat) (body : MQTTCommandBody)
    (h : snort_mqtt_decode cs header session.qos stream = some (ret, body)) :
    (snort_mqtt_switch cs header session stream).ret = ret ∧
    (snort_mqtt_switch cs header session stream).session.current_command
      = some ⟨header, body⟩ ∧
    (snort_mqtt_switch cs header session stream).events = [] := by
  obtain ⟨t, b0, b1, b2, b3, rl⟩ := header
  unfold snort_mqtt_decode at h
  unfold snort_mqtt_switch
  simp only [CMD_RESERVED, CMD_CONNECT, CMD_CONNACK, CMD_PUBLISH, CMD_PUBACK, CMD_PUBREC,
    CMD_PUBREL, CMD_PUBCOMP, CMD_SUBSCRIBE, CMD_SUBACK, CMD_UNSUBSCRIBE, CMD_PINGREQ,
    CMD_PINGRESP, CMD_DISCONNECT] at h ⊢
  by_cases h15 : t < 15
  · interval_cases t <;> simp at h ⊢ <;>
      (obtain ⟨h1, h2⟩ := h; subst h1; subst h2; exact ⟨rfl, rfl⟩)
  · have : ¬ (t = 1) ∧ ¬ (t = 2) ∧ ¬ (t = 3) ∧ ¬ (t = 4) ∧ ¬ (t = 5) ∧ ¬ (t = 6) ∧
        ¬ (t = 7) ∧ ¬ (t = 8) ∧ ¬ (t = 9) ∧ ¬ (t = 10) ∧ ¬ (t = 12) ∧ ¬ (t = 13) ∧
        ¬ (t = 14) := by omega
    simp [this] at h

/-- The types for which the switch selects a decode routine. -/
theorem snort_mqtt_decode_isSome (cs : Bool) (header : MQTTFixedHeader) (qos : Nat)
    (stream : IStream) :
    (snort_mqtt_decode cs header qos stream).isSome ↔
      ((1 ≤ header.pkt_type ∧ header.pkt_type ≤ 10) ∨
        (12 ≤ header.pkt_type ∧ header.pkt_type ≤ 14)) := by
  obtain ⟨t, b0, b1, b2, b3, rl⟩ := header
  unfold snort_mqtt_decode
  simp only [CMD_CONNECT, CMD_CONNACK, CMD_PUBLISH, CMD_PUBACK, CMD_PUBREC,
    CMD_PUBREL, CMD_PUBCOMP, CMD_SUBSCRIBE, CMD_SUBACK, CMD_UNSUBSCRIBE, CMD_PINGREQ,
    CMD_PINGRESP, CMD_DISCONNECT]
  by_cases h15 : t < 15
  · interval_cases t <;> simp
  · have : ¬ (t = 1) ∧ ¬ (t = 2) ∧ ¬ (t = 3) ∧ ¬ (t = 4) ∧ ¬ (t = 5) ∧ ¬ (t = 6) ∧
        ¬ (t = 7) ∧ ¬ (t = 8) ∧ ¬ (t = 9) ∧ ¬ (t = 10) ∧ ¬ (t = 12) ∧ ¬ (t = 13) ∧
        ¬ (t = 14) := by omega
    simp [this]
    omega

/-- C11: whenever the decode routine that the switch selects for a packet returns
success, with the command object `body` it has filled (and always for PINGREQ, PINGRESP
and DISCONNECT, which have no decode routine and get an empty command),
`snort_mqtt` returns with `ret = 0`, the session's `current_command` is that new object
with the packet's fixed header, its `get_type()` is the header's packet type, and
`prev_command` is that same type. -/
theorem C11_successful_decode_applied (cs : Bool) (max_msg_len : Nat) (p : Packet)
    (flow_data : Option MQTTData) (header : MQTTFixedHeader) (data_ptr : List Byte)
    (hh : MQTT_parse_fixed_header (p.data ++ p.beyond) max_msg_len = some (header, data_ptr))
    (hcur : snort_mqtt_len header p ≤ data_ptr.length) :
    (∀ body,
      snort_mqtt_decode cs header (snort_mqtt_session p flow_data).qos
          ⟨data_ptr.take (snort_mqtt_len header p), 0, false⟩ = some (0, body) →
      ∃ o cmd, snort_mqtt cs max_msg_len p flow_data = some o ∧ o.ret = 0 ∧
        o.session.current_command = some cmd ∧ cmd = ⟨header, body⟩ ∧
        cmd.get_type = header.pkt_type ∧ o.session.prev_command = header.pkt_type) ∧
    (header.pkt_type = CMD_PINGREQ ∨ header.pkt_type = CMD_PINGRESP
        ∨ header.pkt_type = CMD_DISCONNECT →
      ∃ o cmd, snort_mqtt cs max_msg_len p flow_data = some o ∧ o.ret = 0 ∧
        o.session.current_command = some cmd ∧ cmd = ⟨header, .Empty⟩ ∧
        cmd.get_type = header.pkt_type ∧ o.session.prev_command = header.pkt_type) := by
  have key : ∀ body,
      snort_mqtt_decode cs header (snort_mqtt_session p flow_data).qos
          ⟨data_ptr.take (snort_mqtt_len header p), 0, false⟩ = some (0, body) →
      ∃ o cmd, snort_mqtt cs max_msg_len p flow_data = some o ∧ o.ret = 0 ∧
        o.session.current_command = some cmd ∧ cmd = ⟨header, body⟩ ∧
        cmd.get_type = header.pkt_type ∧ o.session.prev_command = header.pkt_type := by
    intro body hdec
    obtain ⟨r1, r2, _⟩ := snort_mqtt_switch_decode cs header (snort_mqtt_session p flow_data)
      ⟨data_ptr.take (snort_mqtt_len header p), 0, false⟩ 0 body hdec
    refine ⟨_, ⟨header, body⟩,
      snort_mqtt_of_header cs max_msg_len p flow_data header data_ptr hh hcur, ?_, ?_, rfl,
      rfl, ?_⟩
    · simp only [snort_mqtt_finish, r1]
      rfl
    · simp only [snort_mqtt_finish, r1]
      exact r2
    · simp only [snort_mqtt_finish, r1]
      rfl
  refine ⟨key, fun ht => key .Empty ?_⟩
  unfold snort_mqtt_decode
  simp only [CMD_PINGREQ, CMD_PINGRESP, CMD_DISCONNECT] at ht
  simp only [CMD_CONNECT, CMD_CONNACK, CMD_PUBLISH, CMD_PUBACK, CMD_PUBREC,
    CMD_PUBREL, CMD_PUBCOMP, CMD_SUBSCRIBE, CMD_SUBACK, CMD_UNSUBSCRIBE, CMD_PINGREQ,
    CMD_PINGRESP, CMD_DISCONNECT]
  rcases ht with h | h | h <;> simp [h]

/-- Witness for C11: the PUBLISH `30 0a 00 03 61 2f 62 68 65 6c 6c 6f` (topic `a/b`,
payload `hello`) and the PINGREQ `c0 00`. -/
theorem C11_successful_decode_applied_witness :
    (∃ o cmd, snort_mqtt true 0
        { data := [0x30, 0x0a, 0x00, 0x03, 0x61, 0x2f, 0x62, 0x68, 0x65, 0x6c, 0x6c, 0x6f] }
        none = some o ∧ o.ret = 0 ∧
      o.session.current_command = some cmd ∧
      cmd = ⟨{ pkt_type := CMD_PUBLISH, remaining_len := 10 },
        .Publish { topic := [0x61, 0x2f, 0x62]
                   message := some [0x68, 0x65, 0x6c, 0x6c, 0x6f], msg_len := some 5 }⟩ ∧
      cmd.get_type = CMD_PUBLISH ∧ o.session.prev_command = CMD_PUBLISH) ∧
    (∃ o cmd, snort_mqtt true 0 { data := [0xc0, 0x00] } none = some o ∧ o.ret = 0 ∧
      o.session.current_command = some cmd ∧ cmd = ⟨{ pkt_type := CMD_PINGREQ }, .Empty⟩ ∧
      cmd.get_type = CMD_PINGREQ ∧ o.session.prev_command = CMD_PINGREQ) :=
  ⟨(C11_successful_decode_applied true 0
      { data := [0x30, 0x0a, 0x00, 0x03, 0x61, 0x2f, 0x62, 0x68, 0x65, 0x6c, 0x6c, 0x6f] }
      none { pkt_type := CMD_PUBLISH, remaining_len := 10 }
      [0x00, 0x03, 0x61, 0x2f, 0x62, 0x68, 0x65, 0x6c, 0x6c, 0x6f]
      (by decide) (by decide)).1 _ (by decide),
   (C11_successful_decode_applied true 0 { data := [0xc0, 0x00] } none
      { pkt_type := CMD_PINGREQ } [] (by decide) (by decide)).2 (Or.inl rfl)⟩

/-! ## CONNECT -/

/-- `MQTTConnectCommand::parse` returns Eof when the protocol name is not read. -/
theorem connect_parse_name_fail (cs : Bool) (c : MQTTConnectCommand) (st : IStream)
    (h : (parse_enc_string cs st c.protocol_string).1 = false) :
    (MQTTConnectCommand.parse cs c st).1 = MQTT_EOF := by
  unfold MQTTConnectCommand.parse
  simp only [h]
  rfl

/-- The validation order of `MQTTConnectCommand::parse` once the protocol name, the
version byte and the connect-flags byte have been read: ProtocolViolation for a name
other than `MQTT`, else UnsupportedVersion for a version above 4, else ProtocolViolation
for a set bit 0 of the flags. -/
theorem connect_parse_validation (cs : Bool) (c : MQTTConnectCommand)
    (st st1 st2 st3 : IStream) (name : List Byte) (v f : Byte)
    (hname : parse_enc_string cs st c.protocol_string = (true, st1, name))
    (hv : st1.get = (some v, st2)) (hf : st2.get = (some f, st3)) :
    (name ≠ MQTT_literal → (MQTTConnectCommand.parse cs c st).1 = MQTT_PROTO_VIOLATION) ∧
    (name = MQTT_literal → v.val > 4 →
      (MQTTConnectCommand.parse cs c st).1 = MQTT_PROTO_VERSION) ∧
    (name = MQTT_literal → v.val ≤ 4 → f.val.testBit 0 = true →
      (MQTTConnectCommand.parse cs c st).1 = MQTT_PROTO_VIOLATION) := by
  unfold MQTTConnectCommand.parse
  simp only [hname, hv, hf, Bool.not_true, Bool.false_eq_true, if_false]
  refine ⟨fun h => ?_, fun h hgt => ?_, fun h hle hbit => ?_⟩
  · rw [if_pos h]
  · rw [if_neg (not_not.mpr h), if_pos hgt]
  · have hb : (f.val &&& 1) ≠ 0 := by
      have := Byte.bit0 f
      rw [hbit] at this
      exact of_decide_eq_true this
    rw [if_neg (not_not.mpr h), if_neg (by omega), if_pos hb]

/-- The claim of C12 on the wire, for the bodies whose name length the decoder reads as
it is encoded (plain `char` unsigned, or low length byte below `0x80`). -/
theorem connect_parse_validation_wire (cs : Bool) (hi lo : Byte) (name rest : List Byte)
    (v f : Byte) (hcs : cs = false ∨ lo.val < 128)
    (hlen : name.length = hi.val * 256 + lo.val) :
    (name ≠ MQTT_literal →
      (MQTTConnectCommand.parse cs {} ⟨hi :: lo :: (name ++ v :: f :: rest), 0, false⟩).1
        = MQTT_PROTO_VIOLATION) ∧
    (name = MQTT_literal → v.val > 4 →
      (MQTTConnectCommand.parse cs {} ⟨hi :: lo :: (name ++ v :: f :: rest), 0, false⟩).1
        = MQTT_PROTO_VERSION) ∧
    (name = MQTT_literal → v.val ≤ 4 → f.val.testBit 0 = true →
      (MQTTConnectCommand.parse cs {} ⟨hi :: lo :: (name ++ v :: f :: rest), 0, false⟩).1
        = MQTT_PROTO_VIOLATION) :=
  connect_parse_validation cs {} _ _ _ _ name v f
    (parse_enc_string_ok cs hi lo name (v :: f :: rest) [] 0
      (by rw [u16_of_chars_eq cs hi lo hcs, hlen]))
    rfl rfl

/-- C12 (code defect): with a signed plain `char`, a CONNECT body that holds a complete
protocol name of 128 bytes (length prefix `00 80`), a version byte and a flags byte is
answered with Eof, not with ProtocolViolation, although the name is not `MQTT`: the low
length byte is sign-extended, so the name is taken to be 65408 bytes long. -/
theorem C12_long_protocol_name_is_eof :
    (MQTTConnectCommand.parse true {}
      ⟨[0x00, 0x80] ++ (List.replicate 128 0x41 ++ [0x04, 0x00]), 0, false⟩).1 = MQTT_EOF ∧
    (List.replicate 128 (0x41 : Byte)).length = 0x00 * 256 + 0x80 ∧
    List.replicate 128 (0x41 : Byte) ≠ MQTT_literal ∧
    MQTT_EOF ≠ MQTT_PROTO_VIOLATION := by
  refine ⟨?_, by rw [List.length_replicate], ?_, by decide⟩
  · apply connect_parse_name_fail
    refine (parse_enc_string_short_data true 0x00 0x80
      (List.replicate 128 0x41 ++ [0x04, 0x00]) [] 0 ?_).1
    rw [u16_of_chars_signed 0x00 0x80 (by decide)]
    simp only [List.length_append, List.length_replicate, List.length_cons, List.length_nil]
    decide
  · intro h
    have := congrArg List.length h
    simp only [List.length_replicate, MQTT_literal, List.length_cons, List.length_nil] at this
    omega

/-- C14 (code defect): a CONNECT whose flags announce a username (`80`) and whose bytes
end behind the client id is reported as a success, with an empty username that the
exporter hands out, whatever the signedness of plain `char`. -/
theorem C14_missing_username_is_success :
    ∀ cs : Bool,
      (MQTTConnectCommand.parse cs {}
        ⟨[0x00, 0x04, 0x4d, 0x51, 0x54, 0x54, 0x04, 0x80, 0x00, 0x3c, 0x00, 0x01, 0x61],
          0, false⟩).1 = 0 ∧
      (MQTTConnectCommand.parse cs {}
        ⟨[0x00, 0x04, 0x4d, 0x51, 0x54, 0x54, 0x04, 0x80, 0x00, 0x3c, 0x00, 0x01, 0x61],
          0, false⟩).2.get_buffer .USERNAME = .buffer [] 0 ∧
      (0 : Nat) ≠ MQTT_EOF := by
  intro cs
  cases cs <;> decide

/-! ## PUBLISH -/

/-- `MQTTPublishCommand::parse` returns Eof when the topic is not read. -/
theorem publish_parse_topic_fail (cs : Bool) (header : MQTTFixedHeader)
    (c : MQTTPublishCommand) (qos : Nat) (st : IStream)
    (h : (parse_enc_string cs st c.topic).1 = false) :
    (MQTTPublishCommand.parse cs header c qos st).1 = MQTT_EOF := by
  unfold MQTTPublishCommand.parse
  simp only [h]
  rfl

/-- `MQTTPublishCommand::parse` returns ProtocolViolation for a topic that it has read
and that is empty or contains `*`, whatever the header and the rest of the stream. -/
theorem publish_parse_topic_violation (cs : Bool) (header : MQTTFixedHeader)
    (c : MQTTPublishCommand) (qos : Nat) (st st1 : IStream) (topic : List Byte)
    (h : parse_enc_string cs st c.topic = (true, st1, topic))
    (hbad : topic = [] ∨ (0x2A : Byte) ∈ topic) :
    (MQTTPublishCommand.parse cs header c qos st).1 = MQTT_PROTO_VIOLATION := by
  have hb : topic.length = 0 ∨ (0x2A : Byte) ∈ topic := by
    rcases hbad with h0 | h1
    · exact Or.inl (by rw [h0]; rfl)
    · exact Or.inr h1
  unfold MQTTPublishCommand.parse
  simp only [h, Bool.not_true, Bool.false_eq_true, if_false]
  rw [if_pos hb]

/-- The claim of C15 on the wire, for the bodies whose topic length the decoder reads as
it is encoded (plain `char` unsigned, or low length byte below `0x80`). -/
theorem publish_parse_topic_violation_wire (cs : Bool) (header : MQTTFixedHeader)
    (qos : Nat) (hi lo : Byte) (topic payload : List Byte)
    (hcs : cs = false ∨ lo.val < 128) (hlen : topic.length = hi.val * 256 + lo.val)
    (hbad : topic = [] ∨ (0x2A : Byte) ∈ topic) :
    (MQTTPublishCommand.parse cs header {} qos ⟨hi :: lo :: (topic ++ payload), 0, false⟩).1
      = MQTT_PROTO_VIOLATION :=
  publish_parse_topic_violation cs header {} qos _ _ topic
    (parse_enc_string_ok cs hi lo topic payload [] 0
      (by rw [u16_of_chars_eq cs hi lo hcs, hlen]))
    hbad

/-- C15 (code defect): with a signed plain `char`, a PUBLISH body that holds a complete
topic of 128 bytes ending in `*` (length prefix `00 80`) and a payload byte is answered
with Eof, not with ProtocolViolation: the low length byte is sign-extended, so the topic
is taken to be 65408 bytes long. -/
theorem C15_long_wildcard_topic_is_eof :
    (MQTTPublishCommand.parse true { pkt_type := CMD_PUBLISH, remaining_len := 131 } {} 0
      ⟨[0x00, 0x80] ++ ((List.replicate 127 0x61 ++ [0x2A]) ++ [0x68]), 0, false⟩).1
        = MQTT_EOF ∧
    (List.replicate 127 (0x61 : Byte) ++ [0x2A]).length = 0x00 * 256 + 0x80 ∧
    (0x2A : Byte) ∈ List.replicate 127 (0x61 : Byte) ++ [0x2A] ∧
    MQTT_EOF ≠ MQTT_PROTO_VIOLATION := by
  refine ⟨?_, by simp, by simp, by decide⟩
  apply publish_parse_topic_fail
  refine (parse_enc_string_short_data true 0x00 0x80
    ((List.replicate 127 0x61 ++ [0x2A]) ++ [0x68]) [] 0 ?_).1
  rw [u16_of_chars_signed 0x00 0x80 (by decide)]
  simp only [List.length_append, List.length_replicate, List.length_cons, List.length_nil]
  decide

/-- C17 (code defect): the code takes `bit2 & bit1` for the QoS.  The PUBLISH
`32 06 00 01 61 00 07 68` has QoS 1 (bit 1 set, bit 2 clear): no message id is consumed,
the bytes `00 07` stay in the message, and `qos` is 0.  The PUBLISH
`36 06 00 01 61 00 07 68` has the field value 3: the message id 7 is consumed and `qos`
is 1. -/
theorem C17_qos_is_and_of_flag_bits :
    (snort_mqtt true 0 { data := [0x32, 0x06, 0x00, 0x01, 0x61, 0x00, 0x07, 0x68] } none).map
        (fun o => (o.ret, o.session.qos, o.session.current_command))
      = some (0, 0, some ⟨{ pkt_type := CMD_PUBLISH, bit1 := true, remaining_len := 6 },
          .Publish { topic := [0x61], message_id := none
                     message := some [0x00, 0x07, 0x68], msg_len := some 3 }⟩) ∧
    (snort_mqtt true 0 { data := [0x36, 0x06, 0x00, 0x01, 0x61, 0x00, 0x07, 0x68] } none).map
        (fun o => (o.ret, o.session.qos, o.session.current_command))
      = some (0, 1, some ⟨{ pkt_type := CMD_PUBLISH, bit1 := true, bit2 := true
                            remaining_len := 6 },
          .Publish { topic := [0x61], message_id := some 7
                     message := some [0x68], msg_len := some 1 }⟩) := by
  decide

/-! ## Packets with a remaining length of 16384 -/

/-- The closing `if` of `snort_mqtt` leaves `ret` alone. -/
theorem snort_mqtt_finish_ret (header : MQTTFixedHeader) (o : MqttOutcome) :
    (snort_mqtt_finish header o).ret = o.ret := by
  unfold snort_mqtt_finish
  split_ifs <;> rfl

/-- A cursor shorter than two bytes makes `snort_mqtt` end with `ret = MQTT_EOF` for
every type that has a decoder. -/
theorem snort_mqtt_short_cursor (cs : Bool) (max_msg_len : Nat) (p : Packet)
    (flow_data : Option MQTTData) (header : MQTTFixedHeader) (data_ptr : List Byte)
    (hh : MQTT_parse_fixed_header (p.data ++ p.beyond) max_msg_len = some (header, data_ptr))
    (htype : 1 ≤ header.pkt_type ∧ header.pkt_type ≤ 10)
    (hcur : snort_mqtt_len header p ≤ data_ptr.length)
    (hshort : snort_mqtt_len header p < 2) :
    ∃ o, snort_mqtt cs max_msg_len p flow_data = some o ∧ o.ret = MQTT_EOF := by
  have hlen : (⟨data_ptr.take (snort_mqtt_len header p), 0, false⟩ : IStream).buf.length < 2 := by
    simp only [List.length_take]; omega
  obtain ⟨r1, _⟩ := snort_mqtt_switch_short cs header (snort_mqtt_session p flow_data)
    ⟨data_ptr.take (snort_mqtt_len header p), 0, false⟩ htype rfl hlen
  refine ⟨_, snort_mqtt_of_header cs max_msg_len p flow_data header data_ptr hh hcur, ?_⟩
  rw [snort_mqtt_finish_ret, r1]

/-- The length field `80 80 01` of a remaining length of 16384 is decoded as 0. -/
theorem parse_variable_int_16384 (rest : List Byte) :
    MQTT_parse_variable_int (0x80 :: 0x80 :: 0x01 :: rest) = some (0, rest) :=
  parse_encode_variable_int 16384 rest (by decide)

/-- A packet of a type that has a decoder and with a remaining length of 16384 is
answered with Eof, whatever its body: the header parser takes the length for 0, so the
decoder gets an empty cursor. -/
theorem snort_mqtt_length_16384 (cs : Bool) (max_msg_len : Nat) (first : Byte)
    (body beyond : List Byte) (flow_data : Option MQTTData)
    (htype : 1 ≤ first.val / 16 ∧ first.val / 16 ≤ 10) :
    ∃ o, snort_mqtt cs max_msg_len
        { data := first :: 0x80 :: 0x80 :: 0x01 :: body, beyond := beyond } flow_data = some o ∧
      o.ret = MQTT_EOF := by
  have hh := parse_fixed_header_eq first (0x80 :: 0x80 :: 0x01 :: (body ++ beyond)) max_msg_len
    0 (body ++ beyond) (parse_variable_int_16384 (body ++ beyond))
  rw [Nat.zero_min] at hh
  refine snort_mqtt_short_cursor cs max_msg_len _ flow_data _ (body ++ beyond) hh ?_ ?_ ?_
  · simp only [Byte.shiftRight_4]; exact htype
  · simp only [snort_mqtt_len]; split <;> omega
  · simp only [snort_mqtt_len]; split <;> omega

/-! ## PUBLISH round trip -/

/-- `MQTTPublishCommand::parse` on a valid topic when `bit2 & bit1` is 0: no message id
is read, and the message is what the stream holds of the `remaining_len` bytes that the
header announces. -/
theorem publish_parse_no_message_id (cs : Bool) (header : MQTTFixedHeader)
    (c : MQTTPublishCommand) (qos : Nat) (st st1 : IStream) (topic : List Byte)
    (h : parse_enc_string cs st c.topic = (true, st1, topic))
    (hne : topic ≠ []) (hstar : (0x2A : Byte) ∉ topic)
    (hq : (header.bit2 && header.bit1) = false) :
    MQTTPublishCommand.parse cs header c qos st =
      (if (st1.read (((header.remaining_len : Int) - (st1.tellg - st.tellg)) % 2 ^ 32).toNat).2.fail
        then MQTT_EOF else 0,
       { c with
         topic := topic
         msg_len := some (((header.remaining_len : Int) - (st1.tellg - st.tellg)) % 2 ^ 32).toNat
         message := some
           (st1.read (((header.remaining_len : Int) - (st1.tellg - st.tellg)) % 2 ^ 32).toNat).1 },
       0) := by
  have hb : ¬ (topic.length = 0 ∨ (0x2A : Byte) ∈ topic) := by
    rintro (h0 | h1)
    · exact hne (List.length_eq_zero.mp h0)
    · exact hstar h1
  unfold MQTTPublishCommand.parse
  simp only [h, Bool.not_true, Bool.false_eq_true, if_false, hq]
  rw [if_neg hb]
  simp only [Nat.zero_ne_one, OfNat.zero_ne_ofNat, or_self, if_false, Bool.false_eq_true]
  split <;> rfl

/-- The PUBLISH round trip of C16 on the wire, for the bodies whose topic length the
decoder reads as it is encoded (plain `char` unsigned, or low length byte below `0x80`):
decoding succeeds, no message id is consumed, and the exporter hands out the topic and
the payload. -/
theorem publish_round_trip_wire (cs : Bool) (header : MQTTFixedHeader) (qos : Nat)
    (hi lo : Byte) (topic payload : List Byte)
    (hcs : cs = false ∨ lo.val < 128) (hlen : topic.length = hi.val * 256 + lo.val)
    (hne : topic ≠ []) (hstar : (0x2A : Byte) ∉ topic)
    (hq : header.bit1 = false ∧ header.bit2 = false)
    (hrem : header.remaining_len = 2 + topic.length + payload.length)
    (h32 : header.remaining_len < 2 ^ 32) :
    MQTTPublishCommand.parse cs header {} qos ⟨hi :: lo :: (topic ++ payload), 0, false⟩
      = (0, { topic := topic, message_id := none, message := some payload
              msg_len := some payload.length }, 0) ∧
    (MQTTPublishCommand.parse cs header {} qos
        ⟨hi :: lo :: (topic ++ payload), 0, false⟩).2.1.get_buffer .TOPIC
      = .buffer topic topic.length ∧
    (MQTTPublishCommand.parse cs header {} qos
        ⟨hi :: lo :: (topic ++ payload), 0, false⟩).2.1.get_buffer .MESSAGE
      = .buffer payload payload.length := by
  have hps := parse_enc_string_ok cs hi lo topic payload [] 0
    (by rw [u16_of_chars_eq cs hi lo hcs, hlen])
  have hq2 : (header.bit2 && header.bit1) = false := by rw [hq.1, hq.2]; rfl
  have hmain := publish_parse_no_message_id cs header {} qos _ _ topic hps hne hstar hq2
  have hml : (((header.remaining_len : Int) -
      ((⟨payload, 0 + 2 + topic.length, false⟩ : IStream).tellg -
        (⟨hi :: lo :: (topic ++ payload), 0, false⟩ : IStream).tellg)) % 2 ^ 32).toNat
      = payload.length := by
    simp only [IStream.tellg, Bool.false_eq_true, if_false]
    rw [hrem]
    push_cast
    omega
  rw [hml, IStream.read_of_le _ _ _ (Nat.le_refl _), List.take_length] at hmain
  simp only [Bool.false_eq_true, if_false] at hmain
  have hfin : MQTTPublishCommand.parse cs header {} qos
      ⟨hi :: lo :: (topic ++ payload), 0, false⟩
      = (0, { topic := topic, message_id := none, message := some payload
              msg_len := some payload.length }, 0) := hmain
  rw [hfin]
  exact ⟨rfl, rfl, rfl⟩

/-- C16 (code defects): two PUBLISH packets of the claimed form that do not decode.
A packet with a remaining length of 16384 (fixed header `30 80 80 01`, for instance the
topic `a/b` with 16379 payload bytes) is answered with Eof whatever its body, because
the header parser takes the length for 0.  With a signed plain `char`, the body with a
topic of 128 bytes `a` (length prefix `00 80`) and the payload `hello` is answered with
Eof, because the low length byte is sign-extended. -/
theorem C16_publish_round_trip_fails :
    (∀ (cs : Bool) (max_msg_len : Nat) (body : List Byte) (flow_data : Option MQTTData),
      ∃ o, snort_mqtt cs max_msg_len { data := 0x30 :: 0x80 :: 0x80 :: 0x01 :: body }
          flow_data = some o ∧ o.ret = MQTT_EOF) ∧
    MQTT_encode_variable_int (2 + 3 + 16379) = [0x80, 0x80, 0x01] ∧
    (MQTTPublishCommand.parse true { pkt_type := CMD_PUBLISH, remaining_len := 2 + 128 + 5 } {} 0
      ⟨[0x00, 0x80] ++ (List.replicate 128 0x61 ++ [0x68, 0x65, 0x6c, 0x6c, 0x6f]), 0, false⟩).1
        = MQTT_EOF ∧
    (0x2A : Byte) ∉ List.replicate 128 (0x61 : Byte) ∧
    MQTT_EOF ≠ 0 := by
  refine ⟨fun cs m body fd => snort_mqtt_length_16384 cs m 0x30 body [] fd (by decide),
    by decide, ?_, ?_, by decide⟩
  · apply publish_parse_topic_fail
    refine (parse_enc_string_short_data true 0x00 0x80
      (List.replicate 128 0x61 ++ [0x68, 0x65, 0x6c, 0x6c, 0x6f]) [] 0 ?_).1
    rw [u16_of_chars_signed 0x00 0x80 (by decide)]
    simp only [List.length_append, List.length_replicate, List.length_cons, List.length_nil]
    decide
  · intro h
    have := List.eq_of_mem_replicate h
    exact absurd this (by decide)

/-! ## CONNECT round trip -/

set_option maxRecDepth 100000 in
theorem Byte.bit7 : ∀ b : Byte, decide ((b.val &&& 128) ≠ 0) = b.val.testBit 7 := by decide

set_option maxRecDepth 100000 in
theorem Byte.bit6 : ∀ b : Byte, decide ((b.val &&& 64) ≠ 0) = b.val.testBit 6 := by decide

/-- `MQTTConnectCommand::parse` behind the connect flags: with protocol name `MQTT`, a
version of at most 4 and a flags byte with bit 0 clear, the outcome is decided by the
client id, and the optional strings are read without a look at the results. -/
theorem connect_parse_fixed_part (cs : Bool) (v f k1 k2 : Byte) (tail : List Byte)
    (hv : v.val ≤ 4) (hf : f.val.testBit 0 = false) :
    MQTTConnectCommand.parse cs {}
        ⟨0x00 :: 0x04 :: (MQTT_literal ++ v :: f :: k1 :: k2 :: tail), 0, false⟩ =
      if (parse_enc_string cs ⟨tail, 10, false⟩ []).1 then
        (0, MQTTConnectCommand.parse_optional cs
          { protocol_string := MQTT_literal
            protocol_version := some v.val
            username_flag := some (f.val.testBit 7)
            password_flag := some (f.val.testBit 6)
            will_retain := some (decide ((f.val &&& 16) ≠ 0))
            will_qos := some (f.val &&& 24)
            will_flag := some (f.val.testBit 2)
            clean_session := some (f.val.testBit 1)
            keepalive := some (u16_of_chars cs k1 k2)
            client_id := (parse_enc_string cs ⟨tail, 10, false⟩ []).2.2 }
          (parse_enc_string cs ⟨tail, 10, false⟩ []).2.1)
      else
        (MQTT_EOF,
          { protocol_string := MQTT_literal
            protocol_version := some v.val
            username_flag := some (f.val.testBit 7)
            password_flag := some (f.val.testBit 6)
            will_retain := some (decide ((f.val &&& 16) ≠ 0))
            will_qos := some (f.val &&& 24)
            will_flag := some (f.val.testBit 2)
            clean_session := some (f.val.testBit 1)
            keepalive := some (u16_of_chars cs k1 k2)
            client_id := (parse_enc_string cs ⟨tail, 10, false⟩ []).2.2 }) := by
  have hname : parse_enc_string cs
      ⟨0x00 :: 0x04 :: (MQTT_literal ++ v :: f :: k1 :: k2 :: tail), 0, false⟩
      ({} : MQTTConnectCommand).protocol_string
      = (true, ⟨v :: f :: k1 :: k2 :: tail, 0 + 2 + MQTT_literal.length, false⟩, MQTT_literal) :=
    parse_enc_string_ok cs 0x00 0x04 MQTT_literal (v :: f :: k1 :: k2 :: tail) [] 0
      (by rw [u16_of_chars_eq cs 0x00 0x04 (Or.inr (by decide))]; rfl)
  have hb0 : ¬ (f.val &&& 1) ≠ 0 := by
    have := Byte.bit0 f
    rw [hf] at this
    exact of_decide_eq_false this
  have hrd : (⟨k1 :: k2 :: tail, 0 + 2 + MQTT_literal.length + 1 + 1, false⟩ : IStream).read 2
      = ([k1, k2], ⟨tail, 10, false⟩) := by
    rw [IStream.read_of_le _ _ _ (by simp only [List.length_cons]; omega)]
    rfl
  unfold MQTTConnectCommand.parse
  simp only [hname, Bool.not_true, Bool.false_eq_true, if_false, ne_eq, not_true_eq_false,
    IStream.get]
  rw [if_neg (by omega), if_neg hb0, hrd]
  simp only [Bool.false_eq_true, if_false, Byte.bit7, Byte.bit6, Byte.bit2, Byte.bit1]
  cases hok : (parse_enc_string cs ⟨tail, 10, false⟩ []).1
  · simp only [Bool.not_false, if_true, Bool.false_eq_true, if_false]
    rfl
  · simp only [Bool.not_true, Bool.false_eq_true, if_false, if_true]
    rfl

/-- The CONNECT round trip of C13 on the wire, for the bodies whose string lengths the
decoder reads as they are encoded (plain `char` unsigned, or low length bytes below
`0x80`): with username and password flagged and no will, decoding succeeds and the
exporter hands out the client id, the username and the password, and no will buffers. -/
theorem connect_round_trip_wire (cs : Bool) (v f k1 k2 h1 l1 h2 l2 h3 l3 : Byte)
    (cid user pw : List Byte)
    (hcs : cs = false ∨ (l1.val < 128 ∧ l2.val < 128 ∧ l3.val < 128))
    (hv : v.val ≤ 4)
    (hf0 : f.val.testBit 0 = false) (hf2 : f.val.testBit 2 = false)
    (hf6 : f.val.testBit 6 = true) (hf7 : f.val.testBit 7 = true)
    (hc : cid.length = h1.val * 256 + l1.val)
    (hu : user.length = h2.val * 256 + l2.val)
    (hp : pw.length = h3.val * 256 + l3.val) :
    (MQTTConnectCommand.parse cs {}
      ⟨0x00 :: 0x04 :: (MQTT_literal ++ v :: f :: k1 :: k2 ::
        (h1 :: l1 :: (cid ++ (h2 :: l2 :: (user ++ (h3 :: l3 :: (pw ++ []))))))),
        0, false⟩).1 = 0 ∧
    ∀ c, c = (MQTTConnectCommand.parse cs {}
      ⟨0x00 :: 0x04 :: (MQTT_literal ++ v :: f :: k1 :: k2 ::
        (h1 :: l1 :: (cid ++ (h2 :: l2 :: (user ++ (h3 :: l3 :: (pw ++ []))))))),
        0, false⟩).2 →
      c.get_buffer .CLIENT_ID = .buffer cid cid.length ∧
      c.get_buffer .USERNAME = .buffer user user.length ∧
      c.get_buffer .PASSWORD = .buffer pw pw.length ∧
      c.get_buffer .WILL_TOPIC = .no_buffer ∧
      c.get_buffer .WILL_MESSAGE = .no_buffer ∧
      c.keepalive = some (u16_of_chars cs k1 k2) := by
  have hc1 : cs = false ∨ l1.val < 128 := hcs.imp id (fun h => h.1)
  have hc2 : cs = false ∨ l2.val < 128 := hcs.imp id (fun h => h.2.1)
  have hc3 : cs = false ∨ l3.val < 128 := hcs.imp id (fun h => h.2.2)
  have e1 := parse_enc_string_ok cs h1 l1 cid (h2 :: l2 :: (user ++ (h3 :: l3 :: (pw ++ []))))
    [] 10 (by rw [u16_of_chars_eq cs h1 l1 hc1, hc])
  have e2 := parse_enc_string_ok cs h2 l2 user (h3 :: l3 :: (pw ++ [])) [] (10 + 2 + cid.length)
    (by rw [u16_of_chars_eq cs h2 l2 hc2, hu])
  have e3 := parse_enc_string_ok cs h3 l3 pw [] [] (10 + 2 + cid.length + 2 + user.length)
    (by rw [u16_of_chars_eq cs h3 l3 hc3, hp])
  rw [connect_parse_fixed_part cs v f k1 k2 _ hv hf0, e1]
  simp only [if_true, hf2, hf6, hf7]
  have hopt : MQTTConnectCommand.parse_optional cs
      { protocol_string := MQTT_literal, protocol_version := some v.val
        username_flag := some true, password_flag := some true
        will_retain := some (decide ((f.val &&& 16) ≠ 0)), will_qos := some (f.val &&& 24)
        will_flag := some false, clean_session := some (f.val.testBit 1)
        keepalive := some (u16_of_chars cs k1 k2), client_id := cid }
      ⟨h2 :: l2 :: (user ++ (h3 :: l3 :: (pw ++ []))), 10 + 2 + cid.length, false⟩
      = { protocol_string := MQTT_literal, protocol_version := some v.val
          username_flag := some true, password_flag := some true
          will_retain := some (decide ((f.val &&& 16) ≠ 0)), will_qos := some (f.val &&& 24)
          will_flag := some false, clean_session := some (f.val.testBit 1)
          keepalive := some (u16_of_chars cs k1 k2), client_id := cid
          username := user, password := pw } := by
    unfold MQTTConnectCommand.parse_optional
    simp only [Option.some.injEq, Bool.false_eq_true, if_false, if_true, e2, e3]
  rw [hopt]
  refine ⟨trivial, ?_⟩
  intro c hcdef
  subst hcdef
  exact ⟨rfl, rfl, rfl, rfl, rfl, rfl⟩

/-- The witness of C13: client id `abc`, username `u`, password `p`, keepalive 60,
version 4, flags `c2`, for either signedness of plain `char`. -/
theorem connect_round_trip_example (cs : Bool) :
    (MQTTConnectCommand.parse cs {}
      ⟨[0x00, 0x04, 0x4d, 0x51, 0x54, 0x54, 0x04, 0xc2, 0x00, 0x3c, 0x00, 0x03, 0x61, 0x62,
        0x63, 0x00, 0x01, 0x75, 0x00, 0x01, 0x70], 0, false⟩).1 = 0 ∧
    (MQTTConnectCommand.parse cs {}
      ⟨[0x00, 0x04, 0x4d, 0x51, 0x54, 0x54, 0x04, 0xc2, 0x00, 0x3c, 0x00, 0x03, 0x61, 0x62,
        0x63, 0x00, 0x01, 0x75, 0x00, 0x01, 0x70], 0, false⟩).2.get_buffer .CLIENT_ID
      = .buffer [0x61, 0x62, 0x63] 3 := by
  cases cs <;> decide

/-- C13 (code defects): two CONNECT packets of the claimed form that do not decode.
A packet with a remaining length of 16384 (fixed header `10 80 80 01`, for instance with
a long password) is answered with Eof whatever its body, because the header parser
takes the length for 0.  With a signed plain `char`, the body with version 4, flags
`c2`, keepalive 60, a client id of 128 bytes `a` (length prefix `00 80`), username `u`
and password `p` is answered with Eof, because the low length byte is sign-extended. -/
theorem C13_connect_round_trip_fails :
    (∀ (cs : Bool) (max_msg_len : Nat) (body : List Byte) (flow_data : Option MQTTData),
      ∃ o, snort_mqtt cs max_msg_len { data := 0x10 :: 0x80 :: 0x80 :: 0x01 :: body }
          flow_data = some o ∧ o.ret = MQTT_EOF) ∧
    (MQTTConnectCommand.parse true {}
      ⟨0x00 :: 0x04 :: (MQTT_literal ++ 0x04 :: 0xc2 :: 0x00 :: 0x3c ::
        (0x00 :: 0x80 :: (List.replicate 128 0x61 ++ [0x00, 0x01, 0x75, 0x00, 0x01, 0x70]))),
        0, false⟩).1 = MQTT_EOF ∧
    MQTT_EOF ≠ 0 := by
  refine ⟨fun cs m body fd => snort_mqtt_length_16384 cs m 0x10 body [] fd (by decide), ?_,
    by decide⟩
  have hfail := (parse_enc_string_short_data true 0x00 0x80
    (List.replicate 128 0x61 ++ [0x00, 0x01, 0x75, 0x00, 0x01, 0x70]) [] 10
    (by
      rw [u16_of_chars_signed 0x00 0x80 (by decide)]
      simp only [List.length_append, List.length_replicate, List.length_cons,
        List.length_nil]
      decide)).1
  rw [connect_parse_fixed_part true 0x04 0xc2 0x00 0x3c _ (by decide) (by decide), hfail]
  rfl

/-! ## SUBSCRIBE and UNSUBSCRIBE -/

/-- The SUBSCRIBE loop returns Eof when the first `parse_topic` fails on a stream that
is exhausted by it, the local `topic` being still empty. -/
theorem subscribe_parse_no_filter (cs : Bool) (c : MQTTSubscribeCommand) (m1 m2 : Byte)
    (rest : List Byte) (pos : Nat)
    (h : (parse_enc_string cs ⟨rest, pos + 2, false⟩ []).1 = false ∧
      (parse_enc_string cs ⟨rest, pos + 2, false⟩ []).2.2 = []) :
    (MQTTSubscribeCommand.parse cs c ⟨m1 :: m2 :: rest, pos, false⟩).1 = MQTT_EOF := by
  unfold MQTTSubscribeCommand.parse
  rw [IStream.read_of_le _ _ _ (by simp only [List.length_cons]; omega)]
  simp only [Bool.false_eq_true, if_false, List.drop_succ_cons, List.drop_zero,
    MQTTSubscribeCommand.parse_loop, parse_topic_eq]
  obtain ⟨h1, h2⟩ := h
  revert h1 h2
  cases parse_enc_string cs ⟨rest, pos + 2, false⟩ [] with
  | mk ok r =>
    cases r with
    | mk st1 t1 =>
      intro h1 h2
      simp only at h1 h2
      subst h1
      subst h2
      rfl

/-- The UNSUBSCRIBE loop returns Eof under the same conditions. -/
theorem unsubscribe_parse_no_filter (cs : Bool) (c : MQTTUnsubscribeCommand) (m1 m2 : Byte)
    (rest : List Byte) (pos : Nat)
    (h : (parse_enc_string cs ⟨rest, pos + 2, false⟩ []).1 = false ∧
      (parse_enc_string cs ⟨rest, pos + 2, false⟩ []).2.2 = []) :
    (MQTTUnsubscribeCommand.parse cs c ⟨m1 :: m2 :: rest, pos, false⟩).1 = MQTT_EOF := by
  unfold MQTTUnsubscribeCommand.parse
  rw [IStream.read_of_le _ _ _ (by simp only [List.length_cons]; omega)]
  simp only [Bool.false_eq_true, if_false, List.drop_succ_cons, List.drop_zero,
    MQTTUnsubscribeCommand.parse_loop, parse_topic_eq]
  obtain ⟨h1, h2⟩ := h
  revert h1 h2
  cases parse_enc_string cs ⟨rest, pos + 2, false⟩ [] with
  | mk ok r =>
    cases r with
    | mk st1 t1 =>
      intro h1 h2
      simp only at h1 h2
      subst h1
      subst h2
      rfl

/-- C19: a SUBSCRIBE or UNSUBSCRIBE body of at most two bytes (the message id alone, or
less) makes `MQTTSubscribeCommand::parse` and `MQTTUnsubscribeCommand::parse` return
Eof. -/
theorem C19_zero_filters_is_eof (cs : Bool) (c1 : MQTTSubscribeCommand)
    (c2 : MQTTUnsubscribeCommand) (body : List Byte) (h : body.length ≤ 2) :
    (MQTTSubscribeCommand.parse cs c1 ⟨body, 0, false⟩).1 = MQTT_EOF ∧
    (MQTTUnsubscribeCommand.parse cs c2 ⟨body, 0, false⟩).1 = MQTT_EOF := by
  by_cases hlt : body.length < 2
  · exact ⟨subscribe_parse_short cs c1 _ rfl hlt, unsubscribe_parse_short cs c2 _ rfl hlt⟩
  · have hlen : body.length = 2 := by omega
    obtain ⟨m1, m2, rfl⟩ := List.length_eq_two.mp hlen
    have hs := parse_enc_string_short cs ⟨[], 0 + 2, false⟩ [] rfl (by decide)
    exact ⟨subscribe_parse_no_filter cs c1 m1 m2 [] 0 hs,
      unsubscribe_parse_no_filter cs c2 m1 m2 [] 0 hs⟩

/-- Witness for C19: the body `00 01`, a message id and nothing else. -/
theorem C19_zero_filters_is_eof_witness :
    (MQTTSubscribeCommand.parse true {} ⟨[0x00, 0x01], 0, false⟩).1 = MQTT_EOF ∧
    (MQTTUnsubscribeCommand.parse true {} ⟨[0x00, 0x01], 0, false⟩).1 = MQTT_EOF :=
  C19_zero_filters_is_eof true {} {} [0x00, 0x01] (by decide)

/-- C18 (code defect): with a signed plain `char`, the SUBSCRIBE body
`00 01 00 01 61 80` (message id 1, filter `a`, qos byte `80`) is accepted: `qos_byte > 2`
is a signed comparison, and `80` is negative.  With an unsigned plain `char` the same
body is answered with ProtocolViolation. -/
theorem C18_high_qos_byte_is_accepted :
    MQTTSubscribeCommand.parse true {} ⟨[0x00, 0x01, 0x00, 0x01, 0x61, 0x80], 0, false⟩
      = (0, { message_id := some 1, topics := [([0x61], 0x80)] }) ∧
    (MQTTSubscribeCommand.parse false {}
      ⟨[0x00, 0x01, 0x00, 0x01, 0x61, 0x80], 0, false⟩).1 = MQTT_PROTO_VIOLATION ∧
    (0x80 : Byte).val > 2 ∧ (0 : Nat) ≠ MQTT_PROTO_VIOLATION := by
  decide

/-- C20 (code defects): two SUBSCRIBE bodies of the claimed form that are not decoded.
The body `00 01 00 01 61 01 00 00 00` (the pairs `a` / 1 and empty filter / 0) is
answered with Eof for either signedness of plain `char`, because the test for zero
filters looks at the length of the last filter.  With a signed plain `char`, the body
with one filter of 128 bytes `a` (length prefix `00 80`) and qos 1 is answered with Eof,
because the low length byte is sign-extended. -/
theorem C20_subscribe_list_not_decoded :
    (∀ cs : Bool,
      MQTTSubscribeCommand.parse cs {}
        ⟨[0x00, 0x01, 0x00, 0x01, 0x61, 0x01, 0x00, 0x00, 0x00], 0, false⟩
        = (MQTT_EOF, { message_id := some 1, topics := [([0x61], 0x01), ([], 0x00)] })) ∧
    (MQTTSubscribeCommand.parse true {}
      ⟨0x00 :: 0x01 :: (0x00 :: 0x80 :: (List.replicate 128 0x61 ++ [0x01])), 0, false⟩).1
        = MQTT_EOF ∧
    MQTT_EOF ≠ 0 := by
  refine ⟨fun cs => by cases cs <;> decide, ?_, by decide⟩
  apply subscribe_parse_no_filter
  refine parse_enc_string_short_data true 0x00 0x80 (List.replicate 128 0x61 ++ [0x01]) []
    (0 + 2) ?_
  rw [u16_of_chars_signed 0x00 0x80 (by decide)]
  simp only [List.length_append, List.length_replicate, List.length_cons, List.length_nil]
  decide

/-! ## The extent of the SUBSCRIBE defects -/

/-- One complete pair at the front of the stream: the SUBSCRIBE loop either rejects its
qos byte or appends the pair and goes on behind it. -/
theorem subscribe_loop_pair (cs : Bool) (fuel : Nat) (filter : List Byte) (q : Byte)
    (rest : List Byte) (pos : Nat) (topic : List Byte) (c : MQTTSubscribeCommand)
    (hlen : filter.length < 65536) (hcs : cs = false ∨ filter.length % 256 < 128) :
    MQTTSubscribeCommand.parse_loop cs (fuel + 1)
        ⟨encoded_string filter ++ q :: rest, pos, false⟩ topic c
      = if char_gt cs q 2 then (MQTT_PROTO_VIOLATION, c)
        else MQTTSubscribeCommand.parse_loop cs fuel
          ⟨rest, pos + 2 + filter.length + 1, false⟩ filter
          { c with topics := c.topics ++ [(filter, q)] } := by
  have hok := parse_enc_string_ok cs ⟨filter.length / 256 % 256, Nat.mod_lt _ (by decide)⟩
    ⟨filter.length % 256, Nat.mod_lt _ (by decide)⟩ filter (q :: rest) topic pos
    (by
      rw [u16_of_chars_eq cs _ _ hcs]
      show filter.length / 256 % 256 * 256 + filter.length % 256 = filter.length
      omega)
  conv_lhs => rw [MQTTSubscribeCommand.parse_loop]
  simp only [encoded_string, List.cons_append, parse_topic_eq, hok, IStream.get,
    Bool.false_eq_true, if_false]

/-- On an exhausted stream the SUBSCRIBE loop ends, and the result depends on the last
filter that was read. -/
theorem subscribe_loop_end (cs : Bool) (fuel : Nat) (pos : Nat) (topic : List Byte)
    (c : MQTTSubscribeCommand) :
    MQTTSubscribeCommand.parse_loop cs (fuel + 1) ⟨[], pos, false⟩ topic c
      = (if topic.length = 0 then MQTT_EOF else 0, c) := by
  rw [MQTTSubscribeCommand.parse_loop, parse_topic_eq]
  have h := parse_enc_string_short cs ⟨[], pos, false⟩ topic rfl (Nat.zero_lt_succ 1)
  revert h
  cases parse_enc_string cs ⟨[], pos, false⟩ topic with
  | mk ok r =>
    cases r with
    | mk st1 t1 =>
      intro h
      obtain ⟨h1, h2⟩ := h
      simp only at h1 h2
      subst h1
      subst h2
      simp only
      split_ifs <;> rfl

/-- Every pair takes at least three bytes on the wire. -/
theorem subscribe_filters_length (pairs : List (List Byte × Byte)) :
    pairs.length ≤ (subscribe_filters pairs).length := by
  induction pairs with
  | nil => exact Nat.le_refl _
  | cons x xs ih =>
    obtain ⟨filter, q⟩ := x
    simp only [subscribe_filters, encoded_string, List.length_cons, List.length_append,
      List.cons_append]
    omega

/-- The SUBSCRIBE loop on a list of complete pairs whose length prefixes are read back
(unsigned plain `char`, or low length byte below `80`) and whose qos bytes pass the
comparison: the pairs are appended in wire order and the loop goes on behind them with
the last filter in `topic`. -/
theorem subscribe_loop_filters (cs : Bool) :
    ∀ (pairs : List (List Byte × Byte)) (fuel : Nat) (rest : List Byte) (pos : Nat)
      (topic : List Byte) (c : MQTTSubscribeCommand),
      (∀ x ∈ pairs, x.1.length < 65536 ∧ (cs = false ∨ x.1.length % 256 < 128) ∧
        char_gt cs x.2 2 = false) →
      MQTTSubscribeCommand.parse_loop cs (pairs.length + fuel)
          ⟨subscribe_filters pairs ++ rest, pos, false⟩ topic c
        = MQTTSubscribeCommand.parse_loop cs fuel
            ⟨rest, pos + (subscribe_filters pairs).length, false⟩
            ((pairs.getLast?.map Prod.fst).getD topic)
            { c with topics := c.topics ++ pairs }
  | [], fuel, rest, pos, topic, c, _ => by
    simp only [List.length_nil, Nat.zero_add, subscribe_filters, List.nil_append,
      Nat.add_zero, List.getLast?_nil, Option.map_none', Option.getD_none,
      List.append_nil]
  | (filter, q) :: xs, fuel, rest, pos, topic, c, hall => by
    have hx := hall (filter, q) (List.mem_cons_self _ _)
    have hxs : ∀ x ∈ xs, x.1.length < 65536 ∧ (cs = false ∨ x.1.length % 256 < 128) ∧
        char_gt cs x.2 2 = false := fun x hm => hall x (List.mem_cons_of_mem _ hm)
    have hfuel : ((filter, q) :: xs).length + fuel = (xs.length + fuel) + 1 := by
      simp only [List.length_cons]
      omega
    rw [hfuel]
    simp only [subscribe_filters, List.append_assoc, List.cons_append]
    rw [subscribe_loop_pair cs _ filter q _ pos topic c hx.1 hx.2.1, hx.2.2]
    simp only [Bool.false_eq_true, if_false]
    rw [subscribe_loop_filters cs xs fuel rest _ filter _ hxs]
    have hlast : ((((filter, q) :: xs).getLast?).map Prod.fst).getD topic
        = ((xs.getLast?).map Prod.fst).getD filter := by
      cases xs with
      | nil => rfl
      | cons y ys =>
        rw [List.getLast?_cons_cons, List.getLast?_eq_getLast _ (List.cons_ne_nil y ys)]
        rfl
    rw [hlast]
    simp only [encoded_string, List.length_cons, List.length_append, List.append_assoc,
      List.singleton_append]
    congr 2
    omega

/-- The extent of the SUBSCRIBE list defect.  A body made of a message id and complete
pairs whose length prefixes are read back and whose qos bytes pass the comparison is
decoded into exactly those pairs; the result is `0` when the last filter is not empty
and Eof when it is empty or when there is no pair. -/
theorem subscribe_parse_filters (cs : Bool) (c : MQTTSubscribeCommand) (m1 m2 : Byte)
    (pairs : List (List Byte × Byte))
    (hall : ∀ x ∈ pairs, x.1.length < 65536 ∧ (cs = false ∨ x.1.length % 256 < 128) ∧
      char_gt cs x.2 2 = false) :
    MQTTSubscribeCommand.parse cs c ⟨m1 :: m2 :: subscribe_filters pairs, 0, false⟩
      = (if ((pairs.getLast?.map Prod.fst).getD []).length = 0 then MQTT_EOF else 0,
         { message_id := some (u16_of_chars cs m1 m2), topics := c.topics ++ pairs }) := by
  unfold MQTTSubscribeCommand.parse
  rw [IStream.read_of_le _ _ _ (by simp only [List.length_cons]; omega)]
  simp only [Bool.false_eq_true, if_false, List.drop_succ_cons, List.drop_zero,
    List.take_succ_cons, List.take_zero]
  obtain ⟨k, hk⟩ : ∃ k, (subscribe_filters pairs).length + 1 = pairs.length + (k + 1) :=
    ⟨(subscribe_filters pairs).length - pairs.length, by
      have := subscribe_filters_length pairs
      omega⟩
  rw [hk]
  have h := subscribe_loop_filters cs pairs (k + 1) [] (0 + 2) []
    { c with message_id := some (u16_of_read cs [m1, m2]) } hall
  rw [List.append_nil] at h
  rw [h, subscribe_loop_end]
  rfl

/-- The extent of the SUBSCRIBE qos defect.  After complete pairs that pass, a complete
pair whose qos byte is greater than 2 in the comparison of the code is answered with
ProtocolViolation.  With an unsigned plain `char` the comparison is `2 < qos`; with a
signed one the bytes from `80` on are negative and pass (`char_gt`). -/
theorem subscribe_parse_violation (cs : Bool) (c : MQTTSubscribeCommand) (m1 m2 : Byte)
    (pairs : List (List Byte × Byte)) (filter : List Byte) (q : Byte) (rest : List Byte)
    (hall : ∀ x ∈ pairs, x.1.length < 65536 ∧ (cs = false ∨ x.1.length % 256 < 128) ∧
      char_gt cs x.2 2 = false)
    (hlen : filter.length < 65536) (hcs : cs = false ∨ filter.length % 256 < 128)
    (hq : char_gt cs q 2 = true) :
    MQTTSubscribeCommand.parse cs c
        ⟨m1 :: m2 :: (subscribe_filters pairs ++ (encoded_string filter ++ q :: rest)),
          0, false⟩
      = (MQTT_PROTO_VIOLATION,
         { message_id := some (u16_of_chars cs m1 m2), topics := c.topics ++ pairs }) := by
  unfold MQTTSubscribeCommand.parse
  rw [IStream.read_of_le _ _ _ (by simp only [List.length_cons]; omega)]
  simp only [Bool.false_eq_true, if_false, List.drop_succ_cons, List.drop_zero,
    List.take_succ_cons, List.take_zero]
  obtain ⟨k, hk⟩ : ∃ k, (subscribe_filters pairs ++
      (encoded_string filter ++ q :: rest)).length + 1 = pairs.length + (k + 1) :=
    ⟨(subscribe_filters pairs ++ (encoded_string filter ++ q :: rest)).length
        - pairs.length, by
      have := subscribe_filters_length pairs
      simp only [List.length_append] at *
      omega⟩
  rw [hk, subscribe_loop_filters cs pairs (k + 1) _ (0 + 2) []
    { c with message_id := some (u16_of_read cs [m1, m2]) } hall,
    subscribe_loop_pair cs k filter q rest _ _ _ hlen hcs, hq]
  rfl

/-- The comparison `qos_byte > 2` with an unsigned plain `char` is the comparison of the
byte values. -/
theorem char_gt_unsigned (q : Byte) (k : Nat) : char_gt false q k = decide (k < q.val) := rfl

/-- The comparison `qos_byte > 2` with a signed plain `char` fails for every byte from
`80` on. -/
theorem char_gt_signed_high (q : Byte) (k : Nat) (h : 128 ≤ q.val) :
    char_gt true q k = false := by
  simp [char_gt, h]

/-! ## SUBACK, the publish responses and UNSUBACK -/

/-- The SUBACK loop appends what is left in the cursor, byte for byte. -/
theorem suback_parse_loop_eq : ∀ (rest return_codes : List Byte),
    MQTTSubackCommand.parse_loop rest return_codes = return_codes ++ rest
  | [], return_codes => by
    rw [MQTTSubackCommand.parse_loop, List.append_nil]
  | b :: rest, return_codes => by
    rw [MQTTSubackCommand.parse_loop, suback_parse_loop_eq rest, List.append_assoc]
    rfl

/-- C21: on a SUBACK body of `m` bytes `MQTTSubackCommand::parse` returns Eof, with the
object untouched, if `m < 2`; otherwise it returns `0` and the return-code list is the
body without its first two bytes, in wire order, whatever the values of the codes; that
list has `m - 2` entries. -/
theorem C21_suback_return_codes (cs : Bool) (body : List Byte) :
    MQTTSubackCommand.parse cs {} ⟨body, 0, false⟩
      = (if body.length < 2 then (MQTT_EOF, {})
         else (0, { message_id := some (u16_of_read cs (body.take 2))
                    return_codes := body.drop 2 })) ∧
    (body.drop 2).length = body.length - 2 := by
  refine ⟨?_, List.length_drop 2 body⟩
  by_cases h : body.length < 2
  · rw [if_pos h]
    unfold MQTTSubackCommand.parse
    rw [IStream.read_of_lt _ _ _ h]
    rfl
  · rw [if_neg h]
    unfold MQTTSubackCommand.parse
    rw [IStream.read_of_le _ _ _ (by omega)]
    simp only [Bool.false_eq_true, if_false, suback_parse_loop_eq, List.nil_append]

/-- The decoder of PUBACK, PUBREC, PUBREL and PUBCOMP on a body of at least two bytes:
it returns `0` and stores what `b0 << 8 | b1` gives on plain `char`s. -/
theorem pubresponse_parse_two (cs : Bool) (b0 b1 : Byte) (rest : List Byte) :
    MQTTPubResponseCommand.parse cs {} ⟨b0 :: b1 :: rest, 0, false⟩
      = (0, { message_id := some (u16_of_chars cs b0 b1) }) := by
  unfold MQTTPubResponseCommand.parse
  rw [IStream.read_of_le _ _ _ (by simp only [List.length_cons]; omega)]
  rfl

/-- The decoder of the publish responses returns Eof exactly on a body of fewer than two
bytes. -/
theorem pubresponse_parse_eof_iff (cs : Bool) (body : List Byte) :
    (MQTTPubResponseCommand.parse cs {} ⟨body, 0, false⟩).1 = MQTT_EOF ↔ body.length < 2 := by
  constructor
  · intro h
    by_contra hlen
    match body, hlen with
    | b0 :: b1 :: rest, _ =>
      rw [pubresponse_parse_two] at h
      exact absurd h (show (0 : Nat) ≠ MQTT_EOF by decide)
    | [_], hlen => exact hlen (Nat.lt_succ_self 1)
    | [], hlen => exact hlen (Nat.zero_lt_succ 1)
  · intro h
    exact pubresponse_parse_short cs {} _ rfl h

/-- The extent of the cursor-bound defect for PUBACK, PUBREC, PUBREL and PUBCOMP: when
the fixed header declares at least two bytes and the packet holds at least two bytes
(its fixed header alone has that many), the decoder succeeds and `prev_command` becomes
the packet's type, however few body bytes the packet delivers: the cursor of
mqtt.cc:154-156 is `min remaining_len dsize` bytes long, never fewer than two. -/
theorem snort_mqtt_pubresponse_over_read (cs : Bool) (max_msg_len : Nat) (p : Packet)
    (flow_data : Option MQTTData) (header : MQTTFixedHeader) (data_ptr : List Byte)
    (hh : MQTT_parse_fixed_header (p.data ++ p.beyond) max_msg_len = some (header, data_ptr))
    (htype : 4 ≤ header.pkt_type ∧ header.pkt_type ≤ 7)
    (hcur : snort_mqtt_len header p ≤ data_ptr.length)
    (hdecl : 2 ≤ header.remaining_len) (hsize : 2 ≤ p.data.length) :
    ∃ o, snort_mqtt cs max_msg_len p flow_data = some o ∧ o.ret = 0 ∧ o.events = [] ∧
      o.session.prev_command = header.pkt_type := by
  have hlen : 2 ≤ snort_mqtt_len header p := by
    unfold snort_mqtt_len; split <;> omega
  have htake : 2 ≤ (data_ptr.take (snort_mqtt_len header p)).length := by
    simp only [List.length_take]; omega
  refine ⟨_, snort_mqtt_of_header cs max_msg_len p flow_data header data_ptr hh hcur, ?_⟩
  generalize data_ptr.take (snort_mqtt_len header p) = buf at htake
  match buf, htake with
  | b0 :: b1 :: rest, _ =>
    obtain ⟨t, b0', b1', b2', b3', rl⟩ := header
    obtain ⟨ht1, ht2⟩ := htype
    simp only at ht1 ht2
    have e := pubresponse_parse_two cs b0 b1 rest
    unfold snort_mqtt_switch
    interval_cases t
    all_goals
      simp only [CMD_RESERVED, CMD_CONNECT, CMD_CONNACK, CMD_PUBLISH, CMD_PUBACK, CMD_PUBREC,
        CMD_PUBREL, CMD_PUBCOMP]
      simp only [Nat.reduceEqDiff, OfNat.ofNat_ne_zero, Nat.succ_ne_self, if_true, if_false,
        or_true, true_or, or_false, false_or, one_ne_zero, e]
      exact ⟨rfl, rfl, rfl⟩

/-- The extent of the message-id defect: the stored message id is the big-endian value
of the two bytes when plain `char` is unsigned or the second byte is below `80`. -/
theorem pubresponse_parse_message_id (cs : Bool) (b0 b1 : Byte) (rest : List Byte)
    (h : cs = false ∨ b1.val < 128) :
    MQTTPubResponseCommand.parse cs {} ⟨b0 :: b1 :: rest, 0, false⟩
      = (0, { message_id := some (256 * b0.val + b1.val) }) := by
  rw [pubresponse_parse_two, u16_of_chars_eq cs b0 b1 h, Nat.mul_comm]

/-- C22 (code defect): with a signed plain `char`, the PUBACK body `00 80` gives the
message id 65408 (`ff80`), not `256 * 0 + 128`: the second byte is sign-extended before
the bitwise or.  With an unsigned plain `char` the same body gives 128. -/
theorem C22_message_id_sign_extended :
    MQTTPubResponseCommand.parse true {} ⟨[0x00, 0x80], 0, false⟩
      = (0, { message_id := some 65408 }) ∧
    MQTTPubResponseCommand.parse false {} ⟨[0x00, 0x80], 0, false⟩
      = (0, { message_id := some 128 }) ∧
    256 * (0x00 : Byte).val + (0x80 : Byte).val = 128 ∧ (65408 : Nat) ≠ 128 := by
  decide

/-- The switch of `snort_mqtt` has no label for UNSUBACK: a packet of type 11 takes the
`default:` label, which queues the UnknownType event and leaves the session alone. -/
theorem snort_mqtt_switch_unsuback (cs : Bool) (header : MQTTFixedHeader)
    (session : MQTTData) (stream : IStream) (h : header.pkt_type = CMD_UNSUBACK) :
    snort_mqtt_switch cs header session stream = ⟨session, [MQTT_UNKNOWN_MSG_TYPE], 0⟩ := by
  unfold snort_mqtt_switch
  simp [h, CMD_RESERVED, CMD_CONNECT, CMD_CONNACK, CMD_PUBLISH, CMD_PUBACK, CMD_PUBREC,
    CMD_PUBREL, CMD_PUBCOMP, CMD_SUBSCRIBE, CMD_SUBACK, CMD_UNSUBSCRIBE, CMD_UNSUBACK,
    CMD_PINGREQ, CMD_PINGRESP, CMD_DISCONNECT]

/-- C23 (code defect): the UNSUBACK packet `b0 02 00 01` (message id 1) is not decoded.
`snort_mqtt` queues the UnknownType event and `current_command` stays what it was (null
on a new session, the CONNACK object on a session that holds one), although
`MQTTUnsubackCommand::parse` decodes the body `00 01` to message id 1. -/
theorem C23_unsuback_is_not_decoded :
    (snort_mqtt true 0 { data := [0xb0, 0x02, 0x00, 0x01] } none).map
        (fun o => (o.events, o.session.current_command, o.ret))
      = some ([MQTT_UNKNOWN_MSG_TYPE], none, 0) ∧
    (snort_mqtt true 0 { data := [0xb0, 0x02, 0x00, 0x01] }
        (some { current_command := some ⟨{ pkt_type := CMD_CONNACK }, .Connack {}⟩ })).map
        (fun o => (o.events, o.session.current_command, o.ret))
      = some ([MQTT_UNKNOWN_MSG_TYPE],
          some ⟨{ pkt_type := CMD_CONNACK }, .Connack {}⟩, 0) ∧
    (MQTT_parse_fixed_header [0xb0, 0x02, 0x00, 0x01] 0).map (fun r => r.1.pkt_type)
      = some CMD_UNSUBACK ∧
    MQTTUnsubackCommand.parse true {} ⟨[0x00, 0x01], 0, false⟩
      = (0, { message_id := some 1 }) := by
  decide

/-! ## Encoded strings -/

/-- The length that the decoders take from two length bytes is never below their
big-endian value. -/
theorem u16_of_chars_ge (cs : Bool) (hi lo : Byte) :
    hi.val * 256 + lo.val ≤ u16_of_chars cs hi lo := by
  have hhi := hi.isLt
  by_cases h : cs = false ∨ lo.val < 128
  · rw [u16_of_chars_eq cs hi lo h]
  · have hcs : cs = true := by
      cases cs
      · exact absurd (Or.inl rfl) h
      · rfl
    subst hcs
    rw [u16_of_chars_signed hi lo (by omega)]
    omega

/-- An encoded string is read back when plain `char` is unsigned or the low byte of its
length is below `80`: the decoder yields the string and takes `2 + L` bytes. -/
theorem encoded_string_parse (cs : Bool) (s rest str : List Byte) (pos : Nat)
    (hlen : s.length < 65536) (hcs : cs = false ∨ s.length % 256 < 128) :
    parse_enc_string cs ⟨encoded_string s ++ rest, pos, false⟩ str
      = (true, ⟨rest, pos + 2 + s.length, false⟩, s) :=
  parse_enc_string_ok cs ⟨s.length / 256 % 256, Nat.mod_lt _ (by decide)⟩
    ⟨s.length % 256, Nat.mod_lt _ (by decide)⟩ s rest str pos
    (by
      rw [u16_of_chars_eq cs _ _ hcs]
      show s.length / 256 % 256 * 256 + s.length % 256 = s.length
      omega)

/-- An encoded string of which fewer than `2 + L` bytes are there is not read, whatever
the signedness of plain `char`. -/
theorem encoded_string_parse_short (cs : Bool) (s str buf : List Byte) (pos : Nat)
    (hlen : s.length < 65536) (hbuf : buf.length < 2 + s.length)
    (hpre : buf = (encoded_string s).take buf.length) :
    (parse_enc_string cs ⟨buf, pos, false⟩ str).1 = false := by
  by_cases h2 : buf.length < 2
  · exact (parse_enc_string_short cs ⟨buf, pos, false⟩ str rfl h2).1
  · obtain ⟨k, hk⟩ : ∃ k, buf.length = k + 2 := ⟨buf.length - 2, by omega⟩
    rw [hk] at hpre
    simp only [encoded_string, List.take_succ_cons] at hpre
    rw [hpre]
    refine (parse_enc_string_short_data cs _ _ (s.take k) str pos ?_).1
    refine Nat.lt_of_lt_of_le ?_ (u16_of_chars_ge cs _ _)
    show (s.take k).length < s.length / 256 % 256 * 256 + s.length % 256
    rw [List.length_take]
    omega

/-- C24 (code defect): with a signed plain `char` an encoded string of 128 bytes (length
prefix `00 80`) is not read back.  The decoder takes the length for 65408: on the 130
bytes of the encoded string `parse_enc_string` and `parse_topic` fail, and on an input
that goes on for 65408 bytes they succeed with 65408 bytes and take 65410 bytes.  With
an unsigned plain `char` the same string is read. -/
theorem C24_encoded_string_of_128_bytes :
    (parse_enc_string true ⟨encoded_string (List.replicate 128 0x61), 0, false⟩ []).1 = false ∧
    (parse_topic true ⟨encoded_string (List.replicate 128 0x61), 0, false⟩ []).1 = false ∧
    parse_enc_string true
        ⟨encoded_string (List.replicate 128 0x61) ++ List.replicate 65280 0x62, 0, false⟩ []
      = (true, ⟨[], 65410, false⟩, List.replicate 128 0x61 ++ List.replicate 65280 0x62) ∧
    parse_enc_string false ⟨encoded_string (List.replicate 128 0x61), 0, false⟩ []
      = (true, ⟨[], 130, false⟩, List.replicate 128 0x61) := by
  have e : encoded_string (List.replicate 128 (0x61 : Byte))
      = 0x00 :: 0x80 :: List.replicate 128 0x61 := by
    simp only [encoded_string, List.length_replicate]
    rfl
  have hfail := (parse_enc_string_short_data true 0x00 0x80 (List.replicate 128 0x61) [] 0
    (by
      rw [u16_of_chars_signed 0x00 0x80 (by decide), List.length_replicate]
      decide)).1
  refine ⟨?_, ?_, ?_, ?_⟩
  · rw [e]
    exact hfail
  · rw [parse_topic_eq, e]
    exact hfail
  · rw [e]
    have h := parse_enc_string_ok true 0x00 0x80
      (List.replicate 128 0x61 ++ List.replicate 65280 0x62) [] [] 0
      (by
        rw [u16_of_chars_signed 0x00 0x80 (by decide), List.length_append,
          List.length_replicate, List.length_replicate]
        decide)
    rw [List.append_nil] at h
    rw [List.cons_append, List.cons_append, h]
    simp only [List.length_append, List.length_replicate]
  · have h := encoded_string_parse false (List.replicate 128 0x61) [] [] 0
      (by rw [List.length_replicate]; decide) (Or.inl rfl)
    rw [List.append_nil] at h
    rw [h]
    simp only [List.length_replicate]

/-! ## The exporter -/

/-- The conditional tail of the CONNECT decoder does not touch the flags or the client
id. -/
theorem connect_parse_optional_flags (cs : Bool) (c : MQTTConnectCommand) (st : IStream) :
    (MQTTConnectCommand.parse_optional cs c st).username_flag = c.username_flag ∧
    (MQTTConnectCommand.parse_optional cs c st).password_flag = c.password_flag ∧
    (MQTTConnectCommand.parse_optional cs c st).will_flag = c.will_flag ∧
    (MQTTConnectCommand.parse_optional cs c st).client_id = c.client_id := by
  unfold MQTTConnectCommand.parse_optional
  by_cases hw : c.will_flag = some true <;> by_cases hu : c.username_flag = some true <;>
    by_cases hp : c.password_flag = some true <;> simp [hw, hu, hp]

/-- A CONNECT decode that returns `0` has read a flags byte and assigned the three flags
that gate the exporter from its bits 7, 6 and 2. -/
theorem connect_parse_success_flags (cs : Bool) (c0 c : MQTTConnectCommand)
    (stream : IStream) (h : MQTTConnectCommand.parse cs c0 stream = (0, c)) :
    ∃ flags : Byte,
      c.username_flag = some (flags.val.testBit 7) ∧
      c.password_flag = some (flags.val.testBit 6) ∧
      c.will_flag = some (flags.val.testBit 2) := by
  have hne : ∀ (k : Nat) (x y : MQTTConnectCommand), k ≠ 0 → (k, x) = (0, y) → False :=
    fun k x y hk e => hk (congrArg Prod.fst e)
  unfold MQTTConnectCommand.parse at h
  rcases hpe : parse_enc_string cs stream c0.protocol_string with ⟨ok, st1, ps⟩
  rw [hpe] at h
  simp only at h
  split_ifs at h with h1 h2
  · exact (hne _ _ _ (by decide) h).elim
  · exact (hne _ _ _ (by decide) h).elim
  · rcases hg1 : st1.get with ⟨v, st2⟩
    rw [hg1] at h
    cases v with
    | none => exact (hne _ _ _ (by decide) h).elim
    | some v =>
      simp only at h
      split_ifs at h with h3
      · exact (hne _ _ _ (by decide) h).elim
      · rcases hg2 : st2.get with ⟨f, st3⟩
        rw [hg2] at h
        cases f with
        | none => exact (hne _ _ _ (by decide) h).elim
        | some f =>
          simp only at h
          split_ifs at h with h4 h5 h6
          · exact (hne _ _ _ (by decide) h).elim
          · exact (hne _ _ _ (by decide) h).elim
          · exact (hne _ _ _ (by decide) h).elim
          · have hc := congrArg Prod.snd h
            simp only at hc
            obtain ⟨e1, e2, e3, _⟩ := connect_parse_optional_flags cs
              { protocol_string := ps, protocol_version := some v.val,
                username_flag := some (decide (f.val &&& 128 ≠ 0)),
                password_flag := some (decide (f.val &&& 64 ≠ 0)),
                will_retain := some (decide (f.val &&& 16 ≠ 0)),
                will_qos := some (f.val &&& 24),
                will_flag := some (decide (f.val &&& 4 ≠ 0)),
                clean_session := some (decide (f.val &&& 2 ≠ 0)),
                keepalive := some (u16_of_read cs (st3.read 2).1),
                client_id := (parse_enc_string cs (st3.read 2).2 c0.client_id).2.2,
                will_topic := c0.will_topic, will_message := c0.will_message,
                username := c0.username, password := c0.password }
              (parse_enc_string cs (st3.read 2).2 c0.client_id).2.1
            rw [hc] at e1 e2 e3
            exact ⟨f, by rw [e1, Byte.bit7], by rw [e2, Byte.bit6], by rw [e3, Byte.bit2]⟩

/-- The rule option on a packet with payload, whose flow has session data with a current
command, is the `get_buffer` of that command. -/
theorem eval_current_command (buf : MqttOptBuffer) (dsize : Nat) (session : MQTTData)
    (cmd : MQTTCommand) (hcur : session.current_command = some cmd) (hd : dsize ≠ 0) :
    MqttIpsOption.eval buf true dsize (some (some session)) = cmd.get_buffer buf := by
  unfold MqttIpsOption.eval
  simp [hcur, hd]

/-- C25: when the session's current command is a CONNECT that `MQTTConnectCommand::parse`
has decoded with result `0`, the three flags are assigned from the bits 7, 6 and 2 of a
flags byte, and the rule options return the client id always, the password exactly when
the password flag is set, the username exactly when the username flag is set, and the
will topic and the will message exactly when the will flag is set. -/
theorem C25_connect_exporter_gating (cs : Bool) (stream : IStream) (c : MQTTConnectCommand)
    (header : MQTTFixedHeader) (session : MQTTData) (dsize : Nat)
    (hparse : MQTTConnectCommand.parse cs {} stream = (0, c))
    (hcur : session.current_command = some ⟨header, .Connect c⟩) (hd : dsize ≠ 0) :
    ∃ flags : Byte,
      c.username_flag = some (flags.val.testBit 7) ∧
      c.password_flag = some (flags.val.testBit 6) ∧
      c.will_flag = some (flags.val.testBit 2) ∧
      MqttIpsOption.eval .CLIENT_ID true dsize (some (some session))
        = .buffer c.client_id c.client_id.length ∧
      MqttIpsOption.eval .PASSWORD true dsize (some (some session))
        = (if flags.val.testBit 6 then .buffer c.password c.password.length
           else .no_buffer) ∧
      MqttIpsOption.eval .USERNAME true dsize (some (some session))
        = (if flags.val.testBit 7 then .buffer c.username c.username.length
           else .no_buffer) ∧
      MqttIpsOption.eval .WILL_TOPIC true dsize (some (some session))
        = (if flags.val.testBit 2 then .buffer c.will_topic c.will_topic.length
           else .no_buffer) ∧
      MqttIpsOption.eval .WILL_MESSAGE true dsize (some (some session))
        = (if flags.val.testBit 2 then .buffer c.will_message c.will_message.length
           else .no_buffer) := by
  obtain ⟨flags, hu, hp, hw⟩ := connect_parse_success_flags cs {} c stream hparse
  refine ⟨flags, hu, hp, hw, ?_, ?_, ?_, ?_, ?_⟩
  · rw [eval_current_command _ dsize session _ hcur hd]
    rfl
  · rw [eval_current_command _ dsize session _ hcur hd]
    show GetBuffer.gated c.password_flag c.password = _
    rw [hp]
    cases flags.val.testBit 6 <;> rfl
  · rw [eval_current_command _ dsize session _ hcur hd]
    show GetBuffer.gated c.username_flag c.username = _
    rw [hu]
    cases flags.val.testBit 7 <;> rfl
  · rw [eval_current_command _ dsize session _ hcur hd]
    show GetBuffer.gated c.will_flag c.will_topic = _
    rw [hw]
    cases flags.val.testBit 2 <;> rfl
  · rw [eval_current_command _ dsize session _ hcur hd]
    show GetBuffer.gated c.will_flag c.will_message = _
    rw [hw]
    cases flags.val.testBit 2 <;> rfl

/-- Witness for C25: the CONNECT with flags `c2` (username and password, no will),
client id `abc`, username `u` and password `p`. -/
theorem C25_connect_exporter_gating_witness :
    ∃ flags : Byte,
      (some true : Option Bool) = some (flags.val.testBit 7) ∧
      (some true : Option Bool) = some (flags.val.testBit 6) ∧
      (some false : Option Bool) = some (flags.val.testBit 2) ∧
      MqttIpsOption.eval .CLIENT_ID true 23 (some (some
          { current_command := some ⟨{ pkt_type := CMD_CONNECT, remaining_len := 21 },
              .Connect { protocol_string := MQTT_literal, protocol_version := some 4
                         username_flag := some true, password_flag := some true
                         will_retain := some false, will_qos := some 0
                         will_flag := some false, clean_session := some true
                         keepalive := some 60, client_id := [0x61, 0x62, 0x63]
                         username := [0x75], password := [0x70] }⟩ }))
        = .buffer [0x61, 0x62, 0x63] 3 ∧
      MqttIpsOption.eval .PASSWORD true 23 (some (some
          { current_command := some ⟨{ pkt_type := CMD_CONNECT, remaining_len := 21 },
              .Connect { protocol_string := MQTT_literal, protocol_version := some 4
                         username_flag := some true, password_flag := some true
                         will_retain := some false, will_qos := some 0
                         will_flag := some false, clean_session := some true
                         keepalive := some 60, client_id := [0x61, 0x62, 0x63]
                         username := [0x75], password := [0x70] }⟩ }))
        = (if flags.val.testBit 6 then .buffer [0x70] 1 else .no_buffer) ∧
      MqttIpsOption.eval .USERNAME true 23 (some (some
          { current_command := some ⟨{ pkt_type := CMD_CONNECT, remaining_len := 21 },
              .Connect { protocol_string := MQTT_literal, protocol_version := some 4
                         username_flag := some true, password_flag := some true
                         will_retain := some false, will_qos := some 0
                         will_flag := some false, clean_session := some true
                         keepalive := some 60, client_id := [0x61, 0x62, 0x63]
                         username := [0x75], password := [0x70] }⟩ }))
        = (if flags.val.testBit 7 then .buffer [0x75] 1 else .no_buffer) ∧
      MqttIpsOption.eval .WILL_TOPIC true 23 (some (some
          { current_command := some ⟨{ pkt_type := CMD_CONNECT, remaining_len := 21 },
              .Connect { protocol_string := MQTT_literal, protocol_version := some 4
                         username_flag := some true, password_flag := some true
                         will_retain := some false, will_qos := some 0
                         will_flag := some false, clean_session := some true
                         keepalive := some 60, client_id := [0x61, 0x62, 0x63]
                         username := [0x75], password := [0x70] }⟩ }))
        = (if flags.val.testBit 2 then .buffer [] 0 else .no_buffer) ∧
      MqttIpsOption.eval .WILL_MESSAGE true 23 (some (some
          { current_command := some ⟨{ pkt_type := CMD_CONNECT, remaining_len := 21 },
              .Connect { protocol_string := MQTT_literal, protocol_version := some 4
                         username_flag := some true, password_flag := some true
                         will_retain := some false, will_qos := some 0
                         will_flag := some false, clean_session := some true
                         keepalive := some 60, client_id := [0x61, 0x62, 0x63]
                         username := [0x75], password := [0x70] }⟩ }))
        = (if flags.val.testBit 2 then .buffer [] 0 else .no_buffer) :=
  C25_connect_exporter_gating true
    ⟨[0x00, 0x04, 0x4d, 0x51, 0x54, 0x54, 0x04, 0xc2, 0x00, 0x3c, 0x00, 0x03, 0x61, 0x62,
      0x63, 0x00, 0x01, 0x75, 0x00, 0x01, 0x70], 0, false⟩
    { protocol_string := MQTT_literal, protocol_version := some 4
      username_flag := some true, password_flag := some true
      will_retain := some false, will_qos := some 0
      will_flag := some false, clean_session := some true
      keepalive := some 60, client_id := [0x61, 0x62, 0x63]
      username := [0x75], password := [0x70] }
    { pkt_type := CMD_CONNECT, remaining_len := 21 }
    { current_command := some ⟨{ pkt_type := CMD_CONNECT, remaining_len := 21 },
        .Connect { protocol_string := MQTT_literal, protocol_version := some 4
                   username_flag := some true, password_flag := some true
                   will_retain := some false, will_qos := some 0
                   will_flag := some false, clean_session := some true
                   keepalive := some 60, client_id := [0x61, 0x62, 0x63]
                   username := [0x75], password := [0x70] }⟩ }
    23 (by decide) rfl (by decide)

/-- Where the switch selects no decode routine it ends with `ret = 0`. -/
theorem snort_mqtt_switch_no_decode (cs : Bool) (header : MQTTFixedHeader)
    (session : MQTTData) (stream : IStream)
    (h : snort_mqtt_decode cs header session.qos stream = none) :
    (snort_mqtt_switch cs header session stream).ret = 0 := by
  obtain ⟨t, b0, b1, b2, b3, rl⟩ := header
  unfold snort_mqtt_decode at h
  unfold snort_mqtt_switch
  simp only [CMD_RESERVED, CMD_CONNECT, CMD_CONNACK, CMD_PUBLISH, CMD_PUBACK, CMD_PUBREC,
    CMD_PUBREL, CMD_PUBCOMP, CMD_SUBSCRIBE, CMD_SUBACK, CMD_UNSUBSCRIBE, CMD_PINGREQ,
    CMD_PINGRESP, CMD_DISCONNECT] at h ⊢
  by_cases h15 : t < 15
  · interval_cases t <;> simp at h ⊢
  · have : ¬ (t = 0) ∧ ¬ (t = 1) ∧ ¬ (t = 2) ∧ ¬ (t = 3) ∧ ¬ (t = 4) ∧ ¬ (t = 5) ∧
        ¬ (t = 6) ∧ ¬ (t = 7) ∧ ¬ (t = 8) ∧ ¬ (t = 9) ∧ ¬ (t = 10) ∧ ¬ (t = 12) ∧
        ¬ (t = 13) ∧ ¬ (t = 14) := by omega
    simp [this]

/-- C27 (counterexample): after the PUBLISH of topic `a/b` has been decoded, the PUBLISH
`30 05 00 03 61 2f 2a` (topic `a/*`) fails with ProtocolViolation, and the topic option
then returns `a/*`, not `a/b`. -/
theorem C27_failed_publish_exports_its_topic :
    ∃ o1 o2,
      snort_mqtt true 0
        { data := [0x30, 0x0a, 0x00, 0x03, 0x61, 0x2f, 0x62, 0x68, 0x65, 0x6c, 0x6c, 0x6f] }
        none = some o1 ∧
      o1.ret = 0 ∧
      MqttIpsOption.eval .TOPIC true 12 (some (some o1.session))
        = .buffer [0x61, 0x2f, 0x62] 3 ∧
      snort_mqtt true 0 { data := [0x30, 0x05, 0x00, 0x03, 0x61, 0x2f, 0x2a] }
        (some o1.session) = some o2 ∧
      o2.ret = MQTT_PROTO_VIOLATION ∧
      MqttIpsOption.eval .TOPIC true 7 (some (some o2.session))
        = .buffer [0x61, 0x2f, 0x2a] 3 ∧
      MqttIpsOption.eval .TOPIC true 7 (some (some o2.session))
        ≠ MqttIpsOption.eval .TOPIC true 12 (some (some o1.session)) := by
  refine ⟨_, _, rfl, ?_, ?_, rfl, ?_, ?_, ?_⟩ <;> decide

/-- C27 (amended): after a call of `snort_mqtt` whose decode failed (`ret` is not 0), the
rule option of every field name returns, on a packet with payload, what `get_buffer`
yields on the command object that the failed decode routine has left, which carries the
header of the failed packet; that is no buffer at all when the failed packet is neither
a CONNECT nor a PUBLISH. -/
theorem C27_failed_decode_exports (cs : Bool) (max_msg_len : Nat) (p : Packet)
    (flow_data : Option MQTTData) (o : MqttOutcome) (buf : MqttOptBuffer) (dsize : Nat)
    (h : snort_mqtt cs max_msg_len p flow_data = some o) (hfail : o.ret ≠ 0)
    (hd : dsize ≠ 0) :
    ∃ header data_ptr body,
      MQTT_parse_fixed_header (p.data ++ p.beyond) max_msg_len = some (header, data_ptr) ∧
      snort_mqtt_decode cs header (snort_mqtt_session p flow_data).qos
          ⟨data_ptr.take (snort_mqtt_len header p), 0, false⟩ = some (o.ret, body) ∧
      MqttIpsOption.eval buf true dsize (some (some o.session))
        = (⟨header, body⟩ : MQTTCommand).get_buffer buf ∧
      (header.pkt_type ≠ CMD_CONNECT → header.pkt_type ≠ CMD_PUBLISH →
        MqttIpsOption.eval buf true dsize (some (some o.session)) = .no_buffer) := by
  obtain ⟨header, data_ptr, hh, _, ho⟩ := snort_mqtt_eq_some cs max_msg_len p flow_data o h
  subst ho
  rw [snort_mqtt_finish_ret] at hfail ⊢
  cases hdec : snort_mqtt_decode cs header (snort_mqtt_session p flow_data).qos
      ⟨data_ptr.take (snort_mqtt_len header p), 0, false⟩ with
  | none => exact absurd (snort_mqtt_switch_no_decode cs header _ _ hdec) hfail
  | some rb =>
    obtain ⟨ret, body⟩ := rb
    obtain ⟨r1, r2, _⟩ := snort_mqtt_switch_decode cs header _ _ ret body hdec
    have hcur : (snort_mqtt_finish header (snort_mqtt_switch cs header
        (snort_mqtt_session p flow_data)
        ⟨data_ptr.take (snort_mqtt_len header p), 0, false⟩)).session.current_command
        = some ⟨header, body⟩ := by
      unfold snort_mqtt_finish
      rw [if_pos hfail]
      split_ifs <;> exact r2
    have hev := eval_current_command buf dsize _ _ hcur hd
    refine ⟨header, data_ptr, body, hh, by rw [r1]; exact hdec, hev, fun hc hp => ?_⟩
    rw [hev]
    unfold snort_mqtt_decode at hdec
    rw [if_neg hc] at hdec
    split_ifs at hdec <;> cases hdec <;> rfl

/-- Witness for C27 (amended): the failing PUBLISH of topic `a/*` on the session that
holds the decoded PUBLISH of topic `a/b`. -/
theorem C27_failed_decode_exports_witness :
    ∃ header data_ptr body,
      MQTT_parse_fixed_header
          (([0x30, 0x05, 0x00, 0x03, 0x61, 0x2f, 0x2a] : List Byte) ++ []) 0
        = some (header, data_ptr) ∧
      snort_mqtt_decode true header
          (snort_mqtt_session { data := [0x30, 0x05, 0x00, 0x03, 0x61, 0x2f, 0x2a] }
            (some { prev_command := CMD_PUBLISH
                    current_command := some ⟨{ pkt_type := CMD_PUBLISH, remaining_len := 10 },
                      .Publish { topic := [0x61, 0x2f, 0x62]
                                 message := some [0x68, 0x65, 0x6c, 0x6c, 0x6f]
                                 msg_len := some 5 }⟩ })).qos
          ⟨data_ptr.take (snort_mqtt_len header
            { data := [0x30, 0x05, 0x00, 0x03, 0x61, 0x2f, 0x2a] }), 0, false⟩
        = some (MQTT_PROTO_VIOLATION, body) ∧
      MqttIpsOption.eval .TOPIC true 7 (some (some
          { prev_command := CMD_PUBLISH
            current_command := some ⟨{ pkt_type := CMD_PUBLISH, remaining_len := 5 },
              .Publish { topic := [0x61, 0x2f, 0x2a] }⟩ }))
        = (⟨header, body⟩ : MQTTCommand).get_buffer .TOPIC ∧
      (header.pkt_type ≠ CMD_CONNECT → header.pkt_type ≠ CMD_PUBLISH →
        MqttIpsOption.eval .TOPIC true 7 (some (some
          { prev_command := CMD_PUBLISH
            current_command := some ⟨{ pkt_type := CMD_PUBLISH, remaining_len := 5 },
              .Publish { topic := [0x61, 0x2f, 0x2a] }⟩ })) = .no_buffer) :=
  C27_failed_decode_exports true 0 { data := [0x30, 0x05, 0x00, 0x03, 0x61, 0x2f, 0x2a] }
    (some { prev_command := CMD_PUBLISH
            current_command := some ⟨{ pkt_type := CMD_PUBLISH, remaining_len := 10 },
              .Publish { topic := [0x61, 0x2f, 0x62]
                         message := some [0x68, 0x65, 0x6c, 0x6c, 0x6f]
                         msg_len := some 5 }⟩ })
    ⟨{ prev_command := CMD_PUBLISH
       current_command := some ⟨{ pkt_type := CMD_PUBLISH, remaining_len := 5 },
         .Publish { topic := [0x61, 0x2f, 0x2a] }⟩ },
      [MQTT_PROTO_VIOLATION], MQTT_PROTO_VIOLATION⟩
    .TOPIC 7 (by decide) (by decide) (by decide)

/-! ## Invariants of the splitter -/

/-- A property of the result of the scan loop that holds at each of its four exits holds
for every run: `P` is a property of the splitter members that the iterations outside
`VarData` keep, `R` the property of the result. -/
theorem scanL_induction (P : MqttSplitter → Prop) (R : ScanResult → Prop)
    (hstep : ∀ b n s s1, P s → headStep b n s = .inr s1 → P s1)
    (hret : ∀ b n s r, P s → headStep b n s = .inl r → R r)
    (hflush : ∀ n rdl, P ⟨MQTT_PAF_VAR_DATA_STATE, rdl⟩ →
      R ⟨FLUSH, some n, ⟨MQTT_PAF_FIX_HEAD_STATE, 0⟩⟩)
    (hvar : ∀ rdl k, P ⟨MQTT_PAF_VAR_DATA_STATE, rdl⟩ →
      R ⟨SEARCH, none, ⟨MQTT_PAF_VAR_DATA_STATE, rdl - k⟩⟩)
    (hend : ∀ s, P s → R ⟨SEARCH, none, s⟩) :
    ∀ (data : List Byte) (n : Nat) (s : MqttSplitter), P s → R (scanL data n s) := by
  intro data
  induction data with
  | nil => intro n s hs; exact hend s hs
  | cons x a ih =>
    intro n s hP
    by_cases hs : s.mqtt_state = MQTT_PAF_VAR_DATA_STATE
    · obtain ⟨st, rdl⟩ := s
      simp only at hs
      subst hs
      rw [scanL_cons_var]
      split
      · exact hflush _ _ hP
      · exact hvar _ _ hP
    · rw [scanL_cons_head x a n s hs]
      cases hstep' : headStep x n s with
      | inl r => exact hret x n s r hP hstep'
      | inr s1 => exact ih (n + 1) s1 (hstep x n s s1 hP hstep')

/-- One call of `scan` keeps the reset invariant, whatever it returns. -/
theorem scan_reset_invariant (data : List Byte) (s : MqttSplitter)
    (h : s.mqtt_state = MQTT_PAF_FIX_HEAD_STATE → s.remain_data_len = 0) :
    (scan data s).splitter.mqtt_state = MQTT_PAF_FIX_HEAD_STATE →
      (scan data s).splitter.remain_data_len = 0 := by
  rw [scan_eq_scanL]
  refine scanL_induction
    (fun s => s.mqtt_state = MQTT_PAF_FIX_HEAD_STATE → s.remain_data_len = 0)
    (fun r => r.splitter.mqtt_state = MQTT_PAF_FIX_HEAD_STATE → r.splitter.remain_data_len = 0)
    ?_ ?_ ?_ ?_ ?_ data 0 s h
  · intro b n s s1 hP hstep
    obtain ⟨st, rdl⟩ := s
    cases st <;> simp only [headStep] at hstep
    case MQTT_PAF_VAR_DATA_STATE =>
      cases hstep
      exact hP
    all_goals
      split_ifs at hstep <;> cases hstep <;> exact fun e => MqttPafState.noConfusion e
  · intro b n s r hP hstep
    rcases headStep_inl_shape b n s r hstep with ⟨hab, _⟩ | ⟨_, _, hsp, _⟩
    · obtain ⟨st, rdl⟩ := s
      cases st <;> simp only [headStep] at hstep
      case MQTT_PAF_VAR_DATA_STATE => cases hstep
      case MQTT_PAF_FIX_HEAD_STATE =>
        split_ifs at hstep
        cases hstep
        exact hP
      all_goals
        split_ifs at hstep <;> cases hstep <;>
          first
          | exact fun e => MqttPafState.noConfusion e
          | exact absurd hab (fun e => Status.noConfusion e)
    · rw [hsp]
      exact fun _ => rfl
  · intro n rdl _ _
    rfl
  · intro rdl k _ e
    exact MqttPafState.noConfusion e
  · intro s hP
    exact hP

/-- One call of `scan` that does not abort keeps the bound of `remain_data_len` for the
state it leaves. -/
theorem scan_length_invariant (data : List Byte) (s : MqttSplitter)
    (h : s.remain_data_len ≤ remain_data_len_bound s.mqtt_state)
    (hna : (scan data s).status ≠ ABORT) :
    (scan data s).splitter.remain_data_len
      ≤ remain_data_len_bound (scan data s).splitter.mqtt_state := by
  rw [scan_eq_scanL] at hna ⊢
  refine scanL_induction
    (fun s => s.remain_data_len ≤ remain_data_len_bound s.mqtt_state)
    (fun r => r.status ≠ ABORT →
      r.splitter.remain_data_len ≤ remain_data_len_bound r.splitter.mqtt_state)
    ?_ ?_ ?_ ?_ ?_ data 0 s h hna
  · intro b n s s1 hP hstep
    have hb : b.val &&& 127 ≤ 127 := by
      rw [Byte.and_127]
      omega
    obtain ⟨st, rdl⟩ := s
    cases st <;> simp only [headStep] at hstep <;> simp only [remain_data_len_bound] at hP
    case MQTT_PAF_VAR_DATA_STATE =>
      cases hstep
      exact hP
    all_goals
      split_ifs at hstep <;> cases hstep <;> simp only [remain_data_len_bound] <;> omega
  · intro b n s r hP hstep hna
    rcases headStep_inl_shape b n s r hstep with ⟨hab, _⟩ | ⟨_, _, hsp, _⟩
    · exact absurd hab hna
    · rw [hsp]
      exact Nat.le_refl _
  · intro n rdl _ _
    exact Nat.le_refl _
  · intro rdl k hP _
    exact Nat.le_trans (Nat.sub_le _ _) hP
  · intro s hP _
    exact hP

/-- The bound of `remain_data_len` is at most 268435455 in every state. -/
theorem remain_data_len_bound_le (st : MqttPafState) :
    remain_data_len_bound st ≤ 268435455 := by
  cases st <;> decide

/-- The reset invariant holds after every sequence of `scan` calls from a state in which
it holds. -/
theorem scan_calls_reset_invariant : ∀ (chunks : List (List Byte)) (s : MqttSplitter),
    (s.mqtt_state = MQTT_PAF_FIX_HEAD_STATE → s.remain_data_len = 0) →
    (scan_calls chunks s).mqtt_state = MQTT_PAF_FIX_HEAD_STATE →
      (scan_calls chunks s).remain_data_len = 0
  | [], _, h => h
  | c :: cs, s, h => scan_calls_reset_invariant cs _ (scan_reset_invariant c s h)

/-- The bound of `remain_data_len` holds after every sequence of `scan` calls without
abort from a state in which it holds. -/
theorem scan_calls_length_invariant : ∀ (chunks : List (List Byte)) (s s1 : MqttSplitter),
    s.remain_data_len ≤ remain_data_len_bound s.mqtt_state →
    scan_calls_no_abort chunks s = some s1 →
    s1.remain_data_len ≤ remain_data_len_bound s1.mqtt_state
  | [], s, s1, h, e => by
    cases e
    exact h
  | c :: cs, s, s1, h, e => by
    rw [scan_calls_no_abort] at e
    split_ifs at e with hab
    exact scan_calls_length_invariant cs _ s1 (scan_length_invariant c s h hab) e

/-- C38: in every state that the splitter reaches from the state of its constructor by
calls of `scan` on any chunks, whatever the calls return, `mqtt_state = FixedHead`
implies `remain_data_len = 0`. -/
theorem C38_splitter_reset_invariant (chunks : List (List Byte)) :
    (scan_calls chunks MqttSplitter.init).mqtt_state = MQTT_PAF_FIX_HEAD_STATE →
      (scan_calls chunks MqttSplitter.init).remain_data_len = 0 :=
  scan_calls_reset_invariant chunks MqttSplitter.init (fun _ => rfl)

/-- Witness for C38: after the PUBLISH `30 02 61 62` delivered in the chunks `30` and
`02 61 62` the splitter is back in `FixedHead` with remaining length 0. -/
theorem C38_splitter_reset_invariant_witness :
    (scan_calls [[0x30], [0x02, 0x61, 0x62]] MqttSplitter.init).mqtt_state
      = MQTT_PAF_FIX_HEAD_STATE ∧
    (scan_calls [[0x30], [0x02, 0x61, 0x62]] MqttSplitter.init).remain_data_len = 0 :=
  ⟨by decide, C38_splitter_reset_invariant [[0x30], [0x02, 0x61, 0x62]] (by decide)⟩

/-- C39: in every state that the splitter reaches from the state of its constructor by
calls of `scan` none of which has returned `ABORT`, `remain_data_len` is at most the
total that the length bytes taken in so far can have, and so at most 268435455; the next
addition of a length byte therefore stays below `2 ^ 32`. -/
theorem C39_splitter_length_bound (chunks : List (List Byte)) (s : MqttSplitter)
    (h : scan_calls_no_abort chunks MqttSplitter.init = some s) :
    s.remain_data_len ≤ remain_data_len_bound s.mqtt_state ∧
    s.remain_data_len ≤ 268435455 ∧
    s.remain_data_len + 127 * 128 * 128 * 128 < 2 ^ 32 := by
  have h1 := scan_calls_length_invariant chunks MqttSplitter.init s (Nat.le_refl _) h
  have h2 := remain_data_len_bound_le s.mqtt_state
  refine ⟨h1, Nat.le_trans h1 h2, ?_⟩
  omega

/-- Witness for C39: the largest length field, `ff ff ff 7f`, delivered in two chunks
behind the first byte of a PUBLISH. -/
theorem C39_splitter_length_bound_witness :
    (268435455 : Nat) ≤ remain_data_len_bound MQTT_PAF_VAR_DATA_STATE ∧
    (268435455 : Nat) ≤ 268435455 ∧
    268435455 + 127 * 128 * 128 * 128 < 2 ^ 32 :=
  C39_splitter_length_bound [[0x30, 0xff], [0xff, 0xff, 0x7f]]
    ⟨MQTT_PAF_VAR_DATA_STATE, 268435455⟩ (by decide)

/-- C37: if `scan` on the chunk `a` from the state `s` returns `SEARCH`, then `scan` on
`a ++ b` from `s` returns the status that `scan` on `b` returns from the state that `a`
has left, with the flush offset larger by the length of `a`, and leaves the same
splitter members. -/
theorem C37_chunk_compositionality (s : MqttSplitter) (a b : List Byte)
    (h : (scan a s).status = SEARCH) :
    (scan (a ++ b) s).status = (scan b (scan a s).splitter).status ∧
    (scan (a ++ b) s).fp = (scan b (scan a s).splitter).fp.map (· + a.length) ∧
    (scan (a ++ b) s).splitter = (scan b (scan a s).splitter).splitter := by
  rw [scan_append, if_pos h]
  exact ⟨rfl, rfl, rfl⟩

/-- Witness for C37: the PUBLISH `30 02 61 62` cut behind its length byte, followed by
the first byte of a next packet. -/
theorem C37_chunk_compositionality_witness :
    (scan ([0x30, 0x02] ++ [0x61, 0x62, 0xc0]) MqttSplitter.init).status
      = (scan [0x61, 0x62, 0xc0] (scan [0x30, 0x02] MqttSplitter.init).splitter).status ∧
    (scan ([0x30, 0x02] ++ [0x61, 0x62, 0xc0]) MqttSplitter.init).fp
      = (scan [0x61, 0x62, 0xc0] (scan [0x30, 0x02] MqttSplitter.init).splitter).fp.map
          (· + ([0x30, 0x02] : List Byte).length) ∧
    (scan ([0x30, 0x02] ++ [0x61, 0x62, 0xc0]) MqttSplitter.init).splitter
      = (scan [0x61, 0x62, 0xc0] (scan [0x30, 0x02] MqttSplitter.init).splitter).splitter :=
  C37_chunk_compositionality MqttSplitter.init [0x30, 0x02] [0x61, 0x62, 0xc0] (by decide)

/-- C40: for every state of the splitter and every chunk, the loop of `scan` ends within
the iterations that `scan` allows it (a larger allowance changes nothing), and the
result is `SEARCH` or `ABORT` with `*fp` not written, or `FLUSH` with a flush offset
that is at most the length of the chunk. -/
theorem C40_flush_offset_inside_chunk (data : List Byte) (s : MqttSplitter) :
    (∀ fuel, data.length ≤ fuel → scanLoop fuel data 0 s = scan data s) ∧
    (((scan data s).status = SEARCH ∧ (scan data s).fp = none) ∨
     ((scan data s).status = ABORT ∧ (scan data s).fp = none) ∨
     ((scan data s).status = FLUSH ∧
       ∃ k, (scan data s).fp = some k ∧ k ≤ data.length)) := by
  constructor
  · intro fuel hf
    rw [scan_eq_scanL]
    exact scanLoop_eq_scanL fuel data 0 s hf
  · rcases scan_shape data s with h | h | ⟨h1, _, k, h3, h4, _⟩
    · exact Or.inl h
    · exact Or.inr (Or.inl h)
    · exact Or.inr (Or.inr ⟨h1, k, h3, h4⟩)

/-- Witness for C40: the PUBLISH `30 02 61 62` followed by one more byte is flushed at
offset 4 of the 5 bytes, also with ten iterations allowed. -/
theorem C40_flush_offset_inside_chunk_witness :
    scanLoop 10 [0x30, 0x02, 0x61, 0x62, 0xc0] 0 MqttSplitter.init
      = scan [0x30, 0x02, 0x61, 0x62, 0xc0] MqttSplitter.init :=
  (C40_flush_offset_inside_chunk [0x30, 0x02, 0x61, 0x62, 0xc0] MqttSplitter.init).1 10
    (by decide)

/-! ## Zero lengths and the two length decoders -/

/-- In `RemLen2`, `RemLen3` and `RemLen4` a last length byte never makes `scan` flush:
the loop goes to `VarData`, also when the running length is 0. -/
theorem headStep_last_length_byte (b : Byte) (n rdl : Nat) (hb : b.val < 128) :
    (∃ l, headStep b n ⟨MQTT_PAF_REM_LEN2_STATE, rdl⟩ = .inr ⟨MQTT_PAF_VAR_DATA_STATE, l⟩) ∧
    (∃ l, headStep b n ⟨MQTT_PAF_REM_LEN3_STATE, rdl⟩ = .inr ⟨MQTT_PAF_VAR_DATA_STATE, l⟩) ∧
    (∃ l, headStep b n ⟨MQTT_PAF_REM_LEN4_STATE, rdl⟩ = .inr ⟨MQTT_PAF_VAR_DATA_STATE, l⟩) := by
  have hc : ¬ (b.val &&& 128) ≠ 0 := fun h => by
    have := (Byte.and_128_ne_zero b).mp h
    omega
  simp only [headStep]
  rw [if_neg hc, if_neg hc, if_neg hc]
  exact ⟨⟨_, rfl⟩, ⟨_, rfl⟩, ⟨_, rfl⟩⟩

/-- C31 (code defect): a length byte `00` that ends the length field at the running
length 0 makes `scan` flush only in `RemLen1`.  On the chunks `c0 80 00`, `c0 80 80 00`
and `c0 80 80 80 00` from the initial state `scan` returns `SEARCH` in `VarData` with
remaining length 0, and flushes only when a call brings a further byte; on `c0 00` it
returns `FLUSH` while it handles the length byte. -/
theorem C31_zero_length_not_flushed :
    scan [0xc0, 0x80, 0x00] MqttSplitter.init
      = ⟨SEARCH, none, ⟨MQTT_PAF_VAR_DATA_STATE, 0⟩⟩ ∧
    scan [0xc0, 0x80, 0x80, 0x00] MqttSplitter.init
      = ⟨SEARCH, none, ⟨MQTT_PAF_VAR_DATA_STATE, 0⟩⟩ ∧
    scan [0xc0, 0x80, 0x80, 0x80, 0x00] MqttSplitter.init
      = ⟨SEARCH, none, ⟨MQTT_PAF_VAR_DATA_STATE, 0⟩⟩ ∧
    scan [0xc0] ⟨MQTT_PAF_VAR_DATA_STATE, 0⟩
      = ⟨FLUSH, some 0, ⟨MQTT_PAF_FIX_HEAD_STATE, 0⟩⟩ ∧
    scan [0xc0, 0x00] MqttSplitter.init
      = ⟨FLUSH, some 1, ⟨MQTT_PAF_FIX_HEAD_STATE, 0⟩⟩ := by
  decide

/-- The two length decoders agree on every length field of one byte. -/
theorem length_decoders_agree_1 (b1 : Byte) (h1 : b1.val < 128) :
    (MQTT_parse_variable_int [b1]).map Prod.fst = some b1.val ∧
    (scan [b1] ⟨MQTT_PAF_REM_LEN1_STATE, 0⟩).splitter.remain_data_len = b1.val := by
  constructor
  · unfold MQTT_parse_variable_int
    rw [parse_variable_int_loop_last b1 [] 1 0 h1]
    simp only [Option.map_some', Option.some.injEq]
    omega
  · rw [scan_eq_scanL]
    have hc : ¬ (b1.val &&& 128) ≠ 0 := fun h => by
      have := (Byte.and_128_ne_zero b1).mp h
      omega
    simp only [scanL, Byte.and_127]
    rw [if_neg hc]
    split_ifs <;> simp only <;> omega

/-- The two length decoders agree on every length field of two bytes. -/
theorem length_decoders_agree_2 (b1 b2 : Byte) (h1 : 128 ≤ b1.val) (h2 : b2.val < 128) :
    (MQTT_parse_variable_int [b1, b2]).map Prod.fst
      = some (b1.val % 128 + b2.val * 128) ∧
    (scan [b1, b2] ⟨MQTT_PAF_REM_LEN1_STATE, 0⟩).splitter.remain_data_len
      = b1.val % 128 + b2.val * 128 := by
  constructor
  · unfold MQTT_parse_variable_int
    rw [parse_variable_int_loop_cont b1 [b2] 1 0 h1,
      parse_variable_int_loop_last b2 [] _ _ h2]
    simp only [Option.map_some', Option.some.injEq]
    omega
  · rw [scan_eq_scanL, scanL_rem1_cont b1 [b2] 0 0 h1, scanL_rem2_last b2 [] 1 _ h2]
    simp only [scanL]
    omega

/-- On a length field of three bytes the header parser drops the third byte, which the
splitter counts with the weight 16384. -/
theorem length_decoders_differ_3 (b1 b2 b3 : Byte) (h1 : 128 ≤ b1.val) (h2 : 128 ≤ b2.val)
    (h3 : b3.val < 128) :
    (MQTT_parse_variable_int [b1, b2, b3]).map Prod.fst
      = some (b1.val % 128 + b2.val % 128 * 128) ∧
    (scan [b1, b2, b3] ⟨MQTT_PAF_REM_LEN1_STATE, 0⟩).splitter.remain_data_len
      = b1.val % 128 + b2.val % 128 * 128 + b3.val * 16384 := by
  constructor
  · unfold MQTT_parse_variable_int
    rw [parse_variable_int_loop_cont b1 [b2, b3] 1 0 h1,
      parse_variable_int_loop_cont b2 [b3] _ _ h2,
      parse_variable_int_loop_last b3 [] _ _ h3]
    have hm : (1 * 128 % 256 * 128 % 256 : Nat) = 0 := by decide
    rw [hm]
    simp only [Option.map_some', Option.some.injEq]
    omega
  · rw [scan_eq_scanL, scanL_rem1_cont b1 [b2, b3] 0 0 h1, scanL_rem2_cont b2 [b3] 1 _ h2,
      scanL_rem3_last b3 [] 2 _ h3]
    simp only [scanL]
    omega

/-- C32 (code defect): on the length field `80 80 01` (16384) the splitter accumulates
16384 and `MQTT_parse_variable_int` returns 0, and so does `MQTT_parse_fixed_header`
with `max_len = 0`; on the four-byte field `ff ff ff 7f` the splitter accumulates
268435455 and the parser returns 16383. -/
theorem C32_length_decoders_disagree :
    (scan [0x80, 0x80, 0x01] ⟨MQTT_PAF_REM_LEN1_STATE, 0⟩).splitter.remain_data_len
      = 16384 ∧
    (MQTT_parse_variable_int [0x80, 0x80, 0x01]).map Prod.fst = some 0 ∧
    (MQTT_parse_fixed_header [0x30, 0x80, 0x80, 0x01] 0).map (fun r => r.1.remaining_len)
      = some 0 ∧
    (scan [0xff, 0xff, 0xff, 0x7f] ⟨MQTT_PAF_REM_LEN1_STATE, 0⟩).splitter.remain_data_len
      = 268435455 ∧
    (MQTT_parse_variable_int [0xff, 0xff, 0xff, 0x7f]).map Prod.fst = some 16383 := by
  decide

/-! ## Events and phase fields of `snort_mqtt` -/

/-- The switch leaves `state`, `session_flags` and `bytes_processed` alone. -/
theorem snort_mqtt_switch_phase (cs : Bool) (header : MQTTFixedHeader) (session : MQTTData)
    (stream : IStream) :
    (snort_mqtt_switch cs header session stream).session.state = session.state ∧
    (snort_mqtt_switch cs header session stream).session.session_flags
      = session.session_flags ∧
    (snort_mqtt_switch cs header session stream).session.bytes_processed
      = session.bytes_processed := by
  unfold snort_mqtt_switch
  by_cases h0 : header.pkt_type = CMD_RESERVED
  · rw [if_pos h0]; exact ⟨rfl, rfl, rfl⟩
  rw [if_neg h0]
  by_cases h1 : header.pkt_type = CMD_CONNECT
  · rw [if_pos h1]; exact ⟨rfl, rfl, rfl⟩
  rw [if_neg h1]
  by_cases h2 : header.pkt_type = CMD_CONNACK
  · rw [if_pos h2]; exact ⟨rfl, rfl, rfl⟩
  rw [if_neg h2]
  by_cases h3 : header.pkt_type = CMD_PUBLISH
  · rw [if_pos h3]; exact ⟨rfl, rfl, rfl⟩
  rw [if_neg h3]
  by_cases h4 : header.pkt_type = CMD_PUBACK ∨ header.pkt_type = CMD_PUBREC
      ∨ header.pkt_type = CMD_PUBREL ∨ header.pkt_type = CMD_PUBCOMP
  · rw [if_pos h4]; exact ⟨rfl, rfl, rfl⟩
  rw [if_neg h4]
  by_cases h5 : header.pkt_type = CMD_SUBSCRIBE
  · rw [if_pos h5]; exact ⟨rfl, rfl, rfl⟩
  rw [if_neg h5]
  by_cases h6 : header.pkt_type = CMD_SUBACK
  · rw [if_pos h6]; exact ⟨rfl, rfl, rfl⟩
  rw [if_neg h6]
  by_cases h7 : header.pkt_type = CMD_UNSUBSCRIBE
  · rw [if_pos h7]; exact ⟨rfl, rfl, rfl⟩
  rw [if_neg h7]
  by_cases h8 : header.pkt_type = CMD_PINGREQ ∨ header.pkt_type = CMD_PINGRESP
      ∨ header.pkt_type = CMD_DISCONNECT
  · rw [if_pos h8]; exact ⟨rfl, rfl, rfl⟩
  rw [if_neg h8]
  exact ⟨rfl, rfl, rfl⟩

/-- The closing `if` of `snort_mqtt` leaves `state`, `session_flags` and
`bytes_processed` alone. -/
theorem snort_mqtt_finish_phase (header : MQTTFixedHeader) (o : MqttOutcome) :
    (snort_mqtt_finish header o).session.state = o.session.state ∧
    (snort_mqtt_finish header o).session.session_flags = o.session.session_flags ∧
    (snort_mqtt_finish header o).session.bytes_processed = o.session.bytes_processed := by
  unfold snort_mqtt_finish
  split_ifs <;> exact ⟨rfl, rfl, rfl⟩

/-- C35: for every session and packet, `snort_mqtt` leaves `session_flags` and
`bytes_processed` as they are in the session data (zero in session data it has just
created), and `state` is reset to `MQTT_STATE_NULL` exactly when the packet is a rebuilt
packet from the client before which the stream reports a gap; otherwise `state` is left as
it is, whatever the packet type and the outcome of the decode. -/
theorem C35_phase_fields_frame (cs : Bool) (max_msg_len : Nat) (p : Packet)
    (flow_data : Option MQTTData) (o : MqttOutcome)
    (h : snort_mqtt cs max_msg_len p flow_data = some o) :
    o.session.session_flags = (flow_data.getD {}).session_flags ∧
    o.session.bytes_processed = (flow_data.getD {}).bytes_processed ∧
    o.session.state =
      (if !p.is_from_server && p.rebuilt_stream && p.missing_before then MQTT_STATE_NULL
       else (flow_data.getD {}).state) := by
  obtain ⟨header, data_ptr, _, _, ho⟩ := snort_mqtt_eq_some cs max_msg_len p flow_data o h
  subst ho
  obtain ⟨f1, f2, f3⟩ := snort_mqtt_finish_phase header (snort_mqtt_switch cs header
    (snort_mqtt_session p flow_data) ⟨data_ptr.take (snort_mqtt_len header p), 0, false⟩)
  obtain ⟨s1, s2, s3⟩ := snort_mqtt_switch_phase cs header (snort_mqtt_session p flow_data)
    ⟨data_ptr.take (snort_mqtt_len header p), 0, false⟩
  rw [f1, f2, f3, s1, s2, s3]
  unfold snort_mqtt_session
  split_ifs <;> exact ⟨rfl, rfl, rfl⟩

/-- Witness for C35: a CONNACK on a session in state 2 with `session_flags` 5 and
`bytes_processed` 9, once as a plain packet and once as a rebuilt packet from the client
behind a gap. -/
theorem C35_phase_fields_frame_witness :
    ((5 : Nat) = ((some { state := 2, session_flags := 5, bytes_processed := 9 }
        : Option MQTTData).getD {}).session_flags ∧
     (9 : Nat) = ((some { state := 2, session_flags := 5, bytes_processed := 9 }
        : Option MQTTData).getD {}).bytes_processed ∧
     (2 : Nat) = (if !false && false && false then MQTT_STATE_NULL
       else ((some { state := 2, session_flags := 5, bytes_processed := 9 }
        : Option MQTTData).getD {}).state)) ∧
    ((5 : Nat) = ((some { state := 2, session_flags := 5, bytes_processed := 9 }
        : Option MQTTData).getD {}).session_flags ∧
     (9 : Nat) = ((some { state := 2, session_flags := 5, bytes_processed := 9 }
        : Option MQTTData).getD {}).bytes_processed ∧
     (0 : Nat) = (if !false && true && true then MQTT_STATE_NULL
       else ((some { state := 2, session_flags := 5, bytes_processed := 9 }
        : Option MQTTData).getD {}).state)) :=
  ⟨C35_phase_fields_frame true 0 { data := [0x20, 0x02, 0x00, 0x00] }
      (some { state := 2, session_flags := 5, bytes_processed := 9 })
      ⟨{ state := 2, session_flags := 5, bytes_processed := 9, prev_command := CMD_CONNACK
         current_command := some ⟨{ pkt_type := CMD_CONNACK, remaining_len := 2 },
           .Connack { return_code := some 0, session_present := some false }⟩ }, [], 0⟩
      (by decide),
   C35_phase_fields_frame true 0
      { data := [0x20, 0x02, 0x00, 0x00], rebuilt_stream := true, missing_before := true }
      (some { state := 2, session_flags := 5, bytes_processed := 9 })
      ⟨{ state := 0, session_flags := 5, bytes_processed := 9, prev_command := CMD_CONNACK
         current_command := some ⟨{ pkt_type := CMD_CONNACK, remaining_len := 2 },
           .Connack { return_code := some 0, session_present := some false }⟩ }, [], 0⟩
      (by decide)⟩

/-- The events of the two labels of the switch that decode nothing: the reserved type 0
queues ProtocolViolation, a type from 15 on queues UnknownType. -/
theorem snort_mqtt_switch_events (cs : Bool) (header : MQTTFixedHeader) (session : MQTTData)
    (stream : IStream) :
    (header.pkt_type = CMD_RESERVED →
      (snort_mqtt_switch cs header session stream).events = [MQTT_PROTO_VIOLATION] ∧
      (snort_mqtt_switch cs header session stream).ret = 0) ∧
    (CMD_LAST ≤ header.pkt_type →
      (snort_mqtt_switch cs header session stream).events = [MQTT_UNKNOWN_MSG_TYPE] ∧
      (snort_mqtt_switch cs header session stream).ret = 0) := by
  obtain ⟨t, b0, b1, b2, b3, rl⟩ := header
  unfold snort_mqtt_switch
  simp only [CMD_RESERVED, CMD_CONNECT, CMD_CONNACK, CMD_PUBLISH, CMD_PUBACK, CMD_PUBREC,
    CMD_PUBREL, CMD_PUBCOMP, CMD_SUBSCRIBE, CMD_SUBACK, CMD_UNSUBSCRIBE, CMD_PINGREQ,
    CMD_PINGRESP, CMD_DISCONNECT, CMD_LAST]
  constructor
  · intro h0
    rw [if_pos h0]
    exact ⟨rfl, rfl⟩
  · intro h15
    have : ¬ (t = 0) ∧ ¬ (t = 1) ∧ ¬ (t = 2) ∧ ¬ (t = 3) ∧ ¬ (t = 4) ∧ ¬ (t = 5) ∧
        ¬ (t = 6) ∧ ¬ (t = 7) ∧ ¬ (t = 8) ∧ ¬ (t = 9) ∧ ¬ (t = 10) ∧ ¬ (t = 12) ∧
        ¬ (t = 13) ∧ ¬ (t = 14) := by omega
    simp [this]

/-- The events after the closing `if` of `snort_mqtt`: a `ret` other than 0 and Eof is
queued behind the events of the switch. -/
theorem snort_mqtt_finish_events (header : MQTTFixedHeader) (o : MqttOutcome) :
    (snort_mqtt_finish header o).events
      = if o.ret = 0 ∨ o.ret = MQTT_EOF then o.events else o.events ++ [o.ret] := by
  unfold snort_mqtt_finish
  by_cases h0 : o.ret = 0
  · rw [if_neg (not_not.mpr h0), if_pos (Or.inl h0)]
  · rw [if_pos h0]
    by_cases h4 : o.ret = MQTT_EOF
    · rw [if_neg (not_not.mpr h4), if_pos (Or.inr h4)]
    · rw [if_pos h4, if_neg (by rintro (h | h); exact h0 h; exact h4 h)]

/-- C34 (counterexample): the packet `00 00` of the reserved type 0 makes `snort_mqtt`
queue ProtocolViolation, not UnknownType. -/
theorem C34_reserved_type_is_violation :
    (snort_mqtt true 0 { data := [0x00, 0x00] } none).map (fun o => o.events)
      = some [MQTT_PROTO_VIOLATION] ∧
    (MQTT_parse_fixed_header [0x00, 0x00] 0).map (fun r => r.1.pkt_type)
      = some CMD_RESERVED ∧
    [MQTT_PROTO_VIOLATION] ≠ [MQTT_UNKNOWN_MSG_TYPE] := by
  decide

/-- C34 (amended): on every packet for which it returns, `snort_mqtt` queues exactly
ProtocolViolation when the type is the reserved 0; exactly UnknownType when the type is
15; and when the switch selects a decode routine, exactly ProtocolViolation if that
returns ProtocolViolation, exactly UnsupportedVersion if it returns UnsupportedVersion,
and nothing if it returns 0 or Eof. -/
theorem C34_events_per_outcome (cs : Bool) (max_msg_len : Nat) (p : Packet)
    (flow_data : Option MQTTData) (o : MqttOutcome)
    (h : snort_mqtt cs max_msg_len p flow_data = some o) :
    ∃ header data_ptr,
      MQTT_parse_fixed_header (p.data ++ p.beyond) max_msg_len = some (header, data_ptr) ∧
      (header.pkt_type = CMD_RESERVED → o.events = [MQTT_PROTO_VIOLATION]) ∧
      (header.pkt_type = CMD_LAST → o.events = [MQTT_UNKNOWN_MSG_TYPE]) ∧
      (∀ ret body,
        snort_mqtt_decode cs header (snort_mqtt_session p flow_data).qos
          ⟨data_ptr.take (snort_mqtt_len header p), 0, false⟩ = some (ret, body) →
        (ret = MQTT_PROTO_VIOLATION → o.events = [MQTT_PROTO_VIOLATION]) ∧
        (ret = MQTT_PROTO_VERSION → o.events = [MQTT_PROTO_VERSION]) ∧
        (ret = 0 ∨ ret = MQTT_EOF → o.events = [])) := by
  obtain ⟨header, data_ptr, hh, _, ho⟩ := snort_mqtt_eq_some cs max_msg_len p flow_data o h
  subst ho
  obtain ⟨e0, e15⟩ := snort_mqtt_switch_events cs header (snort_mqtt_session p flow_data)
    ⟨data_ptr.take (snort_mqtt_len header p), 0, false⟩
  refine ⟨header, data_ptr, hh, fun h0 => ?_, fun h15 => ?_, fun ret body hdec => ?_⟩
  · obtain ⟨ev, r⟩ := e0 h0
    rw [snort_mqtt_finish_events, r, ev, if_pos (Or.inl rfl)]
  · obtain ⟨ev, r⟩ := e15 (Nat.le_of_eq h15.symm)
    rw [snort_mqtt_finish_events, r, ev, if_pos (Or.inl rfl)]
  · obtain ⟨r, _, ev⟩ := snort_mqtt_switch_decode cs header _ _ ret body hdec
    rw [snort_mqtt_finish_events, r, ev]
    refine ⟨fun e => ?_, fun e => ?_, fun e => ?_⟩
    · rw [e]
      decide
    · rw [e]
      decide
    · rw [if_pos e]

/-- Witness for C34 (amended): the CONNECT `10 07 00 04 4d 51 54 54 05` of protocol
version 5, which the decoder answers with UnsupportedVersion. -/
theorem C34_events_per_outcome_witness :
    ∃ header data_ptr,
      MQTT_parse_fixed_header
          (([0x10, 0x07, 0x00, 0x04, 0x4d, 0x51, 0x54, 0x54, 0x05] : List Byte) ++ []) 0
        = some (header, data_ptr) ∧
      (header.pkt_type = CMD_RESERVED →
        [MQTT_PROTO_VERSION] = [MQTT_PROTO_VIOLATION]) ∧
      (header.pkt_type = CMD_LAST → [MQTT_PROTO_VERSION] = [MQTT_UNKNOWN_MSG_TYPE]) ∧
      (∀ ret body,
        snort_mqtt_decode true header
          (snort_mqtt_session
            { data := [0x10, 0x07, 0x00, 0x04, 0x4d, 0x51, 0x54, 0x54, 0x05] } none).qos
          ⟨data_ptr.take (snort_mqtt_len header
            { data := [0x10, 0x07, 0x00, 0x04, 0x4d, 0x51, 0x54, 0x54, 0x05] }), 0, false⟩
          = some (ret, body) →
        (ret = MQTT_PROTO_VIOLATION → [MQTT_PROTO_VERSION] = [MQTT_PROTO_VIOLATION]) ∧
        (ret = MQTT_PROTO_VERSION → [MQTT_PROTO_VERSION] = [MQTT_PROTO_VERSION]) ∧
        (ret = 0 ∨ ret = MQTT_EOF → [MQTT_PROTO_VERSION] = ([] : List Nat))) :=
  C34_events_per_outcome true 0
    { data := [0x10, 0x07, 0x00, 0x04, 0x4d, 0x51, 0x54, 0x54, 0x05] } none
    ⟨{ current_command := some ⟨{ pkt_type := CMD_CONNECT, remaining_len := 7 },
         .Connect { protocol_string := MQTT_literal, protocol_version := some 5 }⟩ },
      [MQTT_PROTO_VERSION], MQTT_PROTO_VERSION⟩
    (by decide)

/-! ## The CONNECT flags -/

set_option maxRecDepth 100000 in
theorem Byte.bit4 : ∀ b : Byte, decide ((b.val &&& 16) ≠ 0) = b.val.testBit 4 := by decide

/-- The conditional tail of the CONNECT decoder does not touch the will retain flag, the
will qos or the clean session flag. -/
theorem connect_parse_optional_will (cs : Bool) (c : MQTTConnectCommand) (st : IStream) :
    (MQTTConnectCommand.parse_optional cs c st).will_retain = c.will_retain ∧
    (MQTTConnectCommand.parse_optional cs c st).will_qos = c.will_qos ∧
    (MQTTConnectCommand.parse_optional cs c st).clean_session = c.clean_session := by
  unfold MQTTConnectCommand.parse_optional
  by_cases hw : c.will_flag = some true <;> by_cases hu : c.username_flag = some true <;>
    by_cases hp : c.password_flag = some true <;> simp [hw, hu, hp]

/-- The extent of the flag defect: what a CONNECT decode that returns `0` has made of
its flags byte.  `will_retain` is bit 4 of the byte, not bit 5, and `will_qos` is the
byte masked with 24, not shifted. -/
theorem connect_parse_success_fields (cs : Bool) (c0 c : MQTTConnectCommand)
    (stream : IStream) (h : MQTTConnectCommand.parse cs c0 stream = (0, c)) :
    ∃ flags : Byte,
      c.username_flag = some (flags.val.testBit 7) ∧
      c.password_flag = some (flags.val.testBit 6) ∧
      c.will_retain = some (flags.val.testBit 4) ∧
      c.will_qos = some (flags.val &&& 24) ∧
      c.will_flag = some (flags.val.testBit 2) ∧
      c.clean_session = some (flags.val.testBit 1) ∧
      flags.val.testBit 0 = false := by
  have hne : ∀ (k : Nat) (x y : MQTTConnectCommand), k ≠ 0 → (k, x) = (0, y) → False :=
    fun k x y hk e => hk (congrArg Prod.fst e)
  unfold MQTTConnectCommand.parse at h
  rcases hpe : parse_enc_string cs stream c0.protocol_string with ⟨ok, st1, ps⟩
  rw [hpe] at h
  simp only at h
  split_ifs at h with h1 h2
  · exact (hne _ _ _ (by decide) h).elim
  · exact (hne _ _ _ (by decide) h).elim
  · rcases hg1 : st1.get with ⟨v, st2⟩
    rw [hg1] at h
    cases v with
    | none => exact (hne _ _ _ (by decide) h).elim
    | some v =>
      simp only at h
      split_ifs at h with h3
      · exact (hne _ _ _ (by decide) h).elim
      · rcases hg2 : st2.get with ⟨f, st3⟩
        rw [hg2] at h
        cases f with
        | none => exact (hne _ _ _ (by decide) h).elim
        | some f =>
          simp only at h
          split_ifs at h with h4 h5 h6
          · exact (hne _ _ _ (by decide) h).elim
          · exact (hne _ _ _ (by decide) h).elim
          · exact (hne _ _ _ (by decide) h).elim
          · have hc := congrArg Prod.snd h
            simp only at hc
            obtain ⟨e1, e2, e3, _⟩ := connect_parse_optional_flags cs
              { protocol_string := ps, protocol_version := some v.val,
                username_flag := some (decide (f.val &&& 128 ≠ 0)),
                password_flag := some (decide (f.val &&& 64 ≠ 0)),
                will_retain := some (decide (f.val &&& 16 ≠ 0)),
                will_qos := some (f.val &&& 24),
                will_flag := some (decide (f.val &&& 4 ≠ 0)),
                clean_session := some (decide (f.val &&& 2 ≠ 0)),
                keepalive := some (u16_of_read cs (st3.read 2).1),
                client_id := (parse_enc_string cs (st3.read 2).2 c0.client_id).2.2,
                will_topic := c0.will_topic, will_message := c0.will_message,
                username := c0.username, password := c0.password }
              (parse_enc_string cs (st3.read 2).2 c0.client_id).2.1
            obtain ⟨e4, e5, e6⟩ := connect_parse_optional_will cs
              { protocol_string := ps, protocol_version := some v.val,
                username_flag := some (decide (f.val &&& 128 ≠ 0)),
                password_flag := some (decide (f.val &&& 64 ≠ 0)),
                will_retain := some (decide (f.val &&& 16 ≠ 0)),
                will_qos := some (f.val &&& 24),
                will_flag := some (decide (f.val &&& 4 ≠ 0)),
                clean_session := some (decide (f.val &&& 2 ≠ 0)),
                keepalive := some (u16_of_read cs (st3.read 2).1),
                client_id := (parse_enc_string cs (st3.read 2).2 c0.client_id).2.2,
                will_topic := c0.will_topic, will_message := c0.will_message,
                username := c0.username, password := c0.password }
              (parse_enc_string cs (st3.read 2).2 c0.client_id).2.1
            rw [hc] at e1 e2 e3 e4 e5 e6
            have hb0 : f.val.testBit 0 = false := by
              rw [← Byte.bit0]
              exact decide_eq_false h4
            exact ⟨f, by rw [e1, Byte.bit7], by rw [e2, Byte.bit6], by rw [e4, Byte.bit4],
              e5, by rw [e3, Byte.bit2], by rw [e6, Byte.bit1], hb0⟩

/-- C33 (code defect): two CONNECT packets with a will that are decoded with result `0`.
With the flags byte `2c` (will retain, will qos 1, will flag) the decoder stores
`will_retain = false` and `will_qos = 8`; with the flags byte `14` (will qos 2, will
flag, no will retain) it stores `will_retain = true` and `will_qos = 16`.  The mask of
`will_retain` is 16, bit 4, and `will_qos` is not shifted. -/
theorem C33_will_flags_misdecoded :
    (∀ cs : Bool,
      (MQTTConnectCommand.parse cs {}
        ⟨[0x00, 0x04, 0x4d, 0x51, 0x54, 0x54, 0x04, 0x2c, 0x00, 0x3c, 0x00, 0x01, 0x61,
          0x00, 0x01, 0x74, 0x00, 0x01, 0x6d], 0, false⟩).1 = 0 ∧
      (MQTTConnectCommand.parse cs {}
        ⟨[0x00, 0x04, 0x4d, 0x51, 0x54, 0x54, 0x04, 0x2c, 0x00, 0x3c, 0x00, 0x01, 0x61,
          0x00, 0x01, 0x74, 0x00, 0x01, 0x6d], 0, false⟩).2.will_retain = some false ∧
      (MQTTConnectCommand.parse cs {}
        ⟨[0x00, 0x04, 0x4d, 0x51, 0x54, 0x54, 0x04, 0x2c, 0x00, 0x3c, 0x00, 0x01, 0x61,
          0x00, 0x01, 0x74, 0x00, 0x01, 0x6d], 0, false⟩).2.will_qos = some 8 ∧
      (MQTTConnectCommand.parse cs {}
        ⟨[0x00, 0x04, 0x4d, 0x51, 0x54, 0x54, 0x04, 0x14, 0x00, 0x3c, 0x00, 0x01, 0x61,
          0x00, 0x01, 0x74, 0x00, 0x01, 0x6d], 0, false⟩).1 = 0 ∧
      (MQTTConnectCommand.parse cs {}
        ⟨[0x00, 0x04, 0x4d, 0x51, 0x54, 0x54, 0x04, 0x14, 0x00, 0x3c, 0x00, 0x01, 0x61,
          0x00, 0x01, 0x74, 0x00, 0x01, 0x6d], 0, false⟩).2.will_retain = some true ∧
      (MQTTConnectCommand.parse cs {}
        ⟨[0x00, 0x04, 0x4d, 0x51, 0x54, 0x54, 0x04, 0x14, 0x00, 0x3c, 0x00, 0x01, 0x61,
          0x00, 0x01, 0x74, 0x00, 0x01, 0x6d], 0, false⟩).2.will_qos = some 16) ∧
    (0x2c : Byte).val.testBit 5 = true ∧ ((0x2c : Byte).val >>> 3) &&& 3 = 1 ∧
    (0x14 : Byte).val.testBit 5 = false ∧ ((0x14 : Byte).val >>> 3) &&& 3 = 2 := by
  refine ⟨fun cs => ?_, by decide, by decide, by decide, by decide⟩
  cases cs <;> decide

end Mqtt

namespace ByteMath

/-! # Properties of the `byte_math` rule option -/

/-- The bitmask step does not enlarge the value. -/
theorem eval_bitmask_le (env : ByteMathEnv) (config : ByteMathData) (value : Nat) :
    ByteMathOption.eval_bitmask env config value ≤ value := by
  unfold ByteMathOption.eval_bitmask
  simp only
  split_ifs
  · rw [Nat.shiftRight_eq_div_pow]
    exact Nat.le_trans (Nat.div_le_self _ _) Nat.and_le_left
  · exact Nat.and_le_left
  · exact Nat.le_refl _

/-- The extracted value that enters the switch fits 32 bits. -/
theorem eval_value_lt (env : ByteMathEnv) (config : ByteMathData) (c : Cursor) (p : Packet)
    (value : Nat) (h : ByteMathOption.eval_value env config c p = some value) :
    value < 2 ^ 32 := by
  have hb : ∀ v, ByteMathOption.eval_bitmask env config (v % 2 ^ 32) < 2 ^ 32 := fun v =>
    Nat.lt_of_le_of_lt (eval_bitmask_le _ _ _) (Nat.mod_lt _ (by decide))
  unfold ByteMathOption.eval_value at h
  simp only at h
  split_ifs at h
  all_goals
    split at h
    · cases h
    · split at h
      · cases h
      · cases h
        exact hb _

/-- The value that `eval` takes for `rvalue` fits 32 bits when the member `rvalue` of the
option does. -/
theorem eval_rvalue_lt (env : ByteMathEnv) (config : ByteMathData) (rvalue : Nat)
    (hlit : config.rvalue < 2 ^ 32)
    (h : ByteMathOption.eval_rvalue env config = some rvalue) : rvalue < 2 ^ 32 := by
  unfold ByteMathOption.eval_rvalue at h
  simp only at h
  split_ifs at h
  · cases h
    exact Nat.mod_lt _ (by decide)
  · cases h
    exact hlit

/-- What `eval` returns once `rvalue` is selected and the value is extracted. -/
theorem eval_of_stages (env : ByteMathEnv) (config : ByteMathData) (c : Cursor) (p : Packet)
    (value rvalue : Nat) (hr : ByteMathOption.eval_rvalue env config = some rvalue)
    (hv : ByteMathOption.eval_value env config c p = some value) :
    ByteMathOption.eval env config c (some p)
      = ByteMathOption.eval_oper config.oper value rvalue := by
  unfold ByteMathOption.eval
  simp only [hr, hv]

/-- The overflow test of `BM_PLUS` on 32-bit operands. -/
theorem eval_oper_plus (value rvalue : Nat) (hv : value < 2 ^ 32) (hr : rvalue < 2 ^ 32) :
    ByteMathOption.eval_oper .BM_PLUS value rvalue
      = if value + rvalue < 2 ^ 32 then .MATCH (value + rvalue) else .NO_MATCH := by
  unfold ByteMathOption.eval_oper
  simp only
  by_cases h : value + rvalue < 2 ^ 32
  · rw [if_pos h, Nat.mod_eq_of_lt h, if_neg (by omega)]
  · rw [if_neg h, if_pos (by omega)]

/-- The underflow test of `BM_MINUS` on 32-bit operands. -/
theorem eval_oper_minus (value rvalue : Nat) (hv : value < 2 ^ 32) (hr : rvalue < 2 ^ 32) :
    ByteMathOption.eval_oper .BM_MINUS value rvalue
      = if rvalue ≤ value then .MATCH (value - rvalue) else .NO_MATCH := by
  unfold ByteMathOption.eval_oper
  simp only
  by_cases h : rvalue ≤ value
  · rw [if_pos h, if_neg (by omega)]
    congr 1
    omega
  · rw [if_neg h, if_pos (by omega)]

/-- The overflow test of `BM_MULTIPLY` on 32-bit operands. -/
theorem eval_oper_multiply (value rvalue : Nat) :
    ByteMathOption.eval_oper .BM_MULTIPLY value rvalue
      = if value * rvalue < 2 ^ 32 then .MATCH (value * rvalue) else .NO_MATCH := by
  unfold ByteMathOption.eval_oper
  simp only
  by_cases h : value * rvalue < 2 ^ 32
  · rw [if_pos h, Nat.mod_eq_of_lt h]
    by_cases hr0 : rvalue = 0
    · rw [if_neg (by simp [hr0])]
    · rw [if_neg]
      intro hc
      exact hc.2.2 (Nat.mul_div_cancel _ (Nat.pos_of_ne_zero hr0))
  · rw [if_neg h]
    have hv0 : value ≠ 0 := by
      intro h0
      apply h
      rw [h0, Nat.zero_mul]
      decide
    have hr0 : rvalue ≠ 0 := by
      intro h0
      apply h
      rw [h0, Nat.mul_zero]
      decide
    rw [if_pos]
    refine ⟨hv0, hr0, fun hc => h ?_⟩
    have h1 := Nat.div_mul_le_self (value * rvalue % 2 ^ 32) rvalue
    rw [hc] at h1
    exact Nat.lt_of_le_of_lt h1 (Nat.mod_lt _ (by decide))

/-- The packet `Lorem 12345` of the unit tests (ips_byte_math.cc:835-837) with the
options of four sections of `ByteMathOption::eval valid` and of the four sections of
`ByteMathOption::eval invalid` that are about the operators, in the environment that the
tests set up: the stored results and the `NO_MATCH` results are those that the tests
check. -/
theorem eval_unit_tests :
    ByteMathOption.eval (ByteMathEnv.sample (fun _ => 0))
        { bytes_to_extract := 1, rvalue := 1, oper := .BM_PLUS, endianess := 1
          result_var := 0, rvalue_var := -1, offset_var := -1 }
        ⟨[0x4c, 0x6f, 0x72, 0x65, 0x6d, 0x20, 0x31, 0x32, 0x33, 0x34, 0x35], 0, 0⟩ (some {})
      = .MATCH 77 ∧
    ByteMathOption.eval (ByteMathEnv.sample (fun _ => 0))
        { bytes_to_extract := 1, rvalue := 2, offset := 3, oper := .BM_MULTIPLY
          endianess := 1, result_var := 0, rvalue_var := -1, offset_var := -1 }
        ⟨[0x4c, 0x6f, 0x72, 0x65, 0x6d, 0x20, 0x31, 0x32, 0x33, 0x34, 0x35], 0, 0⟩ (some {})
      = .MATCH 202 ∧
    ByteMathOption.eval (ByteMathEnv.sample (fun _ => 0))
        { bytes_to_extract := 1, rvalue := 3, offset := 3, oper := .BM_MINUS
          relative_flag := true, endianess := 1, result_var := 0, rvalue_var := -1
          offset_var := -1 }
        ⟨[0x4c, 0x6f, 0x72, 0x65, 0x6d, 0x20, 0x31, 0x32, 0x33, 0x34, 0x35], 3, 0⟩ (some {})
      = .MATCH 46 ∧
    ByteMathOption.eval (ByteMathEnv.sample (fun _ => 0))
        { bytes_to_extract := 1, rvalue := 4, offset := -3, oper := .BM_DIVIDE
          relative_flag := true, endianess := 1, result_var := 0, rvalue_var := -1
          offset_var := -1 }
        ⟨[0x4c, 0x6f, 0x72, 0x65, 0x6d, 0x20, 0x31, 0x32, 0x33, 0x34, 0x35], 3, 0⟩ (some {})
      = .MATCH 19 ∧
    ByteMathOption.eval (ByteMathEnv.sample (fun _ => 0))
        { bytes_to_extract := 1, rvalue := 256, oper := .BM_MINUS, endianess := 1
          result_var := 0, rvalue_var := -1, offset_var := -1 }
        ⟨[0x4c, 0x6f, 0x72, 0x65, 0x6d, 0x20, 0x31, 0x32, 0x33, 0x34, 0x35], 0, 0⟩ (some {})
      = .NO_MATCH ∧
    ByteMathOption.eval (ByteMathEnv.sample (fun _ => 0))
        { bytes_to_extract := 1, rvalue := 4294967295, oper := .BM_PLUS, endianess := 1
          result_var := 0, rvalue_var := -1, offset_var := -1 }
        ⟨[0x4c, 0x6f, 0x72, 0x65, 0x6d, 0x20, 0x31, 0x32, 0x33, 0x34, 0x35], 0, 0⟩ (some {})
      = .NO_MATCH ∧
    ByteMathOption.eval (ByteMathEnv.sample (fun _ => 0))
        { bytes_to_extract := 1, rvalue := 2147483647, oper := .BM_MULTIPLY, endianess := 1
          result_var := 0, rvalue_var := -1, offset_var := -1 }
        ⟨[0x4c, 0x6f, 0x72, 0x65, 0x6d, 0x20, 0x31, 0x32, 0x33, 0x34, 0x35], 0, 0⟩ (some {})
      = .NO_MATCH ∧
    ByteMathOption.eval (ByteMathEnv.sample (fun i => if i = 0 then 1 else 0))
        { bytes_to_extract := 1, rvalue := 0, oper := .BM_DIVIDE, endianess := 1
          result_var := 0, rvalue_var := 1, offset_var := -1 }
        ⟨[0x4c, 0x6f, 0x72, 0x65, 0x6d, 0x20, 0x31, 0x32, 0x33, 0x34, 0x35], 0, 0⟩ (some {})
      = .NO_MATCH := by
  decide

/-- C28: for the operators `+`, `-` and `*`, once `eval` has selected `rvalue` and
extracted `value`, it returns `NO_MATCH` exactly when the exact integer result of the
operator on the two lies outside `[0, 2^32 - 1]`, and otherwise it stores that exact
result and returns `MATCH`. -/
theorem C28_byte_math_no_wrap (env : ByteMathEnv) (config : ByteMathData) (c : Cursor)
    (p : Packet) (value rvalue : Nat) (hlit : config.rvalue < 2 ^ 32)
    (hr : ByteMathOption.eval_rvalue env config = some rvalue)
    (hv : ByteMathOption.eval_value env config c p = some value) :
    (config.oper = .BM_PLUS →
      ByteMathOption.eval env config c (some p)
        = if 0 ≤ (value : Int) + rvalue ∧ (value : Int) + rvalue ≤ 2 ^ 32 - 1
          then .MATCH ((value : Int) + rvalue).toNat else .NO_MATCH) ∧
    (config.oper = .BM_MINUS →
      ByteMathOption.eval env config c (some p)
        = if 0 ≤ (value : Int) - rvalue ∧ (value : Int) - rvalue ≤ 2 ^ 32 - 1
          then .MATCH ((value : Int) - rvalue).toNat else .NO_MATCH) ∧
    (config.oper = .BM_MULTIPLY →
      ByteMathOption.eval env config c (some p)
        = if 0 ≤ (value : Int) * rvalue ∧ (value : Int) * rvalue ≤ 2 ^ 32 - 1
          then .MATCH ((value : Int) * rvalue).toNat else .NO_MATCH) := by
  have hvl := eval_value_lt env config c p value hv
  have hrl := eval_rvalue_lt env config rvalue hlit hr
  have he := eval_of_stages env config c p value rvalue hr hv
  refine ⟨fun hop => ?_, fun hop => ?_, fun hop => ?_⟩
  · rw [he, hop, eval_oper_plus value rvalue hvl hrl]
    have e : ((value : Int) + rvalue).toNat = value + rvalue := by omega
    by_cases h : value + rvalue < 2 ^ 32
    · rw [if_pos h, if_pos (by omega), e]
    · rw [if_neg h, if_neg (by omega)]
  · rw [he, hop, eval_oper_minus value rvalue hvl hrl]
    by_cases h : rvalue ≤ value
    · have e : ((value : Int) - rvalue).toNat = value - rvalue := by omega
      rw [if_pos h, if_pos (by omega), e]
    · rw [if_neg h, if_neg (by omega)]
  · rw [he, hop, eval_oper_multiply value rvalue]
    have e : ((value : Int) * rvalue).toNat = value * rvalue := by
      rw [← Int.natCast_mul]
      exact Int.toNat_natCast _
    have e2 : (value : Int) * rvalue = ((value * rvalue : Nat) : Int) := by
      rw [Int.natCast_mul]
    by_cases h : value * rvalue < 2 ^ 32
    · rw [if_pos h, if_pos (by rw [e2]; omega), e]
    · rw [if_neg h, if_neg (by rw [e2]; omega)]

/-- Witness for C28: the sections `out of bounds of unit_32t, PLUS` and `1 byte read,
all off, operation "+", rvalue 1` of the unit tests, with the extracted byte `L` (76). -/
theorem C28_byte_math_no_wrap_witness :
    ByteMathOption.eval (ByteMathEnv.sample (fun _ => 0))
        { bytes_to_extract := 1, rvalue := 4294967295, oper := .BM_PLUS, endianess := 1
          result_var := 0, rvalue_var := -1, offset_var := -1 }
        ⟨[0x4c, 0x6f, 0x72, 0x65, 0x6d, 0x20, 0x31, 0x32, 0x33, 0x34, 0x35], 0, 0⟩ (some {})
      = (if 0 ≤ ((76 : Nat) : Int) + (4294967295 : Nat) ∧
            ((76 : Nat) : Int) + (4294967295 : Nat) ≤ 2 ^ 32 - 1
         then .MATCH (((76 : Nat) : Int) + (4294967295 : Nat)).toNat else .NO_MATCH) ∧
    ByteMathOption.eval (ByteMathEnv.sample (fun _ => 0))
        { bytes_to_extract := 1, rvalue := 1, oper := .BM_PLUS, endianess := 1
          result_var := 0, rvalue_var := -1, offset_var := -1 }
        ⟨[0x4c, 0x6f, 0x72, 0x65, 0x6d, 0x20, 0x31, 0x32, 0x33, 0x34, 0x35], 0, 0⟩ (some {})
      = (if 0 ≤ ((76 : Nat) : Int) + (1 : Nat) ∧ ((76 : Nat) : Int) + (1 : Nat) ≤ 2 ^ 32 - 1
         then .MATCH (((76 : Nat) : Int) + (1 : Nat)).toNat else .NO_MATCH) :=
  ⟨(C28_byte_math_no_wrap (ByteMathEnv.sample (fun _ => 0))
      { bytes_to_extract := 1, rvalue := 4294967295, oper := .BM_PLUS, endianess := 1
        result_var := 0, rvalue_var := -1, offset_var := -1 }
      ⟨[0x4c, 0x6f, 0x72, 0x65, 0x6d, 0x20, 0x31, 0x32, 0x33, 0x34, 0x35], 0, 0⟩ {}
      76 4294967295 (by decide) (by decide) (by decide)).1 rfl,
   (C28_byte_math_no_wrap (ByteMathEnv.sample (fun _ => 0))
      { bytes_to_extract := 1, rvalue := 1, oper := .BM_PLUS, endianess := 1
        result_var := 0, rvalue_var := -1, offset_var := -1 }
      ⟨[0x4c, 0x6f, 0x72, 0x65, 0x6d, 0x20, 0x31, 0x32, 0x33, 0x34, 0x35], 0, 0⟩ {}
      76 1 (by decide) (by decide) (by decide)).1 rfl⟩

/-- The guarded half of the division: when `rvalue` comes from a rule variable and that
variable holds 0, `eval` with the operator `/` returns `NO_MATCH`. -/
theorem eval_divide_variable_zero (env : ByteMathEnv) (config : ByteMathData) (c : Cursor)
    (p : Option Packet) (hop : config.oper = .BM_DIVIDE)
    (hvar : 0 ≤ config.rvalue_var ∧ config.rvalue_var < env.NUM_IPS_OPTIONS_VARS)
    (hzero : env.GetVarValueByIndex config.rvalue_var % 2 ^ 32 = 0) :
    ByteMathOption.eval env config c p = .NO_MATCH := by
  have hr : ByteMathOption.eval_rvalue env config = none := by
    unfold ByteMathOption.eval_rvalue
    simp only
    rw [if_pos hvar, if_pos ⟨hzero, hop⟩]
  unfold ByteMathOption.eval
  cases p with
  | none => rfl
  | some p => simp only [hr]

/-- The unguarded half of the division: when `rvalue` is the member of the option and
that member is 0, `eval` with the operator `/` reaches the division with the divisor 0
whenever a value is extracted. -/
theorem eval_divide_literal_zero (env : ByteMathEnv) (config : ByteMathData) (c : Cursor)
    (p : Packet) (value : Nat) (hop : config.oper = .BM_DIVIDE)
    (hvar : ¬ (0 ≤ config.rvalue_var ∧ config.rvalue_var < env.NUM_IPS_OPTIONS_VARS))
    (hzero : config.rvalue = 0)
    (hv : ByteMathOption.eval_value env config c p = some value) :
    ByteMathOption.eval env config c (some p) = .UNDEFINED := by
  have hr : ByteMathOption.eval_rvalue env config = some 0 := by
    unfold ByteMathOption.eval_rvalue
    rw [if_neg hvar, hzero]
  rw [eval_of_stages env config c p value 0 hr hv, hop]
  rfl

/-- C29 (code defect): on the packet of the unit tests, the option with the operator
`/`, the member `rvalue` 0 and no rule variable for it divides by zero, whereas the same
option with a rule variable that holds 0 returns `NO_MATCH`.  The member is 0 in the
state that `ByteMathModule::begin` leaves, so when the rule gives no `rvalue`, and after
`ByteMathModule::set` has accepted the literal 4294967296, which the assignment to the
`uint32_t` member truncates; `set` refuses the literal 0. -/
theorem C29_literal_zero_divides :
    ByteMathOption.eval (ByteMathEnv.sample (fun _ => 0))
        { bytes_to_extract := 1, rvalue := 0, oper := .BM_DIVIDE, endianess := 1
          result_var := 0, rvalue_var := -1, offset_var := -1 }
        ⟨[0x4c, 0x6f, 0x72, 0x65, 0x6d, 0x20, 0x31, 0x32, 0x33, 0x34, 0x35], 0, 0⟩ (some {})
      = .UNDEFINED ∧
    ByteMathOption.eval (ByteMathEnv.sample (fun _ => 0))
        { bytes_to_extract := 1, rvalue := 0, oper := .BM_DIVIDE, endianess := 1
          result_var := 0, rvalue_var := 1, offset_var := -1 }
        ⟨[0x4c, 0x6f, 0x72, 0x65, 0x6d, 0x20, 0x31, 0x32, 0x33, 0x34, 0x35], 0, 0⟩ (some {})
      = .NO_MATCH ∧
    ({} : ByteMathModule).data.rvalue = 0 ∧
    ByteMathModule.set_rvalue {} (some 0) "0" = (false, {}) ∧
    ByteMathModule.set_rvalue {} (some 4294967296) "4294967296"
      = (true, { data := { rvalue := 0 } }) := by
  decide

/-- C30: two `ByteMathOption` objects that `operator==` takes for equal have the same
hash, provided that the base class keeps to this for its part of the object; and the
hash does not depend on `result_name`, which `operator==` does not compare. -/
theorem C30_hash_consistent_with_eq {β : Type} (env : IpsOptionEnv β)
    (hbase : ∀ x y, env.operator_eq x y = true → env.hash x = env.hash y)
    (a b : ByteMathOption β) (h : ByteMathOption.operator_eq env a b = true) :
    ByteMathOption.hash env a = ByteMathOption.hash env b ∧
    ∀ result_name : Option String,
      ByteMathOption.hash env { a with config := { a.config with result_name := result_name } }
        = ByteMathOption.hash env a := by
  refine ⟨?_, fun _ => rfl⟩
  unfold ByteMathOption.operator_eq at h
  simp only at h
  split_ifs at h with h1 h2
  have hb : env.hash a.base = env.hash b.base := by
    apply hbase
    cases hq : env.operator_eq a.base b.base
    · rw [hq] at h1
      exact absurd rfl h1
    · rfl
  obtain ⟨e1, e2, e3, e4, e5, e6, e7, e8, e9, e10, e11, e12⟩ := h2
  unfold ByteMathOption.hash
  rw [e1, e2, e3, e4, e5, e6, e7, e8, e9, e10, e11, e12, hb]

/-- Witness for C30: the two options of the unit test
`ByteMathOption::operator== valid`, which differ in `result_name` only, with a base
class whose objects are all equal. -/
theorem C30_hash_consistent_with_eq_witness :
    ByteMathOption.hash (⟨id, id, fun _ => 7, fun _ _ => true⟩ : IpsOptionEnv Unit)
        ⟨(), { rvalue := 25, result_name := some "test_lhs", endianess := 1
               result_var := -1, rvalue_var := -1, offset_var := -1 }⟩
      = ByteMathOption.hash (⟨id, id, fun _ => 7, fun _ _ => true⟩ : IpsOptionEnv Unit)
        ⟨(), { rvalue := 25, result_name := some "test_rhs", endianess := 1
               result_var := -1, rvalue_var := -1, offset_var := -1 }⟩ :=
  (C30_hash_consistent_with_eq (⟨id, id, fun _ => 7, fun _ _ => true⟩ : IpsOptionEnv Unit)
    (fun _ _ _ => rfl)
    ⟨(), { rvalue := 25, result_name := some "test_lhs", endianess := 1
           result_var := -1, rvalue_var := -1, offset_var := -1 }⟩
    ⟨(), { rvalue := 25, result_name := some "test_rhs", endianess := 1
           result_var := -1, rvalue_var := -1, offset_var := -1 }⟩
    (by decide)).1

/-! ## The check of the shift count -/

/-- The extent of the shift defect: a configuration with a shift operator that
`ByteMathVerify` accepts has an `rvalue` of at most 32. -/
theorem verify_shift_le (max_bytes : Nat) (numBytesInBitmask : Nat → Nat)
    (data : ByteMathData) (hop : data.oper = .BM_LEFT_SHIFT ∨ data.oper = .BM_RIGHT_SHIFT)
    (h : ByteMathVerify max_bytes numBytesInBitmask data = true) : data.rvalue ≤ 32 := by
  unfold ByteMathVerify at h
  split at h
  · cases h
  · split_ifs at h with h1 h2
    exact Nat.le_of_not_lt (fun hgt => h2 ⟨hop, hgt⟩)

/-- A shift by 32 bits, which C++ leaves undefined for the 32-bit operand, is what `eval`
executes for an option with a shift operator and the `rvalue` 32 whenever a value is
extracted. -/
theorem eval_shift_32 (env : ByteMathEnv) (config : ByteMathData) (c : Cursor) (p : Packet)
    (value : Nat) (hop : config.oper = .BM_LEFT_SHIFT ∨ config.oper = .BM_RIGHT_SHIFT)
    (hvar : ¬ (0 ≤ config.rvalue_var ∧ config.rvalue_var < env.NUM_IPS_OPTIONS_VARS))
    (h32 : config.rvalue = 32)
    (hv : ByteMathOption.eval_value env config c p = some value) :
    ByteMathOption.eval env config c (some p) = .UNDEFINED := by
  have hr : ByteMathOption.eval_rvalue env config = some 32 := by
    unfold ByteMathOption.eval_rvalue
    rw [if_neg hvar, h32]
  rw [eval_of_stages env config c p value 32 hr hv]
  rcases hop with hop | hop <;> rw [hop] <;> rfl

/-- The sections `shift > 32 checks`, `name existence check`, `name not numeric check`
and `bitmask checks` of the unit test `ByteMathVerify invalid` and the first section of
`ByteMathVerify valid` give the results that the tests check. -/
theorem verify_unit_tests :
    ByteMathVerify 4 numBytesInBitmask_sample
        { bytes_to_extract := 1, rvalue := 33, offset := 25, bitmask_val := 1023
          result_name := some "test", oper := .BM_LEFT_SHIFT, relative_flag := true }
      = false ∧
    ByteMathVerify 4 numBytesInBitmask_sample
        { bytes_to_extract := 1, rvalue := 33, offset := 25, bitmask_val := 1023
          result_name := some "test", oper := .BM_RIGHT_SHIFT, relative_flag := true }
      = false ∧
    ByteMathVerify 4 numBytesInBitmask_sample
        { bytes_to_extract := 1, rvalue := 9, offset := 25, bitmask_val := 1023
          result_name := none, relative_flag := true } = false ∧
    ByteMathVerify 4 numBytesInBitmask_sample
        { bytes_to_extract := 1, rvalue := 9, offset := 25, bitmask_val := 1023
          result_name := some "9est", relative_flag := true } = false ∧
    ByteMathVerify 4 numBytesInBitmask_sample
        { bytes_to_extract := 2, rvalue := 9, offset := 25, bitmask_val := 1048575
          result_name := some "test", relative_flag := true } = false ∧
    ByteMathVerify 4 numBytesInBitmask_sample
        { bytes_to_extract := 1, rvalue := 0, offset := -65535
          result_name := some "test", relative_flag := true } = true := by
  decide

/-- C36 (code defect): `ByteMathVerify` accepts a configuration with the operator `<<`
or `>>` and the `rvalue` 32, which is not less than 32; it rejects the same
configuration with the `rvalue` 33.  The option accepted with the `rvalue` 32 shifts the
32-bit value by 32 bits in `eval`. -/
theorem C36_shift_by_32_accepted :
    ByteMathVerify 4 numBytesInBitmask_sample
        { bytes_to_extract := 1, rvalue := 32, offset := 25, result_name := some "test"
          oper := .BM_LEFT_SHIFT, relative_flag := true } = true ∧
    ByteMathVerify 4 numBytesInBitmask_sample
        { bytes_to_extract := 1, rvalue := 32, offset := 25, result_name := some "test"
          oper := .BM_RIGHT_SHIFT, relative_flag := true } = true ∧
    ByteMathVerify 4 numBytesInBitmask_sample
        { bytes_to_extract := 1, rvalue := 33, offset := 25, result_name := some "test"
          oper := .BM_LEFT_SHIFT, relative_flag := true } = false ∧
    ¬ ((32 : Nat) < 32) ∧
    ByteMathOption.eval (ByteMathEnv.sample (fun _ => 0))
        { bytes_to_extract := 1, rvalue := 32, oper := .BM_LEFT_SHIFT, endianess := 1
          result_name := some "test", result_var := 0, rvalue_var := -1, offset_var := -1 }
        ⟨[0x4c, 0x6f, 0x72, 0x65, 0x6d, 0x20, 0x31, 0x32, 0x33, 0x34, 0x35], 0, 0⟩ (some {})
      = .UNDEFINED := by
  decide

end ByteMath
